import Mathlib

/-!
# Common::Vec2 / Vec3 / Vec4 (src/common/vector_math.h)

A shallow embedding of the small-vector library.  The templates are generic in the
component type; here they are generic in a type `α` carrying the operators the C++
body uses.  The `float` instantiation is `F32`, a bit-level model of IEEE-754 binary32
with round-to-nearest-even.  Every operation that the header implements several times
(`if constexpr (is_vectorizable)` / `#if defined(HAVE_SSE2)` / `#elif defined(HAVE_NEON)`)
takes the compiled-in branch as a `Path` argument.  A default-initialised or
three-argument-constructed `Vec3` leaves `pad` indeterminate: operations that build
their result that way take the indeterminate value as an explicit argument `u`.
A parameter taken by reference that may refer into the receiver (`const V& f` of the
compound assignments) is a `ScalarRef` or `VecRef`; the members generated by the swizzle
macros are the tables the macros expand to.  The namespace `PicaToVK` holds the
functions of src/video_core/renderer_vulkan/pica_to_vk.h, the namespace `GameSettings`
the per-title overrides of src/android/app/src/main/jni/game_settings.cpp.
-/

set_option maxRecDepth 100000
set_option exponentiation.threshold 2000

namespace Common

/-! ## binary32 -/

/-- Floor of the base-2 logarithm by repeated halving, `fuel` bounding the number of
halvings. -/
def log2Aux : Nat → Nat → Nat
  | 0, _ => 0
  | fuel + 1, n => if n < 2 then 0 else log2Aux fuel (n / 2) + 1

/-- Floor of the base-2 logarithm, sixteen bits at a time. -/
def log2Chunk : Nat → Nat → Nat
  | 0, _ => 0
  | fuel + 1, n => if n < 2 ^ 16 then log2Aux 16 n else log2Chunk fuel (n / 2 ^ 16) + 16

/-- Floor of the base-2 logarithm (`0` for `0`). -/
def ilog2 (n : Nat) : Nat := log2Chunk n n

/-- An IEEE-754 binary32 datum given by its sign bit, 8-bit biased exponent field and
23-bit fraction field.  Structural equality is equality of bit patterns. -/
structure F32 where
  sign : Bool
  expo : Nat
  mant : Nat
  hexpo : expo < 256
  hmant : mant < 2 ^ 23
deriving DecidableEq

namespace F32

/-- The datum with the given 32-bit pattern. -/
def ofBits (b : Nat) : F32 :=
  ⟨b / 2 ^ 31 % 2 == 1, b / 2 ^ 23 % 256, b % 2 ^ 23,
    Nat.mod_lt _ (by decide), Nat.mod_lt _ (by decide)⟩

/-- The 32-bit pattern of a datum. -/
def toBits (f : F32) : Nat :=
  (if f.sign then 2 ^ 31 else 0) + f.expo * 2 ^ 23 + f.mant

/-- The one NaN of the model.  Every NaN result of arithmetic is represented by this
pattern (`0x7FC00000`, the default NaN of Arm).  The sign and the payload of a NaN that
the hardware produces depend on the target (an invalid operation such as `0/0` gives
`0xFFC00000` on x86, in scalar and in SSE code alike) and are not modelled, nor is
payload propagation: of a NaN result of the program only `isNaN` is meaningful. -/
def qnan : F32 := ⟨false, 255, 2 ^ 22, by decide, by decide⟩

/-- Signed infinity. -/
def inf (s : Bool) : F32 := ⟨s, 255, 0, by decide, by decide⟩

/-- Signed zero. -/
def zero (s : Bool) : F32 := ⟨s, 0, 0, by decide, by decide⟩

def isNaN (f : F32) : Bool := f.expo == 255 && f.mant != 0

/-- Neither NaN nor infinite. -/
def isFinite (f : F32) : Bool := f.expo != 255

/-- Magnitude of a finite datum in units of `2^-149`. -/
def units (f : F32) : Nat :=
  if f.expo = 0 then f.mant else (2 ^ 23 + f.mant) * 2 ^ (f.expo - 1)

/-- The value class of a datum. -/
inductive View where
  | nan : View
  | inf (s : Bool) : View
  | fin (s : Bool) (n : Nat) : View
deriving DecidableEq

def view (f : F32) : View :=
  if f.expo = 255 then (if f.mant = 0 then .inf f.sign else .nan) else .fin f.sign f.units

/-- The datum of sign `s` and magnitude `q * 2^(e-149)` for a significand `q` that
has been rounded to at most 24 bits (`q = 2^24` when rounding carried out of the
significand); infinity when the exponent is out of range. -/
def pack (s : Bool) (q e : Nat) : F32 :=
  if h0 : q < 2 ^ 23 then ⟨s, 0, q, by decide, h0⟩
  else if h1 : q < 2 ^ 24 ∧ e + 1 < 255 then ⟨s, e + 1, q - 2 ^ 23, by omega, by omega⟩
  else if h2 : q = 2 ^ 24 ∧ e + 2 < 255 then ⟨s, e + 2, 0, by omega, by decide⟩
  else inf s

/-- The binary32 nearest to `(-1)^s * N * 2^-(149+k)`, ties to even, overflow to
infinity: `sh` low bits of `N` are rounded away, leaving 24 significant bits, or
fewer in the subnormal range. -/
def round (s : Bool) (N k : Nat) : F32 :=
  let sh := max (ilog2 N - 23) k
  let q := N / 2 ^ sh
  let r := N % 2 ^ sh
  pack s (if 2 * r > 2 ^ sh ∨ (2 * r = 2 ^ sh ∧ q % 2 = 1) then q + 1 else q) (sh - k)

/-- Unary minus: flips the sign bit. -/
def neg (f : F32) : F32 := { f with sign := !f.sign }

/-- The value class of the negated datum. -/
def View.neg : View → View
  | .nan => .nan
  | .inf s => .inf (!s)
  | .fin s n => .fin (!s) n

/-- Addition on value classes, correctly rounded. -/
def View.add : View → View → F32
  | .nan, _ => qnan
  | _, .nan => qnan
  | .inf s, .inf t => if s = t then F32.inf s else qnan
  | .inf s, .fin _ _ => F32.inf s
  | .fin _ _, .inf t => F32.inf t
  | .fin s n, .fin t m =>
    if s = t then round s (n + m) 0
    else if n = m then zero false
    else if m < n then round s (n - m) 0
    else round t (m - n) 0

/-- Multiplication on value classes, correctly rounded. -/
def View.mul : View → View → F32
  | .nan, _ => qnan
  | _, .nan => qnan
  | .inf s, .inf t => F32.inf (xor s t)
  | .inf s, .fin t m => if m = 0 then qnan else F32.inf (xor s t)
  | .fin s n, .inf t => if n = 0 then qnan else F32.inf (xor s t)
  | .fin s n, .fin t m => round (xor s t) (n * m) 149

/-- Addition, correctly rounded. -/
def add (a b : F32) : F32 := View.add a.view b.view

/-- Subtraction, correctly rounded. -/
def sub (a b : F32) : F32 := add a (neg b)

/-- Multiplication, correctly rounded. -/
def mul (a b : F32) : F32 := View.mul a.view b.view

/-- The comparison `operator==` on `float`: false when an operand is NaN, true for
`+0.0 == -0.0`, otherwise equality of bit patterns. -/
def eq (a b : F32) : Bool :=
  !a.isNaN && !b.isNaN && (decide (a = b) || (a.units == 0 && b.units == 0))

/-- Conversion `int -> float`. -/
def ofInt (i : Int) : F32 := round (decide (i < 0)) (i.natAbs * 2 ^ 149) 0

/-- Conversion `float -> int` (truncation toward zero).  Converting a NaN or a value
outside the range of `int` is undefined in C++; the model returns `INT_MIN` there, as
the x86 conversion instruction does. -/
def toInt (f : F32) : Int :=
  match f.view with
  | .fin s n =>
    let q : Nat := n / 2 ^ 149
    if s then (if q ≤ 2 ^ 31 then -(q : Int) else -(2 ^ 31 : Int))
    else (if q < 2 ^ 31 then (q : Int) else -(2 ^ 31 : Int))
  | _ => -(2 ^ 31 : Int)

/-- The finite number `2^127`, whose square overflows. -/
def big : F32 := ofBits 0x7F000000

/-- The object representation: four bytes, least significant first. -/
def bytes (f : F32) : List Nat :=
  [f.toBits % 256, f.toBits / 2 ^ 8 % 256, f.toBits / 2 ^ 16 % 256, f.toBits / 2 ^ 24 % 256]

end F32

instance : Add F32 := ⟨F32.add⟩
instance : Sub F32 := ⟨F32.sub⟩
instance : Mul F32 := ⟨F32.mul⟩
instance : Neg F32 := ⟨F32.neg⟩
instance (n : Nat) : OfNat F32 n := ⟨F32.ofInt n⟩
instance : Zero F32 := ⟨F32.ofInt 0⟩
instance : One F32 := ⟨F32.ofInt 1⟩
/-- The C++ `operator==` on `float`, not equality of bit patterns. -/
instance F32.instBEq : BEq F32 := ⟨F32.eq⟩

/-- The usual arithmetic conversions for `int * float` and `float * int`. -/
instance : HMul Int F32 F32 := ⟨fun i f => F32.mul (F32.ofInt i) f⟩
instance : HMul F32 Int F32 := ⟨fun f i => F32.mul f (F32.ofInt i)⟩

/-- Implicit conversion of a value of type `γ` to type `α`, as performed when a
constructor parameter `const T&` is bound to an expression of another arithmetic
type. -/
class Convert (γ α : Type) where
  conv : γ → α

instance (α : Type) : Convert α α := ⟨id⟩
instance : Convert F32 Int := ⟨F32.toInt⟩
instance : Convert Int F32 := ⟨F32.ofInt⟩

/-- The object representation of a scalar type: `sizeof(T)` bytes. -/
class ObjRep (α : Type) where
  size : Nat
  bytes : α → List Nat
  bytes_length : ∀ a, (bytes a).length = size

instance : ObjRep F32 := ⟨4, F32.bytes, fun _ => rfl⟩

/-- The object representation of a 32-bit two's complement `int`. -/
def intBytes (i : Int) : List Nat :=
  let b := (i % 2 ^ 32).toNat
  [b % 256, b / 2 ^ 8 % 256, b / 2 ^ 16 % 256, b / 2 ^ 24 % 256]

instance : ObjRep Int := ⟨4, intBytes, fun _ => rfl⟩

/-- `std::memcmp` over the first `n` bytes of two buffers. -/
def memcmp : List Nat → List Nat → Nat → Int
  | a :: as, b :: bs, n + 1 => if a < b then -1 else if b < a then 1 else memcmp as bs n
  | _, _, _ => 0

/-! ## build configuration -/

/-- The branch of an operation that is compiled in.  `scalar`: the `else` branch of
`if constexpr (detail::is_vectorizable<T>::value)`; `sse2`: `HAVE_SSE2` without
`HAVE_SSE4_1`; `sse41`: `HAVE_SSE4_1` (with `HAVE_SSE2`); `neon`: `HAVE_NEON`. -/
inductive Path where
  | scalar : Path
  | sse2 : Path
  | sse41 : Path
  | neon : Path
deriving DecidableEq

/-- The trait `detail::is_vectorizable<T>`. -/
def detail.is_vectorizable (isFloat HAVE_SSE2 HAVE_NEON : Bool) : Bool :=
  isFloat && (HAVE_SSE2 || HAVE_NEON)

/-- The branch selected for component type `T` on a build. -/
def Path.select (isFloat HAVE_SSE2 HAVE_SSE4_1 HAVE_NEON : Bool) : Path :=
  if detail.is_vectorizable isFloat HAVE_SSE2 HAVE_NEON then
    (if HAVE_SSE2 then (if HAVE_SSE4_1 then .sse41 else .sse2) else .neon)
  else .scalar

/-! ## SIMD registers and intrinsics -/

/-- A 128-bit register of four lanes (`__m128`, `float32x4_t`, `uint32x4_t`). -/
structure M128 (α : Type) where
  l0 : α
  l1 : α
  l2 : α
  l3 : α
deriving DecidableEq

/-- A 64-bit register of two lanes (`float32x2_t`, `uint32x2_t`). -/
structure M64 (α : Type) where
  l0 : α
  l1 : α
deriving DecidableEq

section Intrinsics
variable {α : Type}

def M128.lane (v : M128 α) (i : Nat) : α :=
  match i % 4 with
  | 0 => v.l0
  | 1 => v.l1
  | 2 => v.l2
  | _ => v.l3

def M64.lane (v : M64 α) (i : Nat) : α :=
  match i % 2 with
  | 0 => v.l0
  | _ => v.l1

def _MM_SHUFFLE (z y x w : Nat) : Nat := (z <<< 6) ||| (y <<< 4) ||| (x <<< 2) ||| w

def _mm_shuffle_ps (a b : M128 α) (imm : Nat) : M128 α :=
  ⟨a.lane (imm &&& 3), a.lane ((imm >>> 2) &&& 3),
   b.lane ((imm >>> 4) &&& 3), b.lane ((imm >>> 6) &&& 3)⟩

def _mm_add_ps [Add α] (a b : M128 α) : M128 α :=
  ⟨a.l0 + b.l0, a.l1 + b.l1, a.l2 + b.l2, a.l3 + b.l3⟩

def _mm_sub_ps [Sub α] (a b : M128 α) : M128 α :=
  ⟨a.l0 - b.l0, a.l1 - b.l1, a.l2 - b.l2, a.l3 - b.l3⟩

def _mm_mul_ps [Mul α] (a b : M128 α) : M128 α :=
  ⟨a.l0 * b.l0, a.l1 * b.l1, a.l2 * b.l2, a.l3 * b.l3⟩

/-- Adds the lowest lanes, copies the upper three lanes of `a`. -/
def _mm_add_ss [Add α] (a b : M128 α) : M128 α :=
  ⟨a.l0 + b.l0, a.l1, a.l2, a.l3⟩

def _mm_cvtss_f32 (a : M128 α) : α := a.l0

def _mm_set1_ps (f : α) : M128 α := ⟨f, f, f, f⟩

def _mm_set_ps1 (f : α) : M128 α := ⟨f, f, f, f⟩

/-- Lanes given from the highest to the lowest. -/
def _mm_set_ps (e3 e2 e1 e0 : α) : M128 α := ⟨e0, e1, e2, e3⟩

def _mm_setr_ps (e0 e1 e2 e3 : α) : M128 α := ⟨e0, e1, e2, e3⟩

/-- Lane-wise compare for equality; a lane of the mask is all ones or all zeros. -/
def _mm_cmpeq_ps [BEq α] (a b : M128 α) : M128 Nat :=
  ⟨if a.l0 == b.l0 then 0xFFFFFFFF else 0, if a.l1 == b.l1 then 0xFFFFFFFF else 0,
   if a.l2 == b.l2 then 0xFFFFFFFF else 0, if a.l3 == b.l3 then 0xFFFFFFFF else 0⟩

/-- Collects the most significant bit of each lane. -/
def _mm_movemask_ps (m : M128 Nat) : Nat :=
  (m.l0 >>> 31 &&& 1) ||| ((m.l1 >>> 31 &&& 1) <<< 1) |||
  ((m.l2 >>> 31 &&& 1) <<< 2) ||| ((m.l3 >>> 31 &&& 1) <<< 3)

/-- The SSE4.1 conditional dot product: bits 4..7 of `imm` select the products that
are summed, bits 0..3 the lanes that receive the sum. -/
def _mm_dp_ps [Mul α] [Add α] [Zero α] (a b : M128 α) (imm : Nat) : M128 α :=
  let t0 := if imm.testBit 4 then a.l0 * b.l0 else 0
  let t1 := if imm.testBit 5 then a.l1 * b.l1 else 0
  let t2 := if imm.testBit 6 then a.l2 * b.l2 else 0
  let t3 := if imm.testBit 7 then a.l3 * b.l3 else 0
  let s := (t0 + t1) + (t2 + t3)
  ⟨if imm.testBit 0 then s else 0, if imm.testBit 1 then s else 0,
   if imm.testBit 2 then s else 0, if imm.testBit 3 then s else 0⟩

def vaddq_f32 [Add α] (a b : M128 α) : M128 α :=
  ⟨a.l0 + b.l0, a.l1 + b.l1, a.l2 + b.l2, a.l3 + b.l3⟩

def vsubq_f32 [Sub α] (a b : M128 α) : M128 α :=
  ⟨a.l0 - b.l0, a.l1 - b.l1, a.l2 - b.l2, a.l3 - b.l3⟩

def vmulq_f32 [Mul α] (a b : M128 α) : M128 α :=
  ⟨a.l0 * b.l0, a.l1 * b.l1, a.l2 * b.l2, a.l3 * b.l3⟩

def vmul_f32 [Mul α] (a b : M64 α) : M64 α := ⟨a.l0 * b.l0, a.l1 * b.l1⟩

def vdupq_n_f32 (f : α) : M128 α := ⟨f, f, f, f⟩

/-- Extracts four consecutive lanes, starting at lane `n` of `a`, from the
concatenation of `a` (low) and `b` (high). -/
def vextq_f32 (a b : M128 α) (n : Nat) : M128 α :=
  let cat : Nat → α := fun i => if i < 4 then a.lane i else b.lane (i - 4)
  ⟨cat n, cat (n + 1), cat (n + 2), cat (n + 3)⟩

def vget_low_f32 (a : M128 α) : M64 α := ⟨a.l0, a.l1⟩

def vget_high_f32 (a : M128 α) : M64 α := ⟨a.l2, a.l3⟩

/-- Pairwise add: the sums of the adjacent lanes of `a`, then of `b`. -/
def vpadd_f32 [Add α] (a b : M64 α) : M64 α := ⟨a.l0 + a.l1, b.l0 + b.l1⟩

def vget_lane_f32 (a : M64 α) (i : Nat) : α := a.lane i

def vgetq_lane_f32 (a : M128 α) (i : Nat) : α := a.lane i

/-- Lane-wise compare for equality; a lane of the mask is all ones or all zeros. -/
def vceqq_f32 [BEq α] (a b : M128 α) : M128 Nat :=
  ⟨if a.l0 == b.l0 then 0xFFFFFFFF else 0, if a.l1 == b.l1 then 0xFFFFFFFF else 0,
   if a.l2 == b.l2 then 0xFFFFFFFF else 0, if a.l3 == b.l3 then 0xFFFFFFFF else 0⟩

def vgetq_lane_u32 (a : M128 Nat) (i : Nat) : Nat := a.lane i

def vget_low_u32 (a : M128 Nat) : M64 Nat := ⟨a.l0, a.l1⟩

def vget_high_u32 (a : M128 Nat) : M64 Nat := ⟨a.l2, a.l3⟩

def vand_u32 (a b : M64 Nat) : M64 Nat := ⟨a.l0 &&& b.l0, a.l1 &&& b.l1⟩

/-- Pairwise minimum. -/
def vpmin_u32 (a b : M64 Nat) : M64 Nat := ⟨min a.l0 a.l1, min b.l0 b.l1⟩

def vget_lane_u32 (a : M64 Nat) (i : Nat) : Nat := a.lane i

end Intrinsics

/-! ## Vec2 -/

structure Vec2 (α : Type) where
  x : α
  y : α
deriving DecidableEq

namespace Vec2
variable {α β γ : Type}

/-- The bytes `AsArray()` points to: `x` followed by `y`. -/
def AsArray [ObjRep α] (v : Vec2 α) : List Nat := ObjRep.bytes v.x ++ ObjRep.bytes v.y

/-- The value of `sizeof(Vec2)`. -/
def sizeof (α : Type) [ObjRep α] : Nat := 2 * ObjRep.size α

def AssignToAll (f : α) : Vec2 α := ⟨f, f⟩

/-- The `operator+`. -/
def add [Add α] (a other : Vec2 α) : Vec2 α := ⟨a.x + other.x, a.y + other.y⟩

/-- The binary `operator-`. -/
def sub [Sub α] (a other : Vec2 α) : Vec2 α := ⟨a.x - other.x, a.y - other.y⟩

/-- The unary `operator-`. -/
def neg [Neg α] (a : Vec2 α) : Vec2 α := ⟨-a.x, -a.y⟩

/-- The member `operator*(const V& f)` (vector_math.h:138), of element type
`decltype(T{} * V{})`. -/
def mulScalar [HMul α β γ] (v : Vec2 α) (f : β) : Vec2 γ := ⟨v.x * f, v.y * f⟩

def Length2 [Mul α] [Add α] (v : Vec2 α) : α := v.x * v.x + v.y * v.y

/-- The `operator==` (vector_math.h:168): `memcmp(...) == 0`. -/
def eq [ObjRep α] (a other : Vec2 α) : Bool :=
  memcmp a.AsArray other.AsArray (sizeof α) == 0

/-- The `operator!=` (vector_math.h:164): `memcmp(...) != 0`. -/
def ne [ObjRep α] (a other : Vec2 α) : Bool :=
  memcmp a.AsArray other.AsArray (sizeof α) != 0

/-- The free `operator*(const V& f, const Vec2<T>& vec)` (vector_math.h:227): it
returns `Vec2<T>`, so each product is converted to `T`. -/
def scalarMul [HMul β α γ] [Convert γ α] (f : β) (vec : Vec2 α) : Vec2 α :=
  ⟨Convert.conv (f * vec.x), Convert.conv (f * vec.y)⟩

end Vec2

/-! ## Vec3 -/

/-- The fields `x, y, z` and the trailing `pad` ("For SIMD alignment"). -/
structure Vec3 (α : Type) where
  x : α
  y : α
  z : α
  pad : α
deriving DecidableEq

section Vec3Simd
variable {α : Type}

/-- The load `_mm_load_ps(&v.x)`: four consecutive components starting at `x`. -/
def _mm_load_ps (v : Vec3 α) : M128 α := ⟨v.x, v.y, v.z, v.pad⟩

/-- The store `_mm_store_ps(&result.x, r)`. -/
def _mm_store_ps (r : M128 α) : Vec3 α := ⟨r.l0, r.l1, r.l2, r.l3⟩

/-- The load `vld1q_f32(&v.x)`. -/
def vld1q_f32 (v : Vec3 α) : M128 α := ⟨v.x, v.y, v.z, v.pad⟩

/-- The store `vst1q_f32(&result.x, r)`. -/
def vst1q_f32 (r : M128 α) : Vec3 α := ⟨r.l0, r.l1, r.l2, r.l3⟩

end Vec3Simd

namespace Vec3
variable {α β γ : Type}

/-- The constructor `Vec3(x_, y_, z_)`; `pad` is left indeterminate (`u`). -/
def ctor (x y z : α) (u : α) : Vec3 α := ⟨x, y, z, u⟩

def AssignToAll (p : Path) (f : α) (u : α) : Vec3 α :=
  match p with
  | .scalar => ctor f f f u
  | .sse2 | .sse41 => _mm_store_ps (_mm_set_ps1 f)
  | .neon => vst1q_f32 (vdupq_n_f32 f)

/-- The `operator+`. -/
def add [Add α] (p : Path) (a other : Vec3 α) (u : α) : Vec3 α :=
  match p with
  | .scalar => ctor (a.x + other.x) (a.y + other.y) (a.z + other.z) u
  | .sse2 | .sse41 => _mm_store_ps (_mm_add_ps (_mm_load_ps a) (_mm_load_ps other))
  | .neon => vst1q_f32 (vaddq_f32 (vld1q_f32 a) (vld1q_f32 other))

/-- The binary `operator-`. -/
def sub [Sub α] (p : Path) (a other : Vec3 α) (u : α) : Vec3 α :=
  match p with
  | .scalar => ctor (a.x - other.x) (a.y - other.y) (a.z - other.z) u
  | .sse2 | .sse41 => _mm_store_ps (_mm_sub_ps (_mm_load_ps a) (_mm_load_ps other))
  | .neon => vst1q_f32 (vsubq_f32 (vld1q_f32 a) (vld1q_f32 other))

/-- The unary `operator-`; it has no vectorized branch. -/
def neg [Neg α] (a : Vec3 α) (u : α) : Vec3 α := ctor (-a.x) (-a.y) (-a.z) u

/-- The member `operator*(const V& f)` when `V` is `T`; the vectorized branches
exist for `T = V = float`. -/
def mulScalar [Mul α] (p : Path) (v : Vec3 α) (f : α) (u : α) : Vec3 α :=
  match p with
  | .scalar => ctor (v.x * f) (v.y * f) (v.z * f) u
  | .sse2 | .sse41 => _mm_store_ps (_mm_mul_ps (_mm_load_ps v) (_mm_set1_ps f))
  | .neon => vst1q_f32 (vmulq_f32 (vld1q_f32 v) (vdupq_n_f32 f))

/-- The member `operator*(const V& f)` for `V` other than `float` or `T` not
vectorizable: the `else` branch, of element type `decltype(T{} * V{})`. -/
def mulScalarH [HMul α β γ] (v : Vec3 α) (f : β) (u : γ) : Vec3 γ :=
  ctor (v.x * f) (v.y * f) (v.z * f) u

/-- The free `operator*(const V& f, const Vec3<T>& vec)` when `V` is `T`. -/
def scalarMul [Mul α] (p : Path) (f : α) (vec : Vec3 α) (u : α) : Vec3 α :=
  match p with
  | .scalar => ctor (f * vec.x) (f * vec.y) (f * vec.z) u
  | .sse2 | .sse41 => _mm_store_ps (_mm_mul_ps (_mm_set1_ps f) (_mm_load_ps vec))
  | .neon => vst1q_f32 (vmulq_f32 (vdupq_n_f32 f) (vld1q_f32 vec))

/-- The free `operator*(const V& f, const Vec3<T>& vec)` (vector_math.h:608) on its
`else` branch: it returns `Vec3<T>`, so each product is converted to `T`. -/
def scalarMulH [HMul β α γ] [Convert γ α] (f : β) (vec : Vec3 α) (u : α) : Vec3 α :=
  ctor (Convert.conv (f * vec.x)) (Convert.conv (f * vec.y)) (Convert.conv (f * vec.z)) u

/-- The `operator==` (vector_math.h:468). -/
def eq [BEq α] (p : Path) (a other : Vec3 α) : Bool :=
  match p with
  | .scalar => a.x == other.x && a.y == other.y && a.z == other.z
  | .sse2 | .sse41 =>
    let cmp := _mm_cmpeq_ps (_mm_load_ps a) (_mm_load_ps other)
    (_mm_movemask_ps cmp &&& 0x7) == 0x7
  | .neon =>
    let cmp := vceqq_f32 (vld1q_f32 a) (vld1q_f32 other)
    (vgetq_lane_u32 cmp 0 &&& vgetq_lane_u32 cmp 1 &&& vgetq_lane_u32 cmp 2) == 0xFFFFFFFF

/-- The `operator!=` (vector_math.h:464). -/
def ne [BEq α] (p : Path) (a other : Vec3 α) : Bool := !(eq p a other)

/-- The member `Length2()` (vector_math.h:483). -/
def Length2 [Mul α] [Add α] (p : Path) (v : Vec3 α) : α :=
  match p with
  | .scalar => v.x * v.x + v.y * v.y + v.z * v.z
  | .sse2 | .sse41 =>
    let v4 := _mm_load_ps v
    let sq := _mm_mul_ps v4 v4
    let sum := _mm_add_ss (_mm_add_ss sq (_mm_shuffle_ps sq sq (_MM_SHUFFLE 1 1 1 1)))
      (_mm_shuffle_ps sq sq (_MM_SHUFFLE 2 2 2 2))
    _mm_cvtss_f32 sum
  | .neon =>
    let v4 := vld1q_f32 v
    let sq := vmulq_f32 v4 v4
    let sum := vpadd_f32 (vget_low_f32 sq) (vget_high_f32 sq)
    vget_lane_f32 (vpadd_f32 sum sum) 0

/-- The overload `Dot(const Vec3<T>&, const Vec3<T>&)` (vector_math.h:1072). -/
def Dot [Mul α] [Add α] [Zero α] (p : Path) (a b : Vec3 α) : α :=
  match p with
  | .scalar => a.x * b.x + a.y * b.y + a.z * b.z
  | .sse41 => _mm_cvtss_f32 (_mm_dp_ps (_mm_load_ps a) (_mm_load_ps b) 0x71)
  | .sse2 =>
    let va := _mm_load_ps a
    let vb := _mm_load_ps b
    let mul := _mm_mul_ps va vb
    let sum := _mm_add_ss mul (_mm_shuffle_ps mul mul (_MM_SHUFFLE 1 1 1 1))
    let sum := _mm_add_ss sum (_mm_shuffle_ps mul mul (_MM_SHUFFLE 2 2 2 2))
    _mm_cvtss_f32 sum
  | .neon =>
    let va := vld1q_f32 a
    let vb := vld1q_f32 b
    let mul := vmulq_f32 va vb
    let sum := vget_low_f32 mul
    let sum := vpadd_f32 sum sum
    vget_lane_f32 sum 0 + vgetq_lane_f32 mul 2

/-- The function `Cross(const Vec3<T>&, const Vec3<T>&)` (vector_math.h:1126). -/
def Cross [Mul α] [Sub α] (p : Path) (a b : Vec3 α) (u : α) : Vec3 α :=
  match p with
  | .scalar => ctor (a.y * b.z - a.z * b.y) (a.z * b.x - a.x * b.z) (a.x * b.y - a.y * b.x) u
  | .sse2 | .sse41 =>
    let a_yzx := _mm_shuffle_ps (_mm_load_ps a) (_mm_load_ps a) (_MM_SHUFFLE 3 0 2 1)
    let b_yzx := _mm_shuffle_ps (_mm_load_ps b) (_mm_load_ps b) (_MM_SHUFFLE 3 0 2 1)
    let c := _mm_sub_ps (_mm_mul_ps (_mm_load_ps a) b_yzx) (_mm_mul_ps (_mm_load_ps b) a_yzx)
    _mm_store_ps (_mm_shuffle_ps c c (_MM_SHUFFLE 3 0 2 1))
  | .neon =>
    let a_vec := vld1q_f32 a
    let b_vec := vld1q_f32 b
    let a_yzx := vextq_f32 a_vec a_vec 1
    let b_yzx := vextq_f32 b_vec b_vec 1
    let c := vsubq_f32 (vmulq_f32 a_vec b_yzx) (vmulq_f32 b_vec a_yzx)
    vst1q_f32 (vextq_f32 c c 3)

end Vec3

/-! ## Vec4 -/

/-- The union of the fields `x, y, z, w` with the register `simd`: one storage, read
either way. -/
structure Vec4 (α : Type) where
  x : α
  y : α
  z : α
  w : α
deriving DecidableEq

namespace Vec4
variable {α : Type}

/-- The union member `simd`, read. -/
def simd (v : Vec4 α) : M128 α := ⟨v.x, v.y, v.z, v.w⟩

/-- The union member `simd`, written. -/
def ofSimd (r : M128 α) : Vec4 α := ⟨r.l0, r.l1, r.l2, r.l3⟩

/-- The constructor `Vec4(x_, y_, z_, w_)`. -/
def ctor (p : Path) (x y z w : α) : Vec4 α :=
  match p with
  | .scalar => ⟨x, y, z, w⟩
  | .sse2 | .sse41 => ofSimd (_mm_set_ps w z y x)
  | .neon => ofSimd ⟨x, y, z, w⟩

def AssignToAll (p : Path) (f : α) : Vec4 α := ctor p f f f f

/-- The `operator+`. -/
def add [Add α] (p : Path) (a other : Vec4 α) : Vec4 α :=
  match p with
  | .scalar => ctor p (a.x + other.x) (a.y + other.y) (a.z + other.z) (a.w + other.w)
  | .sse2 | .sse41 => ofSimd (_mm_add_ps a.simd other.simd)
  | .neon => ofSimd (vaddq_f32 a.simd other.simd)

/-- The member `operator*(const V& f)` when `V` is `T`; the vectorized branches
exist for `T = V = float`. -/
def mulScalar [Mul α] (p : Path) (v : Vec4 α) (f : α) : Vec4 α :=
  match p with
  | .scalar => ctor p (v.x * f) (v.y * f) (v.z * f) (v.w * f)
  | .sse2 | .sse41 => ofSimd (_mm_mul_ps v.simd (_mm_set1_ps f))
  | .neon => ofSimd (vmulq_f32 v.simd (vdupq_n_f32 f))

/-- The `operator==` (vector_math.h:876). -/
def eq [BEq α] (p : Path) (a other : Vec4 α) : Bool :=
  match p with
  | .scalar => a.x == other.x && a.y == other.y && a.z == other.z && a.w == other.w
  | .sse2 | .sse41 =>
    let cmp := _mm_cmpeq_ps a.simd other.simd
    _mm_movemask_ps cmp == 0xF
  | .neon =>
    let cmp := vceqq_f32 a.simd other.simd
    let fold := vand_u32 (vget_low_u32 cmp) (vget_high_u32 cmp)
    vget_lane_u32 (vpmin_u32 fold fold) 0 == 0xFFFFFFFF

/-- The `operator!=`. -/
def ne [BEq α] (p : Path) (a other : Vec4 α) : Bool := !(eq p a other)

end Vec4

/-! ## free functions -/

/-- Linear interpolation via float (vector_math.h:1153):
`begin * (1.f - t) + end * t`. -/
def Lerp {χ ρ : Type} [HMul χ F32 ρ] [Add ρ] (begin_ end_ : χ) (t : F32) : ρ :=
  begin_ * ((1 : F32) - t) + end_ * t

/-- The operators `Lerp` uses on `Vec2<float>`. -/
def Vec2.lerpOps : HMul (Vec2 F32) F32 (Vec2 F32) × Add (Vec2 F32) :=
  (⟨fun v f => Vec2.mulScalar v f⟩, ⟨fun a b => Vec2.add a b⟩)

/-- The operators `Lerp` uses on `Vec3<float>` on a given path. -/
def Vec3.lerpOps (p : Path) (u : F32) : HMul (Vec3 F32) F32 (Vec3 F32) × Add (Vec3 F32) :=
  (⟨fun v f => Vec3.mulScalar p v f u⟩, ⟨fun a b => Vec3.add p a b u⟩)

/-- The operators `Lerp` uses on `Vec4<float>` on a given path. -/
def Vec4.lerpOps (p : Path) : HMul (Vec4 F32) F32 (Vec4 F32) × Add (Vec4 F32) :=
  (⟨fun v f => Vec4.mulScalar p v f⟩, ⟨fun a b => Vec4.add p a b⟩)

/-- No component is a NaN or an infinity. -/
def Vec2.isFinite (v : Vec2 F32) : Bool := v.x.isFinite && v.y.isFinite

/-- No meaningful component is a NaN or an infinity. -/
def Vec3.isFinite (v : Vec3 F32) : Bool := v.x.isFinite && v.y.isFinite && v.z.isFinite

/-- No component is a NaN or an infinity. -/
def Vec4.isFinite (v : Vec4 F32) : Bool :=
  v.x.isFinite && v.y.isFinite && v.z.isFinite && v.w.isFinite

/-- No component is `-0.0f`. -/
def Vec2.noNegZero (v : Vec2 F32) : Bool :=
  decide (v.x ≠ F32.zero true) && decide (v.y ≠ F32.zero true)

/-- The instance `Lerp<Vec2<float>>`. -/
def Vec2.Lerp (begin_ end_ : Vec2 F32) (t : F32) : Vec2 F32 :=
  @Common.Lerp _ _ Vec2.lerpOps.1 Vec2.lerpOps.2 begin_ end_ t

/-- The instance `Lerp<Vec3<float>>`. -/
def Vec3.Lerp (p : Path) (u : F32) (begin_ end_ : Vec3 F32) (t : F32) : Vec3 F32 :=
  @Common.Lerp _ _ (Vec3.lerpOps p u).1 (Vec3.lerpOps p u).2 begin_ end_ t

/-- The instance `Lerp<Vec4<float>>`. -/
def Vec4.Lerp (p : Path) (begin_ end_ : Vec4 F32) (t : F32) : Vec4 F32 :=
  @Common.Lerp _ _ (Vec4.lerpOps p).1 (Vec4.lerpOps p).2 begin_ end_ t

namespace Vec4
variable {α : Type}

/-- The binary `operator-`. -/
def sub [Sub α] (p : Path) (a other : Vec4 α) : Vec4 α :=
  match p with
  | .scalar => ctor p (a.x - other.x) (a.y - other.y) (a.z - other.z) (a.w - other.w)
  | .sse2 | .sse41 => ofSimd (_mm_sub_ps a.simd other.simd)
  | .neon => ofSimd (vsubq_f32 a.simd other.simd)

/-- The member `Length2()` (vector_math.h:895); the SSE4.1 build takes the SSE2
branch. -/
def Length2 [Mul α] [Add α] (p : Path) (v : Vec4 α) : α :=
  match p with
  | .scalar => v.x * v.x + v.y * v.y + v.z * v.z + v.w * v.w
  | .sse2 | .sse41 =>
    let sq := _mm_mul_ps v.simd v.simd
    let sum1 := _mm_add_ps sq (_mm_shuffle_ps sq sq (_MM_SHUFFLE 2 3 0 1))
    let sum2 := _mm_add_ps sum1 (_mm_shuffle_ps sum1 sum1 (_MM_SHUFFLE 1 0 3 2))
    _mm_cvtss_f32 sum2
  | .neon =>
    let sq := vmulq_f32 v.simd v.simd
    let sum := vpadd_f32 (vget_low_f32 sq) (vget_high_f32 sq)
    vget_lane_f32 (vpadd_f32 sum sum) 0

/-- The overload `Dot(const Vec4<T>&, const Vec4<T>&)` (vector_math.h:1103). -/
def Dot [Mul α] [Add α] [Zero α] (p : Path) (a b : Vec4 α) : α :=
  match p with
  | .scalar => a.x * b.x + a.y * b.y + a.z * b.z + a.w * b.w
  | .sse41 => _mm_cvtss_f32 (_mm_dp_ps a.simd b.simd 0xF1)
  | .sse2 =>
    let mul := _mm_mul_ps a.simd b.simd
    let sum1 := _mm_add_ps mul (_mm_shuffle_ps mul mul (_MM_SHUFFLE 2 3 0 1))
    let sum2 := _mm_add_ps sum1 (_mm_shuffle_ps sum1 sum1 (_MM_SHUFFLE 1 0 3 2))
    _mm_cvtss_f32 sum2
  | .neon =>
    let mul := vmulq_f32 a.simd b.simd
    let sum := vpadd_f32 (vget_low_f32 mul) (vget_high_f32 mul)
    vget_lane_f32 (vpadd_f32 sum sum) 0

end Vec4

/-! ## machine integers -/

/-- The bit pattern of a `w`-bit integer type (`int` and `unsigned int` for `w = 32`):
`+`, `-` and `*` are arithmetic modulo `2^w`, as the compiled code performs them on
the two's complement targets. -/
def IntN (w : Nat) : Type := Fin (2 ^ w)

namespace IntN
variable {w : Nat}

instance : CommRing (IntN w) := inferInstanceAs (CommRing (Fin (2 ^ w)))
instance : DecidableEq (IntN w) := inferInstanceAs (DecidableEq (Fin (2 ^ w)))

/-- The value of the bit pattern read as a signed (two's complement) integer. -/
def toInt (a : IntN w) : Int :=
  if 2 * a.val < 2 ^ w then (a.val : Int) else (a.val : Int) - 2 ^ w

/-- The bit pattern of an integer, reduced modulo `2^w`. -/
def ofInt (i : Int) : IntN w :=
  ⟨(i % 2 ^ w).toNat, by
    have h : (0 : Int) < 2 ^ w := by positivity
    have h1 := Int.emod_nonneg i (ne_of_gt h)
    have h2 := Int.emod_lt_of_pos i h
    zify
    rw [Int.toNat_of_nonneg h1]
    exact_mod_cast h2⟩

/-- The signed `operator/`: the quotient truncated toward zero.  Division by zero and
`INT_MIN / -1` are undefined in C++; the model returns `0` and `INT_MIN` there. -/
def div (a b : IntN w) : IntN w := ofInt (Int.tdiv a.toInt b.toInt)

instance : Div (IntN w) := ⟨div⟩

end IntN

/-- The type `int`. -/
abbrev I32 : Type := IntN 32

/-- The object representation of a `w`-bit integer: `w / 8` bytes, least significant
first. -/
instance (w : Nat) : ObjRep (IntN w) :=
  ⟨w / 8, fun a => (List.range (w / 8)).map (fun i => a.val / 2 ^ (8 * i) % 256),
   fun _ => by simp⟩

/-! ## SetZero -/

/-- The member `Vec2::SetZero()`, as the new value of the receiver. -/
def Vec2.SetZero {α : Type} [Zero α] (_v : Vec2 α) : Vec2 α := ⟨0, 0⟩

/-- The member `Vec3::SetZero()`, as the new value of the receiver; `pad` is not
written. -/
def Vec3.SetZero {α : Type} [Zero α] (v : Vec3 α) : Vec3 α := { v with x := 0, y := 0, z := 0 }

/-- The member `Vec4::SetZero()`, as the new value of the receiver. -/
def Vec4.SetZero {α : Type} [Zero α] (_v : Vec4 α) : Vec4 α := ⟨0, 0, 0, 0⟩

/-! ## operator[], swizzles and MakeVec -/

/-- The `operator[]` of `Vec2` (vector_math.h:176), `*((&x) + i)`, within bounds. -/
def Vec2.index {α : Type} (v : Vec2 α) (i : Fin 2) : α :=
  match i with
  | 0 => v.x
  | 1 => v.y

/-- The `operator[]` of `Vec3`, within the meaningful components. -/
def Vec3.index {α : Type} (v : Vec3 α) (i : Fin 3) : α :=
  match i with
  | 0 => v.x
  | 1 => v.y
  | 2 => v.z

/-- The `operator[]` of `Vec4`, within bounds. -/
def Vec4.index {α : Type} (v : Vec4 α) (i : Fin 4) : α :=
  match i with
  | 0 => v.x
  | 1 => v.y
  | 2 => v.z
  | 3 => v.w

/-- The components of a `Vec2` in the order `x, y`. -/
def Vec2.components {α : Type} (v : Vec2 α) : List α := [v.x, v.y]

/-- The meaningful components of a `Vec3` in the order `x, y, z`. -/
def Vec3.components {α : Type} (v : Vec3 α) : List α := [v.x, v.y, v.z]

/-- The components of a `Vec4` in the order `x, y, z, w`. -/
def Vec4.components {α : Type} (v : Vec4 α) : List α := [v.x, v.y, v.z, v.w]

/-- The swizzle `yx()`, a `const` member: `Vec2(y, x)`. -/
def Vec2.yx {α : Type} (v : Vec2 α) : Vec2 α := ⟨v.y, v.x⟩

/-- The swizzle `vu()`, a `const` member: `Vec2(y, x)`. -/
def Vec2.vu {α : Type} (v : Vec2 α) : Vec2 α := ⟨v.y, v.x⟩

/-- The swizzle `ts()`, a `const` member: `Vec2(y, x)`. -/
def Vec2.ts {α : Type} (v : Vec2 α) : Vec2 α := ⟨v.y, v.x⟩

/-- The kinds of parameter of the overloads of `MakeVec`: `const T&`, `const Vec2<T>&`
and `const Vec3<T>&`. -/
inductive MakeVec.Param where
  | T
  | V2
  | V3
deriving DecidableEq

/-- The overloads of `MakeVec` in the order the header declares them, each with the
line of its declaration (vector_math.h) and its parameter list. -/
def MakeVec.overloads : List (Nat × List MakeVec.Param) :=
  [(1180, [.T, .T]), (1185, [.T, .T, .T]), (1190, [.T, .T, .V2]), (1195, [.V2, .T]),
   (1200, [.T, .V2]), (1205, [.T, .T, .T, .T]), (1210, [.V2, .T, .T]), (1215, [.T, .V2, .T]),
   (1223, [.V2, .V2]), (1228, [.V3, .T]), (1233, [.T, .V3])]

/-- The overload that the unqualified call `MakeVec(...)` written at line `site`, with
arguments of the kinds `args`, resolves to, for an arithmetic element type `T`; the
result is the line of the overload.  The call stands in a function template and
depends on `T`: unqualified lookup finds the overloads declared above the call, and
argument-dependent lookup at the point of instantiation adds none, an arithmetic type
having no associated namespace.  An argument of type `T` is accepted by a parameter
`const T&` only (deduction of `Vec2<T>` from an arithmetic type fails), so the viable
overloads are those whose parameter list is `args`.  `none`: the call has no viable
overload and the enclosing function has no instance. -/
def MakeVec.resolve (site : Nat) (args : List MakeVec.Param) : Option Nat :=
  (MakeVec.overloads.find? (fun d => decide (d.1 < site) && d.2 == args)).map Prod.fst

/-- The overloads of `MakeVec` (vector_math.h:1179..1235), named by their parameter
lists.  The overloads that return a `Vec3` take the indeterminate padding `u` of the
constructed object, those that return a `Vec4` the path of its constructor. -/
def MakeVec.TT {α : Type} (x y : α) : Vec2 α := ⟨x, y⟩

def MakeVec.TTT {α : Type} (x y z : α) (u : α) : Vec3 α := Vec3.ctor x y z u

def MakeVec.TTTT {α : Type} (p : Path) (x y z w : α) : Vec4 α := Vec4.ctor p x y z w

/-- The overload `MakeVec(x, y, zw)` (line 1190).  Its body is the call
`MakeVec(x, y, zw[0], zw[1])` at line 1191, above the declaration of the four-scalar
overload (line 1205); `none` when the call does not resolve. -/
def MakeVec.TTV2 {α : Type} (p : Path) (x y : α) (zw : Vec2 α) : Option (Vec4 α) :=
  (MakeVec.resolve 1191 [.T, .T, .T, .T]).map
    (fun _ => MakeVec.TTTT p x y (zw.index 0) (zw.index 1))

def MakeVec.V2T {α : Type} (xy : Vec2 α) (z : α) (u : α) : Vec3 α :=
  MakeVec.TTT (xy.index 0) (xy.index 1) z u

def MakeVec.TV2 {α : Type} (x : α) (yz : Vec2 α) (u : α) : Vec3 α :=
  MakeVec.TTT x (yz.index 0) (yz.index 1) u

def MakeVec.V2TT {α : Type} (p : Path) (xy : Vec2 α) (z w : α) : Vec4 α :=
  MakeVec.TTTT p (xy.index 0) (xy.index 1) z w

def MakeVec.TV2T {α : Type} (p : Path) (x : α) (yz : Vec2 α) (w : α) : Vec4 α :=
  MakeVec.TTTT p x (yz.index 0) (yz.index 1) w

def MakeVec.V2V2 {α : Type} (p : Path) (xy zw : Vec2 α) : Vec4 α :=
  MakeVec.TTTT p (xy.index 0) (xy.index 1) (zw.index 0) (zw.index 1)

def MakeVec.V3T {α : Type} (p : Path) (xyz : Vec3 α) (w : α) : Vec4 α :=
  MakeVec.TTTT p (xyz.index 0) (xyz.index 1) (xyz.index 2) w

def MakeVec.TV3 {α : Type} (p : Path) (x : α) (yzw : Vec3 α) : Vec4 α :=
  MakeVec.TTTT p x (yzw.index 0) (yzw.index 1) (yzw.index 2)

/-! ## division by a scalar (branches without SIMD) and LerpInt -/

namespace IntN
variable {w : Nat}

/-- The unsigned `operator/`.  Division by zero is undefined in C++; the model
returns `0` there. -/
def udiv (a b : IntN w) : IntN w := ofInt ((a.val / b.val : Nat) : Int)

/-- The product of two signed values is representable: no signed overflow. -/
def mulFits (a b : IntN w) : Bool :=
  decide (-(2 ^ w : Int) ≤ 2 * (a.toInt * b.toInt)) && decide (2 * (a.toInt * b.toInt) < 2 ^ w)

/-- The product of two unsigned values is representable: no wrap-around. -/
def umulFits (a b : IntN w) : Bool := decide (a.val * b.val < 2 ^ w)

end IntN

/-- The type `unsigned int`: the bit patterns and the `+`, `-`, `*` of `int`, with the
unsigned `operator/`. -/
def U32 : Type := IntN 32

instance : CommRing U32 := inferInstanceAs (CommRing (IntN 32))
instance : DecidableEq U32 := inferInstanceAs (DecidableEq (IntN 32))
instance : Div U32 := ⟨fun a b => IntN.udiv (w := 32) a b⟩

/-- Conversion `int -> unsigned int`: the same bit pattern. -/
instance : Convert I32 U32 := ⟨fun a => a⟩

/-- The usual arithmetic conversions for `unsigned * int` and `unsigned / int`: the
`int` operand is converted to `unsigned`. -/
instance : HMul U32 I32 U32 := ⟨fun a b => a * (Convert.conv b : U32)⟩
instance : HDiv U32 I32 U32 := ⟨fun a b => a / (Convert.conv b : U32)⟩

/-- The member `operator/(const V& f)` of `Vec2` (vector_math.h:149), of element type
`decltype(T{} / V{})`. -/
def Vec2.divScalar {α β γ : Type} [HDiv α β γ] (v : Vec2 α) (f : β) : Vec2 γ :=
  ⟨v.x / f, v.y / f⟩

/-- The member `operator/(const V& f)` of `Vec3` for `V` other than `float` or `T` not
vectorizable: the `else` branch. -/
def Vec3.divScalarH {α β γ : Type} [HDiv α β γ] (v : Vec3 α) (f : β) (u : γ) : Vec3 γ :=
  Vec3.ctor (v.x / f) (v.y / f) (v.z / f) u

/-- The member `operator*(const V& f)` of `Vec4` for `V` other than `float` or `T` not
vectorizable: the `else` branch; `p` is the path of the constructor of the result. -/
def Vec4.mulScalarH {α β γ : Type} [HMul α β γ] (p : Path) (v : Vec4 α) (f : β) : Vec4 γ :=
  Vec4.ctor p (v.x * f) (v.y * f) (v.z * f) (v.w * f)

/-- The member `operator/(const V& f)` of `Vec4` for `V` other than `float` or `T` not
vectorizable: the `else` branch; `p` is the path of the constructor of the result. -/
def Vec4.divScalarH {α β γ : Type} [HDiv α β γ] (p : Path) (v : Vec4 α) (f : β) : Vec4 γ :=
  Vec4.ctor p (v.x / f) (v.y / f) (v.z / f) (v.w / f)

/-- Linear interpolation via int (vector_math.h:1161), `base` being the template
parameter: `(begin * (base - t) + end * t) / base`. -/
def LerpInt {χ ρ σ : Type} [HMul χ I32 ρ] [Add ρ] [HDiv ρ I32 σ] (base : I32)
    (begin_ end_ : χ) (t : I32) : σ :=
  (begin_ * (base - t) + end_ * t) / base

/-- The operators `LerpInt` uses on `Vec2<int>`. -/
def Vec2.lerpIntOps :
    HMul (Vec2 I32) I32 (Vec2 I32) × Add (Vec2 I32) × HDiv (Vec2 I32) I32 (Vec2 I32) :=
  (⟨fun v f => Vec2.mulScalar v f⟩, ⟨fun a b => Vec2.add a b⟩, ⟨fun v f => Vec2.divScalar v f⟩)

/-- The operators `LerpInt` uses on `Vec3<int>`; `u` is the padding of the temporaries. -/
def Vec3.lerpIntOps (u : I32) :
    HMul (Vec3 I32) I32 (Vec3 I32) × Add (Vec3 I32) × HDiv (Vec3 I32) I32 (Vec3 I32) :=
  (⟨fun v f => Vec3.mulScalarH v f u⟩, ⟨fun a b => Vec3.add .scalar a b u⟩,
   ⟨fun v f => Vec3.divScalarH v f u⟩)

/-- The operators `LerpInt` uses on `Vec4<int>`. -/
def Vec4.lerpIntOps :
    HMul (Vec4 I32) I32 (Vec4 I32) × Add (Vec4 I32) × HDiv (Vec4 I32) I32 (Vec4 I32) :=
  (⟨fun v f => Vec4.mulScalarH .scalar v f⟩, ⟨fun a b => Vec4.add .scalar a b⟩,
   ⟨fun v f => Vec4.divScalarH .scalar v f⟩)

/-- The instance `LerpInt<Vec2<int>, base>`. -/
def Vec2.LerpInt (base : I32) (begin_ end_ : Vec2 I32) (t : I32) : Vec2 I32 :=
  @Common.LerpInt _ _ _ Vec2.lerpIntOps.1 Vec2.lerpIntOps.2.1 Vec2.lerpIntOps.2.2 base begin_ end_ t

/-- The instance `LerpInt<Vec3<int>, base>`. -/
def Vec3.LerpInt (u : I32) (base : I32) (begin_ end_ : Vec3 I32) (t : I32) : Vec3 I32 :=
  @Common.LerpInt _ _ _ (Vec3.lerpIntOps u).1 (Vec3.lerpIntOps u).2.1 (Vec3.lerpIntOps u).2.2
    base begin_ end_ t

/-- The instance `LerpInt<Vec4<int>, base>`. -/
def Vec4.LerpInt (base : I32) (begin_ end_ : Vec4 I32) (t : I32) : Vec4 I32 :=
  @Common.LerpInt _ _ _ Vec4.lerpIntOps.1 Vec4.lerpIntOps.2.1 Vec4.lerpIntOps.2.2 base begin_ end_ t

/-- No product of a component of `v` with `f` overflows. -/
def Vec2.mulFits (v : Vec2 I32) (f : I32) : Bool := v.x.mulFits f && v.y.mulFits f

/-- No product of a meaningful component of `v` with `f` overflows. -/
def Vec3.mulFits (v : Vec3 I32) (f : I32) : Bool :=
  v.x.mulFits f && v.y.mulFits f && v.z.mulFits f

/-- No product of a component of `v` with `f` overflows. -/
def Vec4.mulFits (v : Vec4 I32) (f : I32) : Bool :=
  v.x.mulFits f && v.y.mulFits f && v.z.mulFits f && v.w.mulFits f

/-! ## Length2 with integral promotion -/

/-- The type `unsigned char` (`u8`), narrower than `int`: its values are promoted to
`int` before `*` and `+`. -/
def U8 : Type := Fin (2 ^ 8)

instance : DecidableEq U8 := inferInstanceAs (DecidableEq (Fin (2 ^ 8)))
instance (n : Nat) : OfNat U8 n := ⟨Fin.ofNat n⟩

/-- Integral promotion `unsigned char -> int`. -/
def U8.toInt (a : U8) : I32 := IntN.ofInt (a.val : Int)

instance : HMul U8 U8 I32 := ⟨fun a b => a.toInt * b.toInt⟩

/-- Conversion `int -> unsigned char`: the value modulo `2^8`. -/
instance : Convert I32 U8 := ⟨fun i => Fin.ofNat i.val⟩

/-- The member `Vec2::Length2()` (vector_math.h:160) for a component type `T` whose
product type `decltype(T{} * T{})` is `γ`: the sum is formed in `γ` and converted to the
return type `T`. -/
def Vec2.Length2H {α γ : Type} [HMul α α γ] [Add γ] [Convert γ α] (v : Vec2 α) : α :=
  Convert.conv (v.x * v.x + v.y * v.y)

/-- The member `Vec3::Length2()` on its `else` branch, the product type being `γ`. -/
def Vec3.Length2H {α γ : Type} [HMul α α γ] [Add γ] [Convert γ α] (v : Vec3 α) : α :=
  Convert.conv (v.x * v.x + v.y * v.y + v.z * v.z)

/-- The member `Vec4::Length2()` on its `else` branch, the product type being `γ`. -/
def Vec4.Length2H {α γ : Type} [HMul α α γ] [Add γ] [Convert γ α] (v : Vec4 α) : α :=
  Convert.conv (v.x * v.x + v.y * v.y + v.z * v.z + v.w * v.w)

/-! ## division, square root and the Arm reciprocal instructions on binary32 -/

namespace F32

/-- Division on value classes, correctly rounded: the quotient is taken to two bits
below the unit `2^-149`, the lower of which is sticky. -/
def View.div : View → View → F32
  | .nan, _ => qnan
  | _, .nan => qnan
  | .inf _, .inf _ => qnan
  | .inf s, .fin t _ => F32.inf (xor s t)
  | .fin s _, .inf t => zero (xor s t)
  | .fin s n, .fin t m =>
    if m = 0 then (if n = 0 then qnan else F32.inf (xor s t))
    else round (xor s t) (2 * (n * 2 ^ 150 / m) + (if n * 2 ^ 150 % m = 0 then 0 else 1)) 2

/-- Division, correctly rounded (`operator/` on `float`, `_mm_div_ps`). -/
def div (a b : F32) : F32 := View.div a.view b.view

/-- The function `RecipEstimate` of the Arm architecture pseudocode, for an operand
`256 ≤ a < 512`. -/
def RecipEstimate (a : Nat) : Nat :=
  let a := a * 2 + 1
  let b := 2 ^ 19 / a
  (b + 1) / 2

/-- The function `FPRecipEstimate` of the Arm architecture pseudocode (instruction
`FRECPE`) for binary32, with `FPCR.FZ = 0`, `FPCR.AH = 0` and rounding to nearest. -/
def FPRecipEstimate (x : F32) : F32 :=
  if x.expo = 255 then (if x.mant = 0 then zero x.sign else qnan)
  else if x.expo = 0 ∧ x.mant = 0 then F32.inf x.sign
  else if x.expo = 0 ∧ x.mant < 2 ^ 21 then F32.inf x.sign
  else
    let exp : Int := if x.expo = 0 then (if x.mant < 2 ^ 22 then -1 else 0) else x.expo
    let fraction : Nat :=
      if x.expo = 0 then (if x.mant < 2 ^ 22 then x.mant * 4 % 2 ^ 23 else x.mant * 2 % 2 ^ 23)
      else x.mant
    let scaled := 256 + fraction / 2 ^ 15
    let result_exp : Int := 253 - exp
    let estimate := RecipEstimate scaled
    let fraction := estimate % 256 * 2 ^ 15
    if result_exp = 0 then ofBits ((if x.sign then 2 ^ 31 else 0) + (2 ^ 22 + fraction / 2))
    else if result_exp = -1 then ofBits ((if x.sign then 2 ^ 31 else 0) + (2 ^ 21 + fraction / 4))
    else ofBits ((if x.sign then 2 ^ 31 else 0) + result_exp.toNat * 2 ^ 23 + fraction)

/-- The function `FPRecipStepFused` of the Arm architecture pseudocode (instruction
`FRECPS` of AArch64): `2.0 - op1 * op2` with a single rounding. -/
def FPRecipStepFused (op1 op2 : F32) : F32 :=
  match op1.view, op2.view with
  | .nan, _ => qnan
  | _, .nan => qnan
  | .inf s, .inf t => F32.inf (xor (!s) t)
  | .inf s, .fin t m => if m = 0 then ofInt 2 else F32.inf (xor (!s) t)
  | .fin s n, .inf t => if n = 0 then ofInt 2 else F32.inf (xor (!s) t)
  | .fin s n, .fin t m =>
    if s = t then
      (if n * m = 2 ^ 299 then zero false
       else if n * m < 2 ^ 299 then round false (2 ^ 299 - n * m) 149
       else round true (n * m - 2 ^ 299) 149)
    else round false (2 ^ 299 + n * m) 149

end F32

instance : Div F32 := ⟨F32.div⟩
/-! ## Length, Normalized and Normalize (T = float) -/

section FloatIntrinsics

def _mm_div_ps {α : Type} [Div α] (a b : M128 α) : M128 α :=
  ⟨a.l0 / b.l0, a.l1 / b.l1, a.l2 / b.l2, a.l3 / b.l3⟩

/-- Reciprocal estimate (`FRECPE`), lane-wise. -/
def vrecpeq_f32 (a : M128 F32) : M128 F32 :=
  ⟨F32.FPRecipEstimate a.l0, F32.FPRecipEstimate a.l1, F32.FPRecipEstimate a.l2,
   F32.FPRecipEstimate a.l3⟩

/-- Newton-Raphson reciprocal step (`FRECPS`), lane-wise: `2.0 - a * b`. -/
def vrecpsq_f32 (a b : M128 F32) : M128 F32 :=
  ⟨F32.FPRecipStepFused a.l0 b.l0, F32.FPRecipStepFused a.l1 b.l1,
   F32.FPRecipStepFused a.l2 b.l2, F32.FPRecipStepFused a.l3 b.l3⟩

end FloatIntrinsics

namespace Vec2

/-- The member `operator/=(const V& f)` (vector_math.h:154), `*this = *this / f`, as
the new value of the receiver. -/
def divAssign {α : Type} [Div α] (v : Vec2 α) (f : α) : Vec2 α := Vec2.divScalar v f

end Vec2

namespace Vec3

/-- The member `operator/(const V& f)` of `Vec3<float>` for `V = float`
(vector_math.h:425). -/
def divScalar (p : Path) (v : Vec3 F32) (f : F32) (u : F32) : Vec3 F32 :=
  match p with
  | .scalar => ctor (v.x / f) (v.y / f) (v.z / f) u
  | .sse2 | .sse41 => _mm_store_ps (_mm_div_ps (_mm_load_ps v) (_mm_set1_ps f))
  | .neon =>
    let recip := vrecpeq_f32 (vdupq_n_f32 f)
    let recip := vmulq_f32 (vrecpsq_f32 (vdupq_n_f32 f) recip) recip
    vst1q_f32 (vmulq_f32 (vld1q_f32 v) recip)

/-- The member `operator/=(const V& f)` of `Vec3<float>` for `V = float`
(vector_math.h:444), as the new value of the receiver; the scalar branch does not
write `pad`. -/
def divAssign (p : Path) (v : Vec3 F32) (f : F32) : Vec3 F32 :=
  match p with
  | .scalar => { v with x := v.x / f, y := v.y / f, z := v.z / f }
  | .sse2 | .sse41 => _mm_store_ps (_mm_div_ps (_mm_load_ps v) (_mm_set1_ps f))
  | .neon =>
    let recip := vrecpeq_f32 (vdupq_n_f32 f)
    let recip := vmulq_f32 (vrecpsq_f32 (vdupq_n_f32 f) recip) recip
    vst1q_f32 (vmulq_f32 (vld1q_f32 v) recip)

/-- The reciprocal the NEON branches of `operator/` and `operator/=` multiply by: the
estimate of `FRECPE` refined by one Newton-Raphson step. -/
def neonRecip (f : F32) : F32 :=
  F32.FPRecipStepFused f (F32.FPRecipEstimate f) * F32.FPRecipEstimate f

end Vec3

/-! ## rounding error -/

/-- The reals `a` and `b` agree up to `k` roundings to nearest: each is at least the
other times `(1 - 2^-24)^k`. -/
def Near (k : Nat) (a b : ℝ) : Prop :=
  b * (1 - 1 / 2 ^ 24) ^ k ≤ a ∧ a * (1 - 1 / 2 ^ 24) ^ k ≤ b

/-- Bilinear interpolation (vector_math.h:1171): `s` interpolates `x00`-`x01` and
`x10`-`x11`, `t` the two results.  `y0` and `y1` are declared `auto`, so they have the
result type of `Lerp<X>`, on which the second interpolation is instantiated. -/
def BilinearInterp {χ ρ σ : Type} [HMul χ F32 ρ] [Add ρ] [HMul ρ F32 σ] [Add σ]
    (x00 x01 x10 x11 : χ) (s t : F32) : σ :=
  let y0 : ρ := Lerp x00 x01 s
  let y1 : ρ := Lerp x10 x11 s
  Lerp y0 y1 t

/-- The instance `BilinearInterp<Vec2<float>>`. -/
def Vec2.BilinearInterp (x00 x01 x10 x11 : Vec2 F32) (s t : F32) : Vec2 F32 :=
  @Common.BilinearInterp _ _ _ Vec2.lerpOps.1 Vec2.lerpOps.2 Vec2.lerpOps.1 Vec2.lerpOps.2
    x00 x01 x10 x11 s t

/-- The instance `BilinearInterp<Vec3<float>>` on a given path. -/
def Vec3.BilinearInterp (p : Path) (u : F32) (x00 x01 x10 x11 : Vec3 F32) (s t : F32) :
    Vec3 F32 :=
  @Common.BilinearInterp _ _ _ (Vec3.lerpOps p u).1 (Vec3.lerpOps p u).2 (Vec3.lerpOps p u).1
    (Vec3.lerpOps p u).2 x00 x01 x10 x11 s t

/-- The instance `BilinearInterp<Vec4<float>>` on a given path. -/
def Vec4.BilinearInterp (p : Path) (x00 x01 x10 x11 : Vec4 F32) (s t : F32) : Vec4 F32 :=
  @Common.BilinearInterp _ _ _ (Vec4.lerpOps p).1 (Vec4.lerpOps p).2 (Vec4.lerpOps p).1
    (Vec4.lerpOps p).2 x00 x01 x10 x11 s t

/-! ## compound assignment -/

/-- What the parameter `const Vec& other` of `operator+=` and `operator-=` is bound to:
an object apart from the receiver, or the receiver itself (`a += a`). -/
inductive VecRef (V : Type) where
  | object (b : V) : VecRef V
  | self : VecRef V

/-- The value read through the reference while the receiver holds `v`. -/
def VecRef.deref {V : Type} (r : VecRef V) (v : V) : V :=
  match r with
  | .object b => b
  | .self => v

/-- What the parameter `const V& f` of `operator*=` and `operator/=` is bound to when
`V` is `T`: an object apart from the receiver, or the `i`-th component of the receiver
(`v /= v.x`). -/
inductive ScalarRef (α : Type) (n : Nat) where
  | object (a : α) : ScalarRef α n
  | component (i : Fin n) : ScalarRef α n

/-- The value read through the reference while the receiver holds `v`. -/
def Vec2.deref {α : Type} (v : Vec2 α) (f : ScalarRef α 2) : α :=
  match f with
  | .object a => a
  | .component i => v.index i

/-- The value read through the reference while the receiver holds `v`. -/
def Vec3.deref {α : Type} (v : Vec3 α) (f : ScalarRef α 3) : α :=
  match f with
  | .object a => a
  | .component i => v.index i

/-- The value read through the reference while the receiver holds `v`. -/
def Vec4.deref {α : Type} (v : Vec4 α) (f : ScalarRef α 4) : α :=
  match f with
  | .object a => a
  | .component i => v.index i

namespace Vec2
variable {α : Type}

/-- The `operator+=` (vector_math.h:116): `x += other.x; y += other.y;`, as the new
value of the receiver. -/
def addAssign [Add α] (v : Vec2 α) (other : VecRef (Vec2 α)) : Vec2 α :=
  let v := { v with x := v.x + (other.deref v).x }
  { v with y := v.y + (other.deref v).y }

/-- The `operator-=` (vector_math.h:124). -/
def subAssign [Sub α] (v : Vec2 α) (other : VecRef (Vec2 α)) : Vec2 α :=
  let v := { v with x := v.x - (other.deref v).x }
  { v with y := v.y - (other.deref v).y }

/-- The `operator*=` (vector_math.h:144): `*this = *this * f`; the product is formed
before the receiver is written. -/
def mulAssign [Mul α] (v : Vec2 α) (f : ScalarRef α 2) : Vec2 α :=
  Vec2.mulScalar v (v.deref f)

/-- The `operator/=` (vector_math.h:155) with its operand as a reference:
`*this = *this / f`; `divAssign` is the case of an operand apart from the receiver. -/
def divAssignRef [Div α] (v : Vec2 α) (f : ScalarRef α 2) : Vec2 α :=
  Vec2.divScalar v (v.deref f)

end Vec2

namespace Vec3
variable {α : Type}

/-- The `operator+=` (vector_math.h:332), as the new value of the receiver; the scalar
branch is `x += other.x; y += other.y; z += other.z;` and does not write `pad`. -/
def addAssign [Add α] (p : Path) (v : Vec3 α) (other : VecRef (Vec3 α)) : Vec3 α :=
  match p with
  | .scalar =>
    let v := { v with x := v.x + (other.deref v).x }
    let v := { v with y := v.y + (other.deref v).y }
    { v with z := v.z + (other.deref v).z }
  | .sse2 | .sse41 => _mm_store_ps (_mm_add_ps (_mm_load_ps v) (_mm_load_ps (other.deref v)))
  | .neon => vst1q_f32 (vaddq_f32 (vld1q_f32 v) (vld1q_f32 (other.deref v)))

/-- The `operator-=` (vector_math.h:361). -/
def subAssign [Sub α] (p : Path) (v : Vec3 α) (other : VecRef (Vec3 α)) : Vec3 α :=
  match p with
  | .scalar =>
    let v := { v with x := v.x - (other.deref v).x }
    let v := { v with y := v.y - (other.deref v).y }
    { v with z := v.z - (other.deref v).z }
  | .sse2 | .sse41 => _mm_store_ps (_mm_sub_ps (_mm_load_ps v) (_mm_load_ps (other.deref v)))
  | .neon => vst1q_f32 (vsubq_f32 (vld1q_f32 v) (vld1q_f32 (other.deref v)))

/-- The `operator*=` (vector_math.h:411) when `V` is `T`, as the new value of the
receiver.  The scalar branch is `x *= f; y *= f; z *= f;`: each statement reads `f`
anew.  The vectorized branches broadcast `f` before the store. -/
def mulAssign [Mul α] (p : Path) (v : Vec3 α) (f : ScalarRef α 3) : Vec3 α :=
  match p with
  | .scalar =>
    let v := { v with x := v.x * v.deref f }
    let v := { v with y := v.y * v.deref f }
    { v with z := v.z * v.deref f }
  | .sse2 | .sse41 => _mm_store_ps (_mm_mul_ps (_mm_load_ps v) (_mm_set1_ps (v.deref f)))
  | .neon => vst1q_f32 (vmulq_f32 (vld1q_f32 v) (vdupq_n_f32 (v.deref f)))

/-- The `else` branch of `operator/=` (vector_math.h:445), `x /= f; y /= f; z /= f;`,
with its operand as a reference: the branch of every `T` other than a vectorized
`float`. -/
def divAssignH [Div α] (v : Vec3 α) (f : ScalarRef α 3) : Vec3 α :=
  let v := { v with x := v.x / v.deref f }
  let v := { v with y := v.y / v.deref f }
  { v with z := v.z / v.deref f }

/-- The `operator/=` of `Vec3<float>` for `V = float` (vector_math.h:445) with its
operand as a reference; `divAssign` is the case of an operand apart from the
receiver. -/
def divAssignRef (p : Path) (v : Vec3 F32) (f : ScalarRef F32 3) : Vec3 F32 :=
  match p with
  | .scalar => divAssignH v f
  | .sse2 | .sse41 => _mm_store_ps (_mm_div_ps (_mm_load_ps v) (_mm_set1_ps (v.deref f)))
  | .neon =>
    let recip := vrecpeq_f32 (vdupq_n_f32 (v.deref f))
    let recip := vmulq_f32 (vrecpsq_f32 (vdupq_n_f32 (v.deref f)) recip) recip
    vst1q_f32 (vmulq_f32 (vld1q_f32 v) recip)

end Vec3

namespace Vec4
variable {α : Type}

/-- The `operator+=` (vector_math.h:747): `x += other.x; y += other.y; z += other.z;
w += other.w;` for every `T`; it has no vectorized branch. -/
def addAssign [Add α] (v : Vec4 α) (other : VecRef (Vec4 α)) : Vec4 α :=
  let v := { v with x := v.x + (other.deref v).x }
  let v := { v with y := v.y + (other.deref v).y }
  let v := { v with z := v.z + (other.deref v).z }
  { v with w := v.w + (other.deref v).w }

/-- The `operator-=` (vector_math.h:769). -/
def subAssign [Sub α] (p : Path) (v : Vec4 α) (other : VecRef (Vec4 α)) : Vec4 α :=
  match p with
  | .scalar =>
    let v := { v with x := v.x - (other.deref v).x }
    let v := { v with y := v.y - (other.deref v).y }
    let v := { v with z := v.z - (other.deref v).z }
    { v with w := v.w - (other.deref v).w }
  | .sse2 | .sse41 => ofSimd (_mm_sub_ps v.simd (other.deref v).simd)
  | .neon => ofSimd (vsubq_f32 v.simd (other.deref v).simd)

/-- The `operator*=` (vector_math.h:820) when `V` is `T`.  The scalar branch is
`x *= f; y *= f; z *= f; w *= f;`: each statement reads `f` anew. -/
def mulAssign [Mul α] (p : Path) (v : Vec4 α) (f : ScalarRef α 4) : Vec4 α :=
  match p with
  | .scalar =>
    let v := { v with x := v.x * v.deref f }
    let v := { v with y := v.y * v.deref f }
    let v := { v with z := v.z * v.deref f }
    { v with w := v.w * v.deref f }
  | .sse2 | .sse41 => ofSimd (_mm_mul_ps v.simd (_mm_set1_ps (v.deref f)))
  | .neon => ofSimd (vmulq_f32 v.simd (vdupq_n_f32 (v.deref f)))

/-- The member `operator/(const V& f)` of `Vec4<float>` for `V = float`
(vector_math.h:837). -/
def divScalar (p : Path) (v : Vec4 F32) (f : F32) : Vec4 F32 :=
  match p with
  | .scalar => ctor p (v.x / f) (v.y / f) (v.z / f) (v.w / f)
  | .sse2 | .sse41 => ofSimd (_mm_div_ps v.simd (_mm_set1_ps f))
  | .neon =>
    let recip := vrecpeq_f32 (vdupq_n_f32 f)
    let recip := vmulq_f32 (vrecpsq_f32 (vdupq_n_f32 f) recip) recip
    ofSimd (vmulq_f32 v.simd recip)

/-- The `else` branch of `operator/=` (vector_math.h:856),
`x /= f; y /= f; z /= f; w /= f;`, with its operand as a reference. -/
def divAssignH [Div α] (v : Vec4 α) (f : ScalarRef α 4) : Vec4 α :=
  let v := { v with x := v.x / v.deref f }
  let v := { v with y := v.y / v.deref f }
  let v := { v with z := v.z / v.deref f }
  { v with w := v.w / v.deref f }

/-- The `operator/=` of `Vec4<float>` for `V = float` (vector_math.h:856) with its
operand as a reference. -/
def divAssignRef (p : Path) (v : Vec4 F32) (f : ScalarRef F32 4) : Vec4 F32 :=
  match p with
  | .scalar => divAssignH v f
  | .sse2 | .sse41 => ofSimd (_mm_div_ps v.simd (_mm_set1_ps (v.deref f)))
  | .neon =>
    let recip := vrecpeq_f32 (vdupq_n_f32 (v.deref f))
    let recip := vmulq_f32 (vrecpsq_f32 (vdupq_n_f32 (v.deref f)) recip) recip
    ofSimd (vmulq_f32 v.simd recip)

end Vec4
/-! ## the generated swizzle accessors -/

/-- A member function generated by `_DEFINE_SWIZZLER2` or `_DEFINE_SWIZZLER3`: its name
and the arguments of the constructor call `Vec2<T>(a, b)` or `Vec3<T>(a, b, c)` that is
its body.  Preprocessor tokens are strings, and `a##b` is their concatenation. -/
structure Swizzler where
  name : String
  args : List String
deriving DecidableEq

/-- The macro `_DEFINE_SWIZZLER2(a, b, name)` (vector_math.h:587 and 962, the same
text): the member `name()` returning `Vec2<T>(a, b)`. -/
def _DEFINE_SWIZZLER2 (a b name : String) : Swizzler := ⟨name, [a, b]⟩

/-- The macro `_DEFINE_SWIZZLER3(a, b, c, name)` (vector_math.h:989): the member
`name()` returning `Vec3<T>(a, b, c)`. -/
def _DEFINE_SWIZZLER3 (a b c name : String) : Swizzler := ⟨name, [a, b, c]⟩

namespace Vec3
variable {α : Type}

/-- The macro `DEFINE_SWIZZLER2` of `Vec3` (vector_math.h:591); `a##b` pastes the
argument tokens. -/
def DEFINE_SWIZZLER2 (a b a2 b2 a3 b3 a4 b4 : String) : List Swizzler :=
  [_DEFINE_SWIZZLER2 a b (a ++ b),
   _DEFINE_SWIZZLER2 a b (a2 ++ b2),
   _DEFINE_SWIZZLER2 a b (a3 ++ b3),
   _DEFINE_SWIZZLER2 a b (a4 ++ b4),
   _DEFINE_SWIZZLER2 b a (b ++ a),
   _DEFINE_SWIZZLER2 b a (b2 ++ a2),
   _DEFINE_SWIZZLER2 b a (b3 ++ a3),
   _DEFINE_SWIZZLER2 b a (b4 ++ a4)]

/-- The three uses of `DEFINE_SWIZZLER2` in `Vec3` (vector_math.h:601..603). -/
def swizzlers : List Swizzler :=
  DEFINE_SWIZZLER2 "x" "y" "r" "g" "u" "v" "s" "t" ++
  DEFINE_SWIZZLER2 "x" "z" "r" "b" "u" "w" "s" "q" ++
  DEFINE_SWIZZLER2 "y" "z" "g" "b" "v" "w" "t" "q"

/-- The data member of `Vec3` that a one-letter identifier names; the other letters
name member functions. -/
def member (v : Vec3 α) : String → Option α
  | "x" => some v.x
  | "y" => some v.y
  | "z" => some v.z
  | _ => none

/-- The data member that the one-letter accessors of `Vec3` return
(vector_math.h:523..581): `u() v() w()`, `r() g() b()` and `s() t() q()` return
`x y z`; `x`, `y`, `z` are the data members themselves. -/
def returns : String → Option String
  | "x" | "u" | "r" | "s" => some "x"
  | "y" | "v" | "g" | "t" => some "y"
  | "z" | "w" | "b" | "q" => some "z"
  | _ => none

/-- The component read under a one-letter name. -/
def accessor (v : Vec3 α) (n : String) : Option α := (returns n).bind v.member

/-- The call `v.name()` of a generated member of `Vec3`; `none` when no member of that
name is generated or its body names something that is not a data member. -/
def swizzle2 (v : Vec3 α) (name : String) : Option (Vec2 α) :=
  match swizzlers.find? (fun sw => sw.name = name) with
  | some ⟨_, [a, b]⟩ =>
    match v.member a, v.member b with
    | some ca, some cb => some ⟨ca, cb⟩
    | _, _ => none
  | _ => none

end Vec3

namespace Vec4
variable {α : Type}

/-- The macro `DEFINE_SWIZZLER2_COMP1` (vector_math.h:966). -/
def DEFINE_SWIZZLER2_COMP1 (a a2 : String) : List Swizzler :=
  [_DEFINE_SWIZZLER2 a a (a ++ a),
   _DEFINE_SWIZZLER2 a a (a2 ++ a2)]

/-- The macro `DEFINE_SWIZZLER2_COMP2` (vector_math.h:969). -/
def DEFINE_SWIZZLER2_COMP2 (a b a2 b2 : String) : List Swizzler :=
  [_DEFINE_SWIZZLER2 a b (a ++ b),
   _DEFINE_SWIZZLER2 a b (a2 ++ b2),
   _DEFINE_SWIZZLER2 b a (b ++ a),
   _DEFINE_SWIZZLER2 b a (b2 ++ a2)]

/-- The uses of the two-component macros in `Vec4` (vector_math.h:975..984). -/
def swizzlers2 : List Swizzler :=
  DEFINE_SWIZZLER2_COMP2 "x" "y" "r" "g" ++
  DEFINE_SWIZZLER2_COMP2 "x" "z" "r" "b" ++
  DEFINE_SWIZZLER2_COMP2 "x" "w" "r" "a" ++
  DEFINE_SWIZZLER2_COMP2 "y" "z" "g" "b" ++
  DEFINE_SWIZZLER2_COMP2 "y" "w" "g" "a" ++
  DEFINE_SWIZZLER2_COMP2 "z" "w" "b" "a" ++
  DEFINE_SWIZZLER2_COMP1 "x" "r" ++
  DEFINE_SWIZZLER2_COMP1 "y" "g" ++
  DEFINE_SWIZZLER2_COMP1 "z" "b" ++
  DEFINE_SWIZZLER2_COMP1 "w" "a"

/-- The macro `DEFINE_SWIZZLER3_COMP1` (vector_math.h:993). -/
def DEFINE_SWIZZLER3_COMP1 (a a2 : String) : List Swizzler :=
  [_DEFINE_SWIZZLER3 a a a (a ++ a ++ a),
   _DEFINE_SWIZZLER3 a a a (a2 ++ a2 ++ a2)]

/-- The macro `DEFINE_SWIZZLER3_COMP3` (vector_math.h:996). -/
def DEFINE_SWIZZLER3_COMP3 (a b c a2 b2 c2 : String) : List Swizzler :=
  [_DEFINE_SWIZZLER3 a b c (a ++ b ++ c),
   _DEFINE_SWIZZLER3 a c b (a ++ c ++ b),
   _DEFINE_SWIZZLER3 b a c (b ++ a ++ c),
   _DEFINE_SWIZZLER3 b c a (b ++ c ++ a),
   _DEFINE_SWIZZLER3 c a b (c ++ a ++ b),
   _DEFINE_SWIZZLER3 c b a (c ++ b ++ a),
   _DEFINE_SWIZZLER3 a b c (a2 ++ b2 ++ c2),
   _DEFINE_SWIZZLER3 a c b (a2 ++ c2 ++ b2),
   _DEFINE_SWIZZLER3 b a c (b2 ++ a2 ++ c2),
   _DEFINE_SWIZZLER3 b c a (b2 ++ c2 ++ a2),
   _DEFINE_SWIZZLER3 c a b (c2 ++ a2 ++ b2),
   _DEFINE_SWIZZLER3 c b a (c2 ++ b2 ++ a2)]

/-- The uses of the three-component macros in `Vec4` (vector_math.h:1010..1017). -/
def swizzlers3 : List Swizzler :=
  DEFINE_SWIZZLER3_COMP3 "x" "y" "z" "r" "g" "b" ++
  DEFINE_SWIZZLER3_COMP3 "x" "y" "w" "r" "g" "a" ++
  DEFINE_SWIZZLER3_COMP3 "x" "z" "w" "r" "b" "a" ++
  DEFINE_SWIZZLER3_COMP3 "y" "z" "w" "g" "b" "a" ++
  DEFINE_SWIZZLER3_COMP1 "x" "r" ++
  DEFINE_SWIZZLER3_COMP1 "y" "g" ++
  DEFINE_SWIZZLER3_COMP1 "z" "b" ++
  DEFINE_SWIZZLER3_COMP1 "w" "a"

/-- The data member of `Vec4` that a one-letter identifier names. -/
def member (v : Vec4 α) : String → Option α
  | "x" => some v.x
  | "y" => some v.y
  | "z" => some v.z
  | "w" => some v.w
  | _ => none

/-- The data member that the one-letter accessors of `Vec4` return
(vector_math.h:928..953): `r() g() b() a()` return `x y z w`. -/
def returns : String → Option String
  | "x" | "r" => some "x"
  | "y" | "g" => some "y"
  | "z" | "b" => some "z"
  | "w" | "a" => some "w"
  | _ => none

/-- The component read under a one-letter name. -/
def accessor (v : Vec4 α) (n : String) : Option α := (returns n).bind v.member

/-- The call `v.name()` of a generated two-component member of `Vec4`. -/
def swizzle2 (v : Vec4 α) (name : String) : Option (Vec2 α) :=
  match swizzlers2.find? (fun sw => sw.name = name) with
  | some ⟨_, [a, b]⟩ =>
    match v.member a, v.member b with
    | some ca, some cb => some ⟨ca, cb⟩
    | _, _ => none
  | _ => none

/-- The call `v.name()` of a generated three-component member of `Vec4`; `u` is the
indeterminate padding of the `Vec3` it constructs. -/
def swizzle3 (v : Vec4 α) (name : String) (u : α) : Option (Vec3 α) :=
  match swizzlers3.find? (fun sw => sw.name = name) with
  | some ⟨_, [a, b, c]⟩ =>
    match v.member a, v.member b, v.member c with
    | some ca, some cb, some cc => some (Vec3.ctor ca cb cc u)
    | _, _, _ => none
  | _ => none

end Vec4
end Common

/-! ## translation of the blend enumerations (pica_to_vk.h) -/

namespace vk

/-- Modelled from the spec: the enumeration `vk::BlendOp` of the graphics API, whose
declaration is not part of the sources; these are the enumerators that
`PicaToVK::BlendEquation` names. -/
inductive BlendOp where
  | eAdd : BlendOp
  | eSubtract : BlendOp
  | eReverseSubtract : BlendOp
  | eMin : BlendOp
  | eMax : BlendOp
deriving DecidableEq

/-- Modelled from the spec: the enumeration `vk::BlendFactor` of the graphics API, whose
declaration is not part of the sources; these are the enumerators that
`PicaToVK::BlendFunc` names. -/
inductive BlendFactor where
  | eZero : BlendFactor
  | eOne : BlendFactor
  | eSrcColor : BlendFactor
  | eOneMinusSrcColor : BlendFactor
  | eDstColor : BlendFactor
  | eOneMinusDstColor : BlendFactor
  | eSrcAlpha : BlendFactor
  | eOneMinusSrcAlpha : BlendFactor
  | eDstAlpha : BlendFactor
  | eOneMinusDstAlpha : BlendFactor
  | eConstantColor : BlendFactor
  | eOneMinusConstantColor : BlendFactor
  | eConstantAlpha : BlendFactor
  | eOneMinusConstantAlpha : BlendFactor
  | eSrcAlphaSaturate : BlendFactor
deriving DecidableEq

end vk

namespace PicaToVK

/-- The table `blend_equation_table` of `BlendEquation` (pica_to_vk.h:69), a
`std::array<vk::BlendOp, 5>`. -/
def blend_equation_table : List vk.BlendOp :=
  [vk.BlendOp.eAdd,
   vk.BlendOp.eSubtract,
   vk.BlendOp.eReverseSubtract,
   vk.BlendOp.eMin,
   vk.BlendOp.eMax]

/-- The function `BlendEquation` (pica_to_vk.h:68).  The declaration of
`Pica::FramebufferRegs::BlendEquation` is not part of the sources; the argument is given
by its numeric value, the `static_cast<std::size_t>(equation)` of the body.  The
fallback value is "hwtested, not just a stub"; the message the fallback branch logs is
not part of the returned value. -/
def BlendEquation (equation : Nat) : vk.BlendOp :=
  let index := equation
  if h : index ≥ blend_equation_table.length then
    vk.BlendOp.eAdd
  else
    blend_equation_table[index]

/-- The table `blend_func_table` of `BlendFunc` (pica_to_vk.h:88), a
`std::array<vk::BlendFactor, 15>`. -/
def blend_func_table : List vk.BlendFactor :=
  [vk.BlendFactor.eZero,
   vk.BlendFactor.eOne,
   vk.BlendFactor.eSrcColor,
   vk.BlendFactor.eOneMinusSrcColor,
   vk.BlendFactor.eDstColor,
   vk.BlendFactor.eOneMinusDstColor,
   vk.BlendFactor.eSrcAlpha,
   vk.BlendFactor.eOneMinusSrcAlpha,
   vk.BlendFactor.eDstAlpha,
   vk.BlendFactor.eOneMinusDstAlpha,
   vk.BlendFactor.eConstantColor,
   vk.BlendFactor.eOneMinusConstantColor,
   vk.BlendFactor.eConstantAlpha,
   vk.BlendFactor.eOneMinusConstantAlpha,
   vk.BlendFactor.eSrcAlphaSaturate]

/-- The function `BlendFunc` (pica_to_vk.h:87); the argument is given by its numeric
value, the `static_cast<std::size_t>(factor)` of the body. -/
def BlendFunc (factor : Nat) : vk.BlendFactor :=
  let index := factor
  if h : index ≥ blend_func_table.length then
    vk.BlendFactor.eOne
  else
    blend_func_table[index]

end PicaToVK

namespace Common

/-! ## overflow of LerpInt -/

namespace IntN
variable {w : Nat}

/-- The sum of two signed values is representable: no signed overflow. -/
def addFits (a b : IntN w) : Bool :=
  decide (-(2 ^ w : Int) ≤ 2 * (a.toInt + b.toInt)) && decide (2 * (a.toInt + b.toInt) < 2 ^ w)

/-- No operation of `begin * (base - t) + end * t` overflows. -/
def lerpFits (base begin_ end_ t : IntN w) : Bool :=
  begin_.mulFits (base - t) && end_.mulFits t && (begin_ * (base - t)).addFits (end_ * t)

end IntN

/-- No operation of `begin * (base - t) + end * t` overflows in a component. -/
def Vec2.lerpFits (base : I32) (begin_ end_ : Vec2 I32) (t : I32) : Bool :=
  IntN.lerpFits base begin_.x end_.x t && IntN.lerpFits base begin_.y end_.y t

/-- No operation of `begin * (base - t) + end * t` overflows in a meaningful component. -/
def Vec3.lerpFits (base : I32) (begin_ end_ : Vec3 I32) (t : I32) : Bool :=
  IntN.lerpFits base begin_.x end_.x t && IntN.lerpFits base begin_.y end_.y t &&
  IntN.lerpFits base begin_.z end_.z t

/-- No operation of `begin * (base - t) + end * t` overflows in a component. -/
def Vec4.lerpFits (base : I32) (begin_ end_ : Vec4 I32) (t : I32) : Bool :=
  IntN.lerpFits base begin_.x end_.x t && IntN.lerpFits base begin_.y end_.y t &&
  IntN.lerpFits base begin_.z end_.z t && IntN.lerpFits base begin_.w end_.w t

/-- Every component of `r` lies between the corresponding components of `a` and `b`, as
signed values. -/
def IntN.between {w : Nat} (a b r : IntN w) : Prop :=
  min a.toInt b.toInt ≤ r.toInt ∧ r.toInt ≤ max a.toInt b.toInt

instance {w : Nat} (a b r : IntN w) : Decidable (IntN.between a b r) :=
  inferInstanceAs (Decidable (_ ∧ _))

/-! ## 32-bit integer lanes -/

namespace IntN
variable {w : Nat}

/-- Bitwise and of two bit patterns. -/
def land (a b : IntN w) : IntN w :=
  ⟨a.val &&& b.val, Nat.and_lt_two_pow _ b.isLt⟩

/-- Logical shift right of a bit pattern, as `>>` on an unsigned operand. -/
def shr (a : IntN w) (n : Nat) : IntN w :=
  ⟨a.val >>> n, by
    rw [Nat.shiftRight_eq_div_pow]
    exact Nat.lt_of_le_of_lt (Nat.div_le_self _ _) a.isLt⟩

end IntN

instance : AndOp U32 := ⟨fun a b => IntN.land (w := 32) a b⟩
instance : HShiftRight U32 Nat U32 := ⟨fun a n => IntN.shr (w := 32) a n⟩

/-- Conversion `unsigned int -> int`: the same bit pattern. -/
instance : Convert U32 I32 := ⟨fun a => a⟩

/-- Conversion `unsigned int -> float`, rounded to nearest. -/
instance : Convert U32 F32 := ⟨fun a => F32.ofInt (Fin.val a)⟩

section IntIntrinsics

/-- Lanes given from the highest to the lowest. -/
def _mm_set_epi32 (e3 e2 e1 e0 : I32) : M128 I32 := ⟨e0, e1, e2, e3⟩

def _mm_set1_epi32 (a : I32) : M128 I32 := ⟨a, a, a, a⟩

def _mm_and_si128 (a b : M128 I32) : M128 I32 :=
  ⟨a.l0.land b.l0, a.l1.land b.l1, a.l2.land b.l2, a.l3.land b.l3⟩

/-- Converts four signed 32-bit integers to `float`. -/
def _mm_cvtepi32_ps (a : M128 I32) : M128 F32 :=
  ⟨F32.ofInt a.l0.toInt, F32.ofInt a.l1.toInt, F32.ofInt a.l2.toInt, F32.ofInt a.l3.toInt⟩

/-- Converts four unsigned 32-bit integers to `float`. -/
def vcvtq_f32_u32 (a : M128 U32) : M128 F32 :=
  ⟨F32.ofInt (Fin.val a.l0), F32.ofInt (Fin.val a.l1), F32.ofInt (Fin.val a.l2),
   F32.ofInt (Fin.val a.l3)⟩

/-- Lane-wise division (`FDIV`). -/
def vdivq_f32 (a b : M128 F32) : M128 F32 :=
  ⟨a.l0 / b.l0, a.l1 / b.l1, a.l2 / b.l2, a.l3 / b.l3⟩

end IntIntrinsics

end Common

/-! ## the asserting tables, the cull mode and the colour conversion (pica_to_vk.h) -/

namespace vk

/-- Modelled from the spec: the enumeration `vk::SamplerAddressMode` of the graphics
API, whose declaration is not part of the sources; these are the enumerators that
`PicaToVK::WrapMode` names. -/
inductive SamplerAddressMode where
  | eClampToEdge : SamplerAddressMode
  | eClampToBorder : SamplerAddressMode
  | eRepeat : SamplerAddressMode
  | eMirroredRepeat : SamplerAddressMode
deriving DecidableEq

/-- Modelled from the spec: the enumeration `vk::LogicOp`, whose declaration is not part
of the sources; these are the enumerators that `PicaToVK::LogicOp` names. -/
inductive LogicOp where
  | eClear : LogicOp
  | eAnd : LogicOp
  | eAndReverse : LogicOp
  | eCopy : LogicOp
  | eSet : LogicOp
  | eCopyInverted : LogicOp
  | eNoOp : LogicOp
  | eInvert : LogicOp
  | eNand : LogicOp
  | eOr : LogicOp
  | eNor : LogicOp
  | eXor : LogicOp
  | eEquivalent : LogicOp
  | eAndInverted : LogicOp
  | eOrReverse : LogicOp
  | eOrInverted : LogicOp
deriving DecidableEq

/-- Modelled from the spec: the enumeration `vk::CompareOp`, whose declaration is not
part of the sources; these are the enumerators that `PicaToVK::CompareFunc` names. -/
inductive CompareOp where
  | eNever : CompareOp
  | eAlways : CompareOp
  | eEqual : CompareOp
  | eNotEqual : CompareOp
  | eLess : CompareOp
  | eLessOrEqual : CompareOp
  | eGreater : CompareOp
  | eGreaterOrEqual : CompareOp
deriving DecidableEq

/-- Modelled from the spec: the enumeration `vk::StencilOp`, whose declaration is not
part of the sources; these are the enumerators that `PicaToVK::StencilOp` names. -/
inductive StencilOp where
  | eKeep : StencilOp
  | eZero : StencilOp
  | eReplace : StencilOp
  | eIncrementAndClamp : StencilOp
  | eDecrementAndClamp : StencilOp
  | eInvert : StencilOp
  | eIncrementAndWrap : StencilOp
  | eDecrementAndWrap : StencilOp
deriving DecidableEq

/-- Modelled from the spec: the enumeration `vk::CullModeFlagBits`, whose declaration is
not part of the sources; these are the enumerators that `PicaToVK::CullMode` names. -/
inductive CullModeFlagBits where
  | eNone : CullModeFlagBits
  | eBack : CullModeFlagBits
deriving DecidableEq

/-- Modelled from the spec: the enumeration `vk::FrontFace`, whose declaration is not
part of the sources. -/
inductive FrontFace where
  | eCounterClockwise : FrontFace
  | eClockwise : FrontFace
deriving DecidableEq

end vk

namespace Pica.RasterizerRegs

/-- Modelled from the spec: the enumeration `Pica::RasterizerRegs::CullMode`, whose
declaration is not part of the sources: the three cull modes that `PicaToVK::CullMode`
and `PicaToVK::FrontFace` name, and `undefined` for any other value of the register
field. -/
inductive CullMode where
  | KeepAll : CullMode
  | KeepClockWise : CullMode
  | KeepCounterClockWise : CullMode
  | undefined : CullMode
deriving DecidableEq

end Pica.RasterizerRegs

namespace PicaToVK

open Common

/-- The table `wrap_mode_table` of `WrapMode` (pica_to_vk.h:50), a
`std::array<vk::SamplerAddressMode, 8>`. -/
def wrap_mode_table : List vk.SamplerAddressMode :=
  [vk.SamplerAddressMode.eClampToEdge,
   vk.SamplerAddressMode.eClampToBorder,
   vk.SamplerAddressMode.eRepeat,
   vk.SamplerAddressMode.eMirroredRepeat,
   vk.SamplerAddressMode.eClampToEdge,
   vk.SamplerAddressMode.eClampToBorder,
   vk.SamplerAddressMode.eRepeat,
   vk.SamplerAddressMode.eRepeat]

/-- The function `WrapMode` (pica_to_vk.h:49); the argument is given by its numeric
value, the `static_cast<std::size_t>(mode)` of the body.  The macro `ASSERT_MSG`
(common/assert.h) is not part of the sources: when the asserted condition is false the
function yields no value (`none`). -/
def WrapMode (mode : Nat) : Option vk.SamplerAddressMode :=
  let index := mode
  if h : index < wrap_mode_table.length then
    some wrap_mode_table[index]
  else
    none

/-- The table `logic_op_table` of `LogicOp` (pica_to_vk.h:115), a
`std::array<vk::LogicOp, 16>`. -/
def logic_op_table : List vk.LogicOp :=
  [vk.LogicOp.eClear,
   vk.LogicOp.eAnd,
   vk.LogicOp.eAndReverse,
   vk.LogicOp.eCopy,
   vk.LogicOp.eSet,
   vk.LogicOp.eCopyInverted,
   vk.LogicOp.eNoOp,
   vk.LogicOp.eInvert,
   vk.LogicOp.eNand,
   vk.LogicOp.eOr,
   vk.LogicOp.eNor,
   vk.LogicOp.eXor,
   vk.LogicOp.eEquivalent,
   vk.LogicOp.eAndInverted,
   vk.LogicOp.eOrReverse,
   vk.LogicOp.eOrInverted]

/-- The function `LogicOp` (pica_to_vk.h:114); `none` when the assertion fails. -/
def LogicOp (op : Nat) : Option vk.LogicOp :=
  let index := op
  if h : index < logic_op_table.length then
    some logic_op_table[index]
  else
    none

/-- The table `compare_func_table` of `CompareFunc` (pica_to_vk.h:140), a
`std::array<vk::CompareOp, 8>`. -/
def compare_func_table : List vk.CompareOp :=
  [vk.CompareOp.eNever,
   vk.CompareOp.eAlways,
   vk.CompareOp.eEqual,
   vk.CompareOp.eNotEqual,
   vk.CompareOp.eLess,
   vk.CompareOp.eLessOrEqual,
   vk.CompareOp.eGreater,
   vk.CompareOp.eGreaterOrEqual]

/-- The function `CompareFunc` (pica_to_vk.h:139); `none` when the assertion fails. -/
def CompareFunc (func : Nat) : Option vk.CompareOp :=
  let index := func
  if h : index < compare_func_table.length then
    some compare_func_table[index]
  else
    none

/-- The table `stencil_op_table` of `StencilOp` (pica_to_vk.h:157), a
`std::array<vk::StencilOp, 8>`. -/
def stencil_op_table : List vk.StencilOp :=
  [vk.StencilOp.eKeep,
   vk.StencilOp.eZero,
   vk.StencilOp.eReplace,
   vk.StencilOp.eIncrementAndClamp,
   vk.StencilOp.eDecrementAndClamp,
   vk.StencilOp.eInvert,
   vk.StencilOp.eIncrementAndWrap,
   vk.StencilOp.eDecrementAndWrap]

/-- The function `StencilOp` (pica_to_vk.h:156); `none` when the assertion fails. -/
def StencilOp (action : Nat) : Option vk.StencilOp :=
  let index := action
  if h : index < stencil_op_table.length then
    some stencil_op_table[index]
  else
    none

/-- The function `CullMode` (pica_to_vk.h:188).  The macro `UNREACHABLE_MSG`
(common/assert.h) of the `default` label is not part of the sources: on that label the
function yields no value (`none`). -/
def CullMode (mode : Pica.RasterizerRegs.CullMode) : Option vk.CullModeFlagBits :=
  match mode with
  | .KeepAll => some vk.CullModeFlagBits.eNone
  | .KeepClockWise | .KeepCounterClockWise => some vk.CullModeFlagBits.eBack
  | .undefined => none

/-- The function `FrontFace` (pica_to_vk.h:201); `none` on the `default` label. -/
def FrontFace (mode : Pica.RasterizerRegs.CullMode) : Option vk.FrontFace :=
  match mode with
  | .KeepAll | .KeepClockWise => some vk.FrontFace.eCounterClockwise
  | .KeepCounterClockWise => some vk.FrontFace.eClockwise
  | .undefined => none

/-- The branch of `ColorRGBA8` that is compiled in: `__aarch64__` with `__ARM_NEON`;
`__x86_64__` with `__SSE3__`; neither. -/
inductive ColorBranch where
  | neon : ColorBranch
  | sse3 : ColorBranch
  | scalar : ColorBranch
deriving DecidableEq

/-- The integers that `ColorRGBA8` converts to `float`, as signed values: the lanes of
`rgba` on the NEON branch, of `masked` on the SSE branch, and the operands of the four
`static_cast<float>` on the scalar branch. -/
def ColorRGBA8.lanes (b : ColorBranch) (color : U32) : M128 Int :=
  match b with
  | .neon =>
    let rgba : M128 U32 :=
      ⟨color &&& 0xFF, (color >>> 8) &&& 0xFF, (color >>> 16) &&& 0xFF, (color >>> 24) &&& 0xFF⟩
    ⟨(Fin.val rgba.l0 : Int), (Fin.val rgba.l1 : Int), (Fin.val rgba.l2 : Int),
     (Fin.val rgba.l3 : Int)⟩
  | .sse3 =>
    let rgba := _mm_set_epi32 (Convert.conv (color >>> 24)) (Convert.conv (color >>> 16))
      (Convert.conv (color >>> 8)) (Convert.conv color)
    let mask := _mm_set1_epi32 0xFF
    let masked := _mm_and_si128 rgba mask
    ⟨masked.l0.toInt, masked.l1.toInt, masked.l2.toInt, masked.l3.toInt⟩
  | .scalar =>
    ⟨(Fin.val (color &&& 0xFF) : Int), (Fin.val ((color >>> 8) &&& 0xFF) : Int),
     (Fin.val ((color >>> 16) &&& 0xFF) : Int), (Fin.val ((color >>> 24) &&& 0xFF) : Int)⟩

/-- The function `ColorRGBA8` (pica_to_vk.h:215); `p` is the path of the constructor of
the returned `Common::Vec4f`. -/
def ColorRGBA8 (b : ColorBranch) (p : Path) (color : U32) : Vec4 F32 :=
  match b with
  | .neon =>
    let rgba : M128 U32 :=
      ⟨color &&& 0xFF, (color >>> 8) &&& 0xFF, (color >>> 16) &&& 0xFF, (color >>> 24) &&& 0xFF⟩
    let converted := vcvtq_f32_u32 rgba
    let result := vdivq_f32 converted (vdupq_n_f32 255)
    Vec4.ctor p (vgetq_lane_f32 result 0) (vgetq_lane_f32 result 1) (vgetq_lane_f32 result 2)
      (vgetq_lane_f32 result 3)
  | .sse3 =>
    let rgba := _mm_set_epi32 (Convert.conv (color >>> 24)) (Convert.conv (color >>> 16))
      (Convert.conv (color >>> 8)) (Convert.conv color)
    let mask := _mm_set1_epi32 0xFF
    let masked := _mm_and_si128 rgba mask
    let converted := _mm_cvtepi32_ps masked
    let result := _mm_div_ps converted (_mm_set1_ps 255)
    let temp := result
    Vec4.ctor p (temp.lane 0) (temp.lane 1) (temp.lane 2) (temp.lane 3)
  | .scalar =>
    Vec4.ctor p
      ((Convert.conv (color &&& 0xFF) : F32) / 255)
      ((Convert.conv ((color >>> 8) &&& 0xFF) : F32) / 255)
      ((Convert.conv ((color >>> 16) &&& 0xFF) : F32) / 255)
      ((Convert.conv ((color >>> 24) &&& 0xFF) : F32) / 255)

end PicaToVK

/-! ## per-title overrides (game_settings.cpp) -/

namespace Settings

/-- Modelled from the spec: the settings that `GameSettings::LoadOverrides` writes, "a
few boolean feature flags"; common/settings.h is not part of the sources.  `fmv_hack` is
the flag behind `Settings::SetFMVHack`, `shaders_accurate_mul` and `core_downcount_hack`
are the members of `Settings::values` of these names, and `rest` stands for every other
setting. -/
structure Values (σ : Type) where
  fmv_hack : Bool
  shaders_accurate_mul : Bool
  core_downcount_hack : Bool
  rest : σ
deriving DecidableEq

/-- Modelled from the spec: `Settings::SetFMVHack(enable)`, whose definition is not part
of the sources, sets the FMV-hack flag to `enable`. -/
def SetFMVHack {σ : Type} (enable : Bool) (values : Values σ) : Values σ :=
  { values with fmv_hack := enable }

end Settings

namespace GameSettings

/-- The array `core_ticks_hack_ids` of `LoadOverrides` (game_settings.cpp:10). -/
def core_ticks_hack_ids : List Nat :=
  [0x0004000000030500,
   0x0004000000032D00,
   0x0004000000033C00,
   0x0004000000060200,
   0x000400000005EE00,
   0x0004000000035900,
   0x0004000000038B00,
   0x00040000000C8100,
   0x00040000000A5E00,
   0x00040000000A5F00]

/-- The array `accurate_mul_ids` of `LoadOverrides` (game_settings.cpp:29). -/
def accurate_mul_ids : List Nat :=
  [0x0004000000033400,
   0x0004000000033500,
   0x0004000000033600,
   0x000400000008F800,
   0x000400000008F900,
   0x00040000001B8F00,
   0x00040000001B9000,
   0x0004000000194B00,
   0x00040000001D1400,
   0x00040000001D1500]

/-- The array `cpu_limit_ids` of `LoadOverrides` (game_settings.cpp:48). -/
def cpu_limit_ids : List Nat :=
  [0x000400000007C700,
   0x000400000007C800,
   0x0004000000064D00,
   0x00040000000B9100,
   0x00040000000DCD00,
   0x00040000000A5300,
   0x00040000000DCE00,
   0x00040000001CCD00,
   0x00040000001B4500,
   0x0004000000120900,
   0x0004000000164300,
   0x000400000008FE00]

/-- The loop `for (auto id : ids) { if (title_id == id) { body; break; } }`. -/
def firstMatch {S : Type} (ids : List Nat) (title_id : Nat) (body : S → S) (s : S) : S :=
  match ids with
  | [] => s
  | id :: rest => if title_id = id then body s else firstMatch rest title_id body s

/-- The function `LoadOverrides(u64 title_id)` (game_settings.cpp:9), as the new value
of the settings; `title_id` is any natural number, in particular any below `2^64`. -/
def LoadOverrides {σ : Type} (title_id : Nat) (values : Settings.Values σ) :
    Settings.Values σ :=
  let values := firstMatch core_ticks_hack_ids title_id (Settings.SetFMVHack true) values
  let values := firstMatch accurate_mul_ids title_id
    (fun v => { v with shaders_accurate_mul := true }) values
  firstMatch cpu_limit_ids title_id (fun v => { v with core_downcount_hack := true }) values

end GameSettings

namespace Common

/-! # Theorems -/

/-! ## the binary32 model -/

theorem log2Aux_spec : ∀ (fuel n : Nat), n < 2 ^ fuel → n ≠ 0 →
    2 ^ log2Aux fuel n ≤ n ∧ n < 2 ^ (log2Aux fuel n + 1) := by
  intro fuel
  induction fuel with
  | zero => intro n h h0; simp at h; omega
  | succ f ih =>
    intro n h h0
    unfold log2Aux
    by_cases h2 : n < 2
    · simp only [h2, if_true]
      constructor <;> simp <;> omega
    · simp only [h2, if_false]
      rw [Nat.pow_succ] at h
      have := ih (n / 2) (by omega) (by omega)
      obtain ⟨a, b⟩ := this
      constructor
      · rw [Nat.pow_succ]; omega
      · rw [Nat.pow_succ]; omega

theorem log2Chunk_spec : ∀ (fuel n : Nat), n ≤ fuel → n ≠ 0 →
    2 ^ log2Chunk fuel n ≤ n ∧ n < 2 ^ (log2Chunk fuel n + 1) := by
  intro fuel
  induction fuel with
  | zero => intro n h h0; omega
  | succ f ih =>
    intro n h h0
    unfold log2Chunk
    by_cases h2 : n < 2 ^ 16
    · simp only [h2, if_true]
      exact log2Aux_spec 16 n h2 h0
    · simp only [h2, if_false]
      have hd : n / 2 ^ 16 < n := Nat.div_lt_self (by omega) (by decide)
      have hne : n / 2 ^ 16 ≠ 0 := by
        have : 1 ≤ n / 2 ^ 16 := (Nat.le_div_iff_mul_le (by decide)).mpr (by omega)
        omega
      obtain ⟨a, b⟩ := ih (n / 2 ^ 16) (by omega) hne
      constructor
      · have := (Nat.le_div_iff_mul_le (by decide : 0 < 2 ^ 16)).mp a
        rw [Nat.pow_add]; exact this
      · have := (Nat.div_lt_iff_lt_mul (by decide : 0 < 2 ^ 16)).mp b
        rw [show log2Chunk f (n / 2 ^ 16) + 16 + 1 = (log2Chunk f (n / 2 ^ 16) + 1) + 16 by omega,
          Nat.pow_add]
        exact this

theorem ilog2_spec (n : Nat) (h0 : n ≠ 0) : 2 ^ ilog2 n ≤ n ∧ n < 2 ^ (ilog2 n + 1) :=
  log2Chunk_spec n n (Nat.le_refl n) h0

theorem ilog2_zero : ilog2 0 = 0 := rfl

theorem ilog2_eq (n L : Nat) (h1 : 2 ^ L ≤ n) (h2 : n < 2 ^ (L + 1)) : ilog2 n = L := by
  have h0 : n ≠ 0 := by
    have : 0 < 2 ^ L := Nat.pos_pow_of_pos L (by decide)
    omega
  obtain ⟨a, b⟩ := ilog2_spec n h0
  have c1 : 2 ^ ilog2 n < 2 ^ (L + 1) := Nat.lt_of_le_of_lt a h2
  have c2 : 2 ^ L < 2 ^ (ilog2 n + 1) := Nat.lt_of_le_of_lt h1 b
  have d1 := (Nat.pow_lt_pow_iff_right (by decide : 1 < 2)).mp c1
  have d2 := (Nat.pow_lt_pow_iff_right (by decide : 1 < 2)).mp c2
  omega

theorem ilog2_lt (n L : Nat) (h : n < 2 ^ L) : ilog2 n ≤ L := by
  by_cases h0 : n = 0
  · subst h0; simp [ilog2_zero]
  · obtain ⟨a, _⟩ := ilog2_spec n h0
    have c1 : 2 ^ ilog2 n < 2 ^ L := Nat.lt_of_le_of_lt a h
    have d1 := (Nat.pow_lt_pow_iff_right (by decide : 1 < 2)).mp c1
    omega

namespace F32

theorem neg_pack (s : Bool) (q e : Nat) : neg (pack s q e) = pack (!s) q e := by
  unfold pack
  split_ifs <;> rfl

theorem neg_round (s : Bool) (N k : Nat) : neg (round s N k) = round (!s) N k := by
  unfold round
  exact neg_pack _ _ _

theorem isNaN_pack (s : Bool) (q e : Nat) : isNaN (pack s q e) = false := by
  unfold pack
  split_ifs with h0 h1 h2
  · simp [isNaN]
  · simp [isNaN]; omega
  · simp [isNaN]
  · simp [isNaN, inf]

theorem isNaN_round (s : Bool) (N k : Nat) : isNaN (round s N k) = false := by
  unfold round
  exact isNaN_pack _ _ _

theorem view_neg (a : F32) : (neg a).view = a.view.neg := by
  unfold view neg units View.neg
  simp only []
  split_ifs <;> rfl

theorem eq_self (a : F32) (h : a.isNaN = false) : F32.eq a a = true := by
  simp [F32.eq, h]

theorem mul_comm (a b : F32) : mul a b = mul b a := by
  unfold mul
  cases a.view <;> cases b.view <;> simp [View.mul, Bool.xor_comm, Nat.mul_comm]

theorem view_add_comm (v w : View) : View.add v w = View.add w v := by
  cases v with
  | nan => cases w <;> rfl
  | inf s => 
    cases w with
    | nan => rfl
    | inf t => cases s <;> cases t <;> rfl
    | fin t m => rfl
  | fin s n =>
    cases w with
    | nan => rfl
    | inf t => rfl
    | fin t m =>
      simp only [View.add]
      by_cases hst : s = t
      · subst hst; simp [Nat.add_comm]
      · have hts : ¬ t = s := fun h => hst h.symm
        simp only [hst, hts, if_false]
        by_cases hnm : n = m
        · subst hnm; simp
        · have hmn : ¬ m = n := fun h => hnm h.symm
          simp only [hnm, hmn, if_false]
          by_cases hlt : m < n
          · have : ¬ n < m := by omega
            simp [hlt, this]
          · have : n < m := by omega
            simp [hlt, this]

theorem add_comm (a b : F32) : add a b = add b a := view_add_comm _ _

theorem view_sub_antisymm (v w : View) (h : isNaN (View.add v w.neg) = false) :
    F32.eq (View.add v w.neg) (F32.neg (View.add w v.neg)) = true := by
  cases v with
  | nan => cases w <;> simp [View.add, View.neg] at h <;> exact absurd h (by decide)
  | inf s =>
    cases w with
    | nan => simp [View.add, View.neg] at h; exact absurd h (by decide)
    | inf t => revert h; cases s <;> cases t <;> decide
    | fin t m => cases s <;> rfl
  | fin s n =>
    cases w with
    | nan => simp [View.add, View.neg] at h; exact absurd h (by decide)
    | inf t => cases t <;> rfl
    | fin t m =>
      simp only [View.add, View.neg]
      by_cases hst : s = t
      · subst hst
        have h1 : ¬ (s = !s) := by cases s <;> decide
        simp only [h1, if_false]
        by_cases hnm : n = m
        · subst hnm; simp; decide
        · have hmn : ¬ m = n := fun h => hnm h.symm
          simp only [hnm, hmn, if_false]
          by_cases hlt : m < n
          · have : ¬ n < m := by omega
            simp only [hlt, this, if_true, if_false, neg_round, Bool.not_not]
            exact eq_self _ (isNaN_round _ _ _)
          · have : n < m := by omega
            simp only [hlt, this, if_true, if_false, neg_round, Bool.not_not]
            exact eq_self _ (isNaN_round _ _ _)
      · have h1 : (!t) = s := by revert hst; cases s <;> cases t <;> decide
        subst h1
        simp only [Bool.not_not, if_true, neg_round, Nat.add_comm m n]
        exact eq_self _ (isNaN_round _ _ _)

theorem sub_antisymm (p q : F32) (h : isNaN (sub p q) = false) :
    F32.eq (sub p q) (neg (sub q p)) = true := by
  unfold sub add at *
  simp only [view_neg] at *
  exact view_sub_antisymm _ _ h

theorem round_exact (s : Bool) (q e k : Nat) (hq : q < 2 ^ 24) (hn : 2 ^ 23 ≤ q ∨ e = 0) :
    round s (q * 2 ^ (e + k)) k = pack s q e := by
  have hpos : 0 < 2 ^ (e + k) := Nat.pos_pow_of_pos _ (by decide)
  have hsh : max (ilog2 (q * 2 ^ (e + k)) - 23) k = e + k := by
    by_cases hq23 : 2 ^ 23 ≤ q
    · have : ilog2 (q * 2 ^ (e + k)) = 23 + (e + k) := by
        apply ilog2_eq
        · have e1 : 2 ^ (23 + (e + k)) = 2 ^ 23 * 2 ^ (e + k) := Nat.pow_add _ _ _
          rw [e1]; exact Nat.mul_le_mul_right _ hq23
        · have e1 : 2 ^ (23 + (e + k) + 1) = 2 ^ 24 * 2 ^ (e + k) := by
            rw [show 23 + (e + k) + 1 = 24 + (e + k) by omega]; exact Nat.pow_add _ _ _
          rw [e1]; exact Nat.mul_lt_mul_of_pos_right hq hpos
      rw [this]; omega
    · have he : e = 0 := by rcases hn with hn | hn; exact absurd hn hq23; exact hn
      subst he
      have : ilog2 (q * 2 ^ (0 + k)) ≤ 23 + (0 + k) := by
        apply ilog2_lt
        have e1 : 2 ^ (23 + (0 + k)) = 2 ^ 23 * 2 ^ (0 + k) := Nat.pow_add _ _ _
        rw [e1]; exact Nat.mul_lt_mul_of_pos_right (by omega) hpos
      omega
  unfold round
  simp only [hsh, Nat.mul_div_cancel _ hpos, Nat.mul_mod_left]
  have h1 : ¬ (2 * 0 > 2 ^ (e + k) ∨ 2 * 0 = 2 ^ (e + k) ∧ q % 2 = 1) := by omega
  simp only [h1, if_false]
  congr 1
  omega

theorem pack_units (x : F32) (h : x.expo ≠ 255) :
    pack x.sign (if x.expo = 0 then x.mant else 2 ^ 23 + x.mant) (x.expo - 1) = x := by
  obtain ⟨s, e, m, he, hm⟩ := x
  simp only at h
  unfold pack
  by_cases h0 : e = 0
  · subst h0
    simp only [if_true]
    rw [dif_pos hm]
  · have h1 : ¬ (2 ^ 23 + m < 2 ^ 23) := by omega
    have h2 : 2 ^ 23 + m < 2 ^ 24 ∧ e - 1 + 1 < 255 := by omega
    simp only [h0, if_false]
    rw [dif_neg h1, dif_pos h2]
    have e1 : e - 1 + 1 = e := by omega
    have e2 : 2 ^ 23 + m - 2 ^ 23 = m := by omega
    simp only [e1, e2]

theorem round_units (x : F32) (k : Nat) (h : x.expo ≠ 255) :
    round x.sign (x.units * 2 ^ k) k = x := by
  have key : x.units * 2 ^ k =
      (if x.expo = 0 then x.mant else 2 ^ 23 + x.mant) * 2 ^ ((x.expo - 1) + k) := by
    unfold units
    by_cases h0 : x.expo = 0
    · simp [h0]
    · simp only [h0, if_false]
      rw [Nat.pow_add, Nat.mul_assoc]
  rw [key, round_exact, pack_units x h]
  · have := x.hmant
    split_ifs <;> omega
  · have := x.hmant
    by_cases h0 : x.expo = 0
    · right; omega
    · left; simp [h0]

theorem view_one : (1 : F32).view = .fin false (2 ^ 149) := by decide

theorem view_zero (s : Bool) : (zero s).view = .fin s 0 := by cases s <;> decide

theorem zero_eq : (0 : F32) = zero false := by decide

theorem one_sub_zero : (1 : F32) - (0 : F32) = 1 := by decide

theorem one_sub_one : (1 : F32) - (1 : F32) = zero false := by decide

theorem round_zero (s : Bool) (k : Nat) : round s 0 k = zero s := by
  unfold round
  simp only [ilog2_zero, Nat.zero_div, Nat.zero_mod]
  have hpos : 0 < 2 ^ (max (0 - 23) k) := Nat.pos_pow_of_pos _ (by decide)
  have h1 : ¬ (2 * 0 > 2 ^ (max (0 - 23) k) ∨ 2 * 0 = 2 ^ (max (0 - 23) k) ∧ 0 % 2 = 1) := by
    omega
  simp only [h1, if_false]
  unfold pack
  rw [dif_pos (by decide)]
  rfl

theorem view_of_finite (x : F32) (h : x.isFinite = true) : x.view = .fin x.sign x.units := by
  unfold view
  have : x.expo ≠ 255 := by simpa [isFinite] using h
  simp [this]

theorem mul_one (x : F32) (h : x.isFinite = true) : mul x 1 = x := by
  have hx : x.expo ≠ 255 := by simpa [isFinite] using h
  unfold mul
  rw [view_of_finite x h, view_one]
  show round (xor x.sign false) (x.units * 2 ^ 149) 149 = x
  rw [Bool.xor_false]
  exact round_units x 149 hx

theorem mul_zero (x : F32) (s : Bool) (h : x.isFinite = true) :
    mul x (zero s) = zero (xor x.sign s) := by
  unfold mul
  rw [view_of_finite x h, view_zero]
  show round (xor x.sign s) (x.units * 0) 149 = _
  rw [Nat.mul_zero, round_zero]

theorem eq_of_units_zero (a b : F32) (ha : a.isNaN = false) (hb : b.isNaN = false)
    (hua : a.units = 0) (hub : b.units = 0) : F32.eq a b = true := by
  simp [F32.eq, ha, hb, hua, hub]

theorem eq_zero_of_units (x : F32) (hn : x.units = 0) : x = zero x.sign := by
  obtain ⟨s, e, m, he, hm⟩ := x
  unfold units at hn
  simp only at hn
  by_cases h0 : e = 0
  · subst h0
    simp only [if_true] at hn
    subst hn
    rfl
  · simp only [h0, if_false] at hn
    have h1 : 0 < 2 ^ (e - 1) := Nat.pos_pow_of_pos _ (by decide)
    have h2 : 0 < 2 ^ 23 + m := by omega
    have := Nat.mul_pos h2 h1
    omega

theorem add_zero_eq (x : F32) (s : Bool) (h : x.isFinite = true) :
    F32.eq (add x (zero s)) x = true ∧
    ((x = zero true → s = true) → add x (zero s) = x) := by
  have hx : x.expo ≠ 255 := by simpa [isFinite] using h
  have hnan : x.isNaN = false := by simp [isNaN, hx]
  have hr := round_units x 0 hx
  rw [Nat.pow_zero, Nat.mul_one] at hr
  unfold add
  rw [view_of_finite x h, view_zero]
  simp only [View.add]
  by_cases hs : x.sign = s
  · simp only [hs, if_true, Nat.add_zero]
    rw [← hs, hr]
    exact ⟨eq_self x hnan, fun _ => rfl⟩
  · simp only [hs, if_false]
    by_cases hn : x.units = 0
    · simp only [hn, if_true]
      constructor
      · exact eq_of_units_zero _ _ (by decide) hnan (by decide) hn
      · intro hz
        have hxz := eq_zero_of_units x hn
        cases hsg : x.sign with
        | false => rw [hxz, hsg]
        | true =>
          rw [hsg] at hxz
          have := hz hxz
          rw [hsg, this] at hs
          exact absurd rfl hs
    · have hpos : 0 < x.units := Nat.pos_of_ne_zero hn
      simp only [hn, if_false, hpos, if_true, Nat.sub_zero, hr]
      exact ⟨eq_self x hnan, fun _ => trivial⟩

theorem lerp_zero (a b : F32) (ha : a.isFinite = true) (hb : b.isFinite = true) :
    F32.eq (Lerp a b 0) a = true ∧ (a ≠ zero true → (Lerp a b 0 : F32) = a) := by
  have e : (Lerp a b 0 : F32) = add (mul a ((1 : F32) - 0)) (mul b 0) := rfl
  rw [e, one_sub_zero, mul_one a ha, zero_eq, mul_zero b false hb]
  obtain ⟨h1, h2⟩ := add_zero_eq a (xor b.sign false) ha
  exact ⟨h1, fun hne => h2 (fun hz => absurd hz hne)⟩

theorem lerp_one (a b : F32) (ha : a.isFinite = true) (hb : b.isFinite = true) :
    F32.eq (Lerp a b 1) b = true ∧ (b ≠ zero true → (Lerp a b 1 : F32) = b) := by
  have e : (Lerp a b 1 : F32) = add (mul a ((1 : F32) - 1)) (mul b 1) := rfl
  rw [e, one_sub_one, mul_one b hb, mul_zero a false ha, add_comm]
  obtain ⟨h1, h2⟩ := add_zero_eq b (xor a.sign false) hb
  exact ⟨h1, fun hne => h2 (fun hz => absurd hz hne)⟩

/-! ### arithmetic on the literals used below -/

theorem mul_0_0 : (0 : F32) * 0 = 0 := by decide
theorem mul_0_1 : (0 : F32) * 1 = 0 := by decide
theorem mul_1_0 : (1 : F32) * 0 = 0 := by decide
theorem mul_1_1 : (1 : F32) * 1 = 1 := by decide
theorem sub_0_0 : (0 : F32) - 0 = 0 := by decide
theorem sub_1_0 : (1 : F32) - 0 = 1 := by decide
theorem sub_0_1 : (0 : F32) - 1 = -1 := by decide
theorem neg1_ne_0 : (-1 : F32) ≠ 0 := by decide
theorem add_1_1 : (1 : F32) + 1 = 2 := by decide
theorem add_2_1 : (2 : F32) + 1 = 3 := by decide
theorem add_2_2 : (2 : F32) + 2 = 4 := by decide
theorem mul_1_4 : (1 : F32) * 4 = 4 := by decide
theorem mul_2_5 : (2 : F32) * 5 = 10 := by decide
theorem mul_3_6 : (3 : F32) * 6 = 18 := by decide
theorem add_4_10 : (4 : F32) + 10 = 14 := by decide
theorem add_14_18 : (14 : F32) + 18 = 32 := by decide
theorem add_18_0 : (18 : F32) + 0 = 18 := by decide
theorem mul_2_2 : (2 : F32) * 2 = 4 := by decide
theorem mul_3_3 : (3 : F32) * 3 = 9 := by decide
theorem add_1_4 : (1 : F32) + 4 = 5 := by decide
theorem add_5_9 : (5 : F32) + 9 = 14 := by decide
theorem mul_2_6 : (2 : F32) * 6 = 12 := by decide
theorem mul_3_5 : (3 : F32) * 5 = 15 := by decide
theorem mul_5_3 : (5 : F32) * 3 = 15 := by decide
theorem mul_3_4 : (3 : F32) * 4 = 12 := by decide
theorem mul_4_3 : (4 : F32) * 3 = 12 := by decide
theorem mul_1_6 : (1 : F32) * 6 = 6 := by decide
theorem mul_6_1 : (6 : F32) * 1 = 6 := by decide
theorem mul_1_5 : (1 : F32) * 5 = 5 := by decide
theorem mul_2_4 : (2 : F32) * 4 = 8 := by decide
theorem mul_4_2 : (4 : F32) * 2 = 8 := by decide
theorem sub_12_15 : (12 : F32) - 15 = -3 := by decide
theorem sub_12_6 : (12 : F32) - 6 = 6 := by decide
theorem sub_5_8 : (5 : F32) - 8 = -3 := by decide
theorem neg3_ne_6 : (-3 : F32) ≠ 6 := by decide
theorem four_ne_three : (4 : F32) ≠ 3 := by decide
theorem mul_big_big : big * big = inf false := by decide
theorem mul_big_0 : big * 0 = 0 := by decide
theorem mul_0_big : (0 : F32) * big = 0 := by decide
theorem sub_inf_inf : inf false - inf false = qnan := by decide
theorem neg_qnan_isNaN : (-qnan).isNaN = true := by decide
theorem neg_0 : -(0 : F32) = zero true := by decide
theorem zero_beq_negzero : ((0 : F32) == zero true) = true := by decide
theorem qnan_beq_neg : (qnan == -qnan) = false := by decide
theorem mul_qnan_0 : qnan * (0 : F32) = qnan := by decide
theorem mul_0_qnan : (0 : F32) * qnan = qnan := by decide
theorem sub_0_qnan : (0 : F32) - qnan = qnan := by decide
theorem sub_qnan_0 : qnan - (0 : F32) = qnan := by decide
theorem isNaN_neg3 : (-3 : F32).isNaN = false := by decide
theorem isNaN_6 : (6 : F32).isNaN = false := by decide
theorem mul_inf_0 : inf false * (0 : F32) = qnan := by decide
theorem add_0_qnan : (0 : F32) + qnan = qnan := by decide
theorem qnan_beq_0 : (qnan == (0 : F32)) = false := by decide
theorem inf_isNaN : (inf false).isNaN = false := by decide
theorem mul_negzero_1 : zero true * (1 : F32) = zero true := by decide
theorem add_negzero_0 : zero true + (0 : F32) = 0 := by decide
theorem add_0_0 : (0 : F32) + 0 = 0 := by decide
theorem one_finite : (1 : F32).isFinite = true := by decide
theorem two_finite : (2 : F32).isFinite = true := by decide

end F32

theorem F32.hmul_comm (a b : F32) : a * b = b * a := F32.mul_comm a b

theorem F32.hsub_antisymm (p q : F32) (h : (p - q).isNaN = false) :
    (p - q == -(q - p)) = true := F32.sub_antisymm p q h

theorem F32.beq_def (x y : F32) : (x == y) = F32.eq x y := rfl

theorem F32.qnan_beq : (F32.qnan == F32.qnan) = false := by decide

theorem F32.zero_beq : ((0 : F32) == 0) = true := by decide

theorem F32.one_beq : ((1 : F32) == 1) = true := by decide

theorem F32.negzero_beq : (F32.zero true == (0 : F32)) = true := by decide

/-! ## comparison masks and `memcmp` -/

theorem movemask3 (x y z w : Bool) :
    (_mm_movemask_ps ⟨if x then 0xFFFFFFFF else 0, if y then 0xFFFFFFFF else 0,
      if z then 0xFFFFFFFF else 0, if w then 0xFFFFFFFF else 0⟩ &&& 0x7 == 0x7) = (x && y && z) := by
  cases x <;> cases y <;> cases z <;> cases w <;> decide

theorem movemask4 (x y z w : Bool) :
    (_mm_movemask_ps ⟨if x then 0xFFFFFFFF else 0, if y then 0xFFFFFFFF else 0,
      if z then 0xFFFFFFFF else 0, if w then 0xFFFFFFFF else 0⟩ == 0xF) = (x && y && z && w) := by
  cases x <;> cases y <;> cases z <;> cases w <;> decide

theorem lanes_and3 (x y z : Bool) :
    (((if x then 0xFFFFFFFF else 0) &&& (if y then 0xFFFFFFFF else 0) &&&
      (if z then 0xFFFFFFFF else 0) : Nat) == 0xFFFFFFFF) = (x && y && z) := by
  cases x <;> cases y <;> cases z <;> decide

theorem lanes_fold4 (x y z w : Bool) :
    (min ((if x then 0xFFFFFFFF else 0) &&& (if z then 0xFFFFFFFF else 0) : Nat)
      ((if y then 0xFFFFFFFF else 0) &&& (if w then 0xFFFFFFFF else 0)) == 0xFFFFFFFF)
      = (x && y && z && w) := by
  cases x <;> cases y <;> cases z <;> cases w <;> decide

theorem Vec3.eq_eq_and3 {α : Type} [BEq α] (p : Path) (a b : Vec3 α) :
    Vec3.eq p a b = (a.x == b.x && a.y == b.y && a.z == b.z) := by
  cases p
  · rfl
  · exact movemask3 _ _ _ (a.pad == b.pad)
  · exact movemask3 _ _ _ (a.pad == b.pad)
  · exact lanes_and3 _ _ _

theorem Vec4.eq_eq_and4 {α : Type} [BEq α] (p : Path) (a b : Vec4 α) :
    Vec4.eq p a b = (a.x == b.x && a.y == b.y && a.z == b.z && a.w == b.w) := by
  cases p
  · rfl
  · exact movemask4 _ _ _ _
  · exact movemask4 _ _ _ _
  · exact lanes_fold4 _ _ _ _

theorem memcmp_eq_zero_iff : ∀ (l1 l2 : List Nat) (n : Nat), l1.length = n → l2.length = n →
    (memcmp l1 l2 n = 0 ↔ l1 = l2) := by
  intro l1
  induction l1 with
  | nil =>
    intro l2 n h1 h2
    cases l2 with
    | nil => simp [memcmp]
    | cons b bs => simp at h1; subst h1; simp at h2
  | cons a as ih =>
    intro l2 n h1 h2
    cases l2 with
    | nil => simp at h2; subst h2; simp at h1
    | cons b bs =>
      cases n with
      | zero => simp at h1
      | succ n =>
        simp only [List.length_cons, Nat.succ.injEq, Nat.add_right_cancel_iff] at h1 h2
        simp only [memcmp, List.cons.injEq]
        by_cases hab : a < b
        · simp [hab]; omega
        · by_cases hba : b < a
          · simp [hab, hba]; omega
          · have : a = b := by omega
            subst this
            simp only [Nat.lt_irrefl, if_false, true_and]
            exact ih bs n h1 h2

theorem Vec2.eq_iff {α : Type} [ObjRep α] (a b : Vec2 α) :
    Vec2.eq a b = true ↔ ObjRep.bytes a.x = ObjRep.bytes b.x ∧ ObjRep.bytes a.y = ObjRep.bytes b.y := by
  unfold Vec2.eq
  have h1 : a.AsArray.length = Vec2.sizeof α := by
    simp [Vec2.AsArray, Vec2.sizeof, ObjRep.bytes_length]; omega
  have h2 : b.AsArray.length = Vec2.sizeof α := by
    simp [Vec2.AsArray, Vec2.sizeof, ObjRep.bytes_length]; omega
  rw [beq_iff_eq, memcmp_eq_zero_iff _ _ _ h1 h2]
  unfold Vec2.AsArray
  constructor
  · intro h
    exact List.append_inj h (by rw [ObjRep.bytes_length, ObjRep.bytes_length])
  · rintro ⟨hx, hy⟩
    rw [hx, hy]

/-! ## what each compiled-in branch computes -/

theorem Vec3.Cross_scalar {α : Type} [Mul α] [Sub α] (a b : Vec3 α) (u : α) :
    Vec3.Cross .scalar a b u =
      ⟨a.y * b.z - a.z * b.y, a.z * b.x - a.x * b.z, a.x * b.y - a.y * b.x, u⟩ := rfl

theorem Vec3.Cross_sse2 {α : Type} [Mul α] [Sub α] (a b : Vec3 α) (u : α) :
    Vec3.Cross .sse2 a b u =
      ⟨a.y * b.z - b.y * a.z, a.z * b.x - b.z * a.x, a.x * b.y - b.x * a.y,
        a.pad * b.pad - b.pad * a.pad⟩ := rfl

theorem Vec3.Cross_sse41 {α : Type} [Mul α] [Sub α] (a b : Vec3 α) (u : α) :
    Vec3.Cross .sse41 a b u = Vec3.Cross .sse2 a b u := rfl

theorem Vec3.Cross_neon {α : Type} [Mul α] [Sub α] (a b : Vec3 α) (u : α) :
    Vec3.Cross .neon a b u =
      ⟨a.pad * b.x - b.pad * a.x, a.x * b.y - b.x * a.y, a.y * b.z - b.y * a.z,
        a.z * b.pad - b.z * a.pad⟩ := rfl

theorem Vec3.Length2_scalar {α : Type} [Mul α] [Add α] (v : Vec3 α) :
    Vec3.Length2 .scalar v = v.x * v.x + v.y * v.y + v.z * v.z := rfl

theorem Vec3.Length2_sse2 {α : Type} [Mul α] [Add α] (v : Vec3 α) :
    Vec3.Length2 .sse2 v = v.x * v.x + v.y * v.y + v.z * v.z := rfl

theorem Vec3.Length2_sse41 {α : Type} [Mul α] [Add α] (v : Vec3 α) :
    Vec3.Length2 .sse41 v = v.x * v.x + v.y * v.y + v.z * v.z := rfl

theorem Vec3.Length2_neon {α : Type} [Mul α] [Add α] (v : Vec3 α) :
    Vec3.Length2 .neon v = (v.x * v.x + v.y * v.y) + (v.z * v.z + v.pad * v.pad) := rfl

theorem Vec3.Dot_scalar {α : Type} [Mul α] [Add α] [Zero α] (a b : Vec3 α) :
    Vec3.Dot .scalar a b = a.x * b.x + a.y * b.y + a.z * b.z := rfl

theorem Vec3.Dot_sse2 {α : Type} [Mul α] [Add α] [Zero α] (a b : Vec3 α) :
    Vec3.Dot .sse2 a b = a.x * b.x + a.y * b.y + a.z * b.z := rfl

theorem Vec3.Dot_sse41 {α : Type} [Mul α] [Add α] [Zero α] (a b : Vec3 α) :
    Vec3.Dot .sse41 a b = (a.x * b.x + a.y * b.y) + (a.z * b.z + 0) := rfl

theorem Vec3.Dot_neon {α : Type} [Mul α] [Add α] [Zero α] (a b : Vec3 α) :
    Vec3.Dot .neon a b = a.x * b.x + a.y * b.y + a.z * b.z := rfl

theorem Vec2.Lerp_components2 (a b : Vec2 F32) (t : F32) :
    Vec2.Lerp a b t = ⟨Common.Lerp a.x b.x t, Common.Lerp a.y b.y t⟩ := rfl

theorem Vec3.Lerp_x (p : Path) (u : F32) (a b : Vec3 F32) (t : F32) :
    (Vec3.Lerp p u a b t).x = Common.Lerp a.x b.x t := by cases p <;> rfl

theorem Vec3.Lerp_y (p : Path) (u : F32) (a b : Vec3 F32) (t : F32) :
    (Vec3.Lerp p u a b t).y = Common.Lerp a.y b.y t := by cases p <;> rfl

theorem Vec3.Lerp_z (p : Path) (u : F32) (a b : Vec3 F32) (t : F32) :
    (Vec3.Lerp p u a b t).z = Common.Lerp a.z b.z t := by cases p <;> rfl

theorem Vec4.Lerp_components4 (p : Path) (a b : Vec4 F32) (t : F32) :
    Vec4.Lerp p a b t = ⟨Common.Lerp a.x b.x t, Common.Lerp a.y b.y t, Common.Lerp a.z b.z t,
      Common.Lerp a.w b.w t⟩ := by
  cases p <;> rfl

theorem Lerp_scalar (a b t : F32) : (Lerp a b t : F32) = a * (1 - t) + b * t := rfl

theorem F32.pack_finite (s : Bool) (q e : Nat) (hq : q ≤ 2 ^ 24) (he : e + 2 < 255) :
    (F32.pack s q e).isFinite = true := by
  unfold F32.pack
  by_cases h0 : q < 2 ^ 23
  · rw [dif_pos h0]; rfl
  · rw [dif_neg h0]
    by_cases h1 : q < 2 ^ 24 ∧ e + 1 < 255
    · rw [dif_pos h1]
      simp only [F32.isFinite, bne_iff_ne, ne_eq]
      omega
    · rw [dif_neg h1]
      have h2 : q = 2 ^ 24 ∧ e + 2 < 255 := by omega
      rw [dif_pos h2]
      simp only [F32.isFinite, bne_iff_ne, ne_eq]
      omega

theorem F32.round_finite (s : Bool) (N k : Nat) (h : N < 2 ^ (275 + k)) :
    (F32.round s N k).isFinite = true := by
  unfold F32.round
  have hL : ilog2 N ≤ 275 + k := ilog2_lt N _ h
  have hpos : 0 < 2 ^ (max (ilog2 N - 23) k) := Nat.pos_pow_of_pos _ (by decide)
  have hq : N / 2 ^ (max (ilog2 N - 23) k) < 2 ^ 24 := by
    rw [Nat.div_lt_iff_lt_mul hpos, ← Nat.pow_add]
    by_cases h0 : N = 0
    · subst h0; exact Nat.pos_pow_of_pos _ (by decide)
    · have h1 := (ilog2_spec N h0).2
      refine Nat.lt_of_lt_of_le h1 (Nat.pow_le_pow_right (by decide) ?_)
      omega
  apply F32.pack_finite
  · split_ifs <;> omega
  · omega

theorem F32.ofInt_finite (i : Int) (h : i.natAbs < 2 ^ 32) : (F32.ofInt i).isFinite = true := by
  unfold F32.ofInt
  apply F32.round_finite
  have e1 : (2 : Nat) ^ (275 + 0) = 2 ^ 126 * 2 ^ 149 := by rw [← Nat.pow_add]
  rw [e1]
  exact Nat.mul_lt_mul_of_pos_right (Nat.lt_trans h (by decide)) (Nat.pos_pow_of_pos _ (by decide))

theorem Lerp_int (a b : Int) (t : F32) :
    (Lerp a b t : F32) = Lerp (F32.ofInt a) (F32.ofInt b) t := rfl

/-! ## the claims -/

/-- C1 (defect in the code): on the NEON path `Cross` does not compute the scalar
formula.  `vextq_f32(v, v, 1)` rotates all four lanes, giving `(y, z, pad, x)` and not
`(y, z, x, pad)`, so the result is
`(a.pad*b.x - b.pad*a.x, a.x*b.y - b.x*a.y, a.y*b.z - b.y*a.z)`: its `x` is computed
from the padding lanes and its `y`, `z` are the scalar formula's `z`, `x`.  For
`a = (1,0,0)` and `b = (0,1,0)`, whatever the padding lanes hold, the NEON result has
`y = 1, z = 0` while the scalar path returns `(0, 0, 1)`; and its `x` is `0` when the
padding of `b` is `0` but `-1` when it is `1`. -/
theorem Cross_neon_diverges (pa pb u : F32) :
    (Vec3.Cross .neon ⟨1, 0, 0, pa⟩ ⟨0, 1, 0, pb⟩ u).x = pa * 0 - pb * 1 ∧
    (Vec3.Cross .neon ⟨1, 0, 0, pa⟩ ⟨0, 1, 0, pb⟩ u).y = 1 ∧
    (Vec3.Cross .neon ⟨1, 0, 0, pa⟩ ⟨0, 1, 0, pb⟩ u).z = 0 ∧
    (Vec3.Cross .scalar ⟨1, 0, 0, pa⟩ ⟨0, 1, 0, pb⟩ u).x = 0 ∧
    (Vec3.Cross .scalar ⟨1, 0, 0, pa⟩ ⟨0, 1, 0, pb⟩ u).y = 0 ∧
    (Vec3.Cross .scalar ⟨1, 0, 0, pa⟩ ⟨0, 1, 0, pb⟩ u).z = 1 ∧
    (Vec3.Cross .neon ⟨1, 0, 0, 0⟩ ⟨0, 1, 0, 0⟩ u).x = 0 ∧
    (Vec3.Cross .neon ⟨1, 0, 0, 0⟩ ⟨0, 1, 0, 1⟩ u).x = -1 ∧
    (-1 : F32) ≠ 0 := by
  rw [Vec3.Cross_neon, Vec3.Cross_neon, Vec3.Cross_neon, Vec3.Cross_scalar]
  simp only [F32.mul_0_0, F32.mul_0_1, F32.mul_1_0, F32.mul_1_1, F32.sub_0_0, F32.sub_1_0,
    F32.sub_0_1, and_self, true_and]
  exact F32.neg1_ne_0

/-- C2: on the SSE2 path (the same code is compiled with SSE4.1) the shuffle,
multiply, subtract, shuffle sequence of `Cross` yields, over any commutative ring of
scalars and for arbitrary padding lanes `pa`, `pb`, exactly the scalar formula
`(ay*bz - az*by, az*bx - ax*bz, ax*by - ay*bx)` in `x, y, z`; these are the components
the scalar path returns, and the padding lanes do not occur in them. -/
theorem Cross_sse2_eq_scalar {α : Type} [CommRing α] (a b : Vec3 α) (pa pb u : α) :
    (Vec3.Cross .sse2 ⟨a.x, a.y, a.z, pa⟩ ⟨b.x, b.y, b.z, pb⟩ u).x = a.y * b.z - a.z * b.y ∧
    (Vec3.Cross .sse2 ⟨a.x, a.y, a.z, pa⟩ ⟨b.x, b.y, b.z, pb⟩ u).y = a.z * b.x - a.x * b.z ∧
    (Vec3.Cross .sse2 ⟨a.x, a.y, a.z, pa⟩ ⟨b.x, b.y, b.z, pb⟩ u).z = a.x * b.y - a.y * b.x ∧
    (Vec3.Cross .sse2 ⟨a.x, a.y, a.z, pa⟩ ⟨b.x, b.y, b.z, pb⟩ u).x = (Vec3.Cross .scalar a b u).x ∧
    (Vec3.Cross .sse2 ⟨a.x, a.y, a.z, pa⟩ ⟨b.x, b.y, b.z, pb⟩ u).y = (Vec3.Cross .scalar a b u).y ∧
    (Vec3.Cross .sse2 ⟨a.x, a.y, a.z, pa⟩ ⟨b.x, b.y, b.z, pb⟩ u).z = (Vec3.Cross .scalar a b u).z ∧
    (Vec3.Cross .sse41 ⟨a.x, a.y, a.z, pa⟩ ⟨b.x, b.y, b.z, pb⟩ u) =
      (Vec3.Cross .sse2 ⟨a.x, a.y, a.z, pa⟩ ⟨b.x, b.y, b.z, pb⟩ u) := by
  rw [Vec3.Cross_sse41, Vec3.Cross_sse2, Vec3.Cross_scalar]
  simp only [mul_comm b.y a.z, mul_comm b.z a.x, mul_comm b.x a.y, and_self]

/-- C3 (defect in the code): on the NEON path `Length2()` of a `Vec3` is
`(x*x + y*y) + (z*z + pad*pad)`: the second `vpadd_f32` adds the padding lane's
square, against the comment "Only need x+y+z".  For `Vec3f::AssignToAll(1.0f)`, whose
padding lane is `1.0f` on that path, it returns `4` while `x*x + y*y + z*z` is `3`
(the value the SSE2 and scalar paths return). -/
theorem Length2_neon_includes_pad (u : F32) :
    Vec3.Length2 .neon (Vec3.AssignToAll .neon (1 : F32) u) = 4 ∧
    Vec3.Length2 .sse2 (Vec3.AssignToAll .sse2 (1 : F32) u) = 3 ∧
    Vec3.Length2 .scalar (Vec3.AssignToAll .scalar (1 : F32) u) = 3 ∧
    (4 : F32) ≠ 3 := by
  refine ⟨?_, ?_, ?_, F32.four_ne_three⟩
  · rw [Vec3.Length2_neon]
    show ((1 : F32) * 1 + 1 * 1) + (1 * 1 + 1 * 1) = 4
    simp only [F32.mul_1_1, F32.add_1_1, F32.add_2_2]
  · rw [Vec3.Length2_sse2]
    show (1 : F32) * 1 + 1 * 1 + 1 * 1 = 3
    simp only [F32.mul_1_1, F32.add_1_1, F32.add_2_1]
  · rw [Vec3.Length2_scalar]
    show (1 : F32) * 1 + 1 * 1 + 1 * 1 = 3
    simp only [F32.mul_1_1, F32.add_1_1, F32.add_2_1]

/-- C4 (defect in the code): the free `operator*(const V&, const Vec2<T>&)` returns
`Vec2<T>`, not a vector of the promoted type, so for an `int` vector and a `float`
scalar the products are truncated back to `int`.  With `v = Vec2<int>(1, 3)` and
`f = 0.5f`: the member `v * f` is the `float` vector `(0.5, 1.5)`, the free `f * v`
is the `int` vector `(0, 1)`; the free operator for `Vec3` does the same. -/
theorem scalarMul_truncates (u : Int) :
    Vec2.mulScalar (⟨1, 3⟩ : Vec2 Int) (F32.ofBits 0x3F000000) =
      (⟨F32.ofBits 0x3F000000, F32.ofBits 0x3FC00000⟩ : Vec2 F32) ∧
    Vec2.scalarMul (F32.ofBits 0x3F000000) (⟨1, 3⟩ : Vec2 Int) = ⟨0, 1⟩ ∧
    Vec3.scalarMulH (F32.ofBits 0x3F000000) (⟨1, 3, 5, 0⟩ : Vec3 Int) u = ⟨0, 1, 2, u⟩ := by
  have h1 : ((1 : Int) * F32.ofBits 0x3F000000 : F32) = F32.ofBits 0x3F000000 := by decide
  have h3 : ((3 : Int) * F32.ofBits 0x3F000000 : F32) = F32.ofBits 0x3FC00000 := by decide
  have g1 : (Convert.conv (F32.ofBits 0x3F000000 * (1 : Int) : F32) : Int) = 0 := by decide
  have g3 : (Convert.conv (F32.ofBits 0x3F000000 * (3 : Int) : F32) : Int) = 1 := by decide
  have g5 : (Convert.conv (F32.ofBits 0x3F000000 * (5 : Int) : F32) : Int) = 2 := by decide
  refine ⟨?_, ?_, ?_⟩
  · show (⟨(1 : Int) * F32.ofBits 0x3F000000, (3 : Int) * F32.ofBits 0x3F000000⟩ : Vec2 F32) = _
    rw [h1, h3]
  · show (⟨Convert.conv (F32.ofBits 0x3F000000 * (1 : Int) : F32),
      Convert.conv (F32.ofBits 0x3F000000 * (3 : Int) : F32)⟩ : Vec2 Int) = _
    rw [g1, g3]
  · show (⟨Convert.conv (F32.ofBits 0x3F000000 * (1 : Int) : F32),
      Convert.conv (F32.ofBits 0x3F000000 * (3 : Int) : F32),
      Convert.conv (F32.ofBits 0x3F000000 * (5 : Int) : F32), u⟩ : Vec3 Int) = _
    rw [g1, g3, g5]

/-- C5 (defect in the code): on the NEON path `Dot(a, a)` and `a.Length2()` differ for
a `Vec3` whose padding lane is not zero, because `Length2()` adds the padding lane's
square and `Dot` does not.  For `a = Vec3f::AssignToAll(1.0f)`: `Dot(a, a)` is `3` and
`a.Length2()` is `4`. -/
theorem Dot_self_ne_Length2_neon (u : F32) :
    Vec3.Dot .neon (Vec3.AssignToAll .neon (1 : F32) u) (Vec3.AssignToAll .neon (1 : F32) u) = 3 ∧
    Vec3.Length2 .neon (Vec3.AssignToAll .neon (1 : F32) u) = 4 ∧
    Vec3.Dot .neon (Vec3.AssignToAll .neon (1 : F32) u) (Vec3.AssignToAll .neon (1 : F32) u) ≠
      Vec3.Length2 .neon (Vec3.AssignToAll .neon (1 : F32) u) := by
  have h1 : Vec3.Dot .neon (Vec3.AssignToAll .neon (1 : F32) u)
      (Vec3.AssignToAll .neon (1 : F32) u) = 3 := by
    rw [Vec3.Dot_neon]
    show (1 : F32) * 1 + 1 * 1 + 1 * 1 = 3
    simp only [F32.mul_1_1, F32.add_1_1, F32.add_2_1]
  have h2 : Vec3.Length2 .neon (Vec3.AssignToAll .neon (1 : F32) u) = 4 := by
    rw [Vec3.Length2_neon]
    show ((1 : F32) * 1 + 1 * 1) + (1 * 1 + 1 * 1) = 4
    simp only [F32.mul_1_1, F32.add_1_1, F32.add_2_2]
  refine ⟨h1, h2, ?_⟩
  rw [h1, h2]
  exact fun h => F32.four_ne_three h.symm

/-- C6, counterexample: a `Vec4<float>` (and a `Vec3<float>`) holding a NaN compares
unequal to itself on every path although the bit patterns are identical, whereas the
`Vec2<float>` with the same NaN compares equal to itself; and `(-0.0, 0, 0, 0)`
compares equal to `(0, 0, 0, 0)` although the bit patterns of `x` differ. -/
theorem Vec4_eq_not_bitwise :
    Vec4.eq .scalar (⟨F32.qnan, 0, 0, 0⟩ : Vec4 F32) ⟨F32.qnan, 0, 0, 0⟩ = false ∧
    Vec4.eq .sse2 (⟨F32.qnan, 0, 0, 0⟩ : Vec4 F32) ⟨F32.qnan, 0, 0, 0⟩ = false ∧
    Vec4.eq .sse41 (⟨F32.qnan, 0, 0, 0⟩ : Vec4 F32) ⟨F32.qnan, 0, 0, 0⟩ = false ∧
    Vec4.eq .neon (⟨F32.qnan, 0, 0, 0⟩ : Vec4 F32) ⟨F32.qnan, 0, 0, 0⟩ = false ∧
    Vec3.eq .sse2 (⟨F32.qnan, 0, 0, 0⟩ : Vec3 F32) ⟨F32.qnan, 0, 0, 0⟩ = false ∧
    Vec3.eq .neon (⟨F32.qnan, 0, 0, 0⟩ : Vec3 F32) ⟨F32.qnan, 0, 0, 0⟩ = false ∧
    Vec2.eq (⟨F32.qnan, 0⟩ : Vec2 F32) ⟨F32.qnan, 0⟩ = true ∧
    Vec4.eq .sse2 (⟨F32.zero true, 0, 0, 0⟩ : Vec4 F32) ⟨0, 0, 0, 0⟩ = true ∧
    Vec4.eq .neon (⟨F32.zero true, 0, 0, 0⟩ : Vec4 F32) ⟨0, 0, 0, 0⟩ = true ∧
    ObjRep.bytes (F32.zero true) ≠ ObjRep.bytes (0 : F32) := by
  simp only [Vec4.eq_eq_and4, Vec3.eq_eq_and3, F32.qnan_beq, F32.zero_beq, F32.negzero_beq,
    Bool.false_and, Bool.and_self, true_and]
  constructor
  · decide
  · decide

/-- C6 (amended): `Vec2` equality is an exact bitwise comparison: `a == b` holds iff
`x` and `y` have the same object representation.  `Vec3` and `Vec4` equality is, on
every path, the conjunction of the component type's `operator==` over `x, y, z`
(resp. `x, y, z, w`); it coincides with identity of the components when that operator
does (integer types), and for `float` it is the IEEE comparison: a NaN component
never compares equal, `+0.0` equals `-0.0`, any other pair is equal iff the bit
patterns are. -/
theorem eq_semantics :
    (∀ {α : Type} [ObjRep α] (a b : Vec2 α), Vec2.eq a b = true ↔
      ObjRep.bytes a.x = ObjRep.bytes b.x ∧ ObjRep.bytes a.y = ObjRep.bytes b.y) ∧
    (∀ {α : Type} [BEq α] (p : Path) (a b : Vec3 α),
      Vec3.eq p a b = (a.x == b.x && a.y == b.y && a.z == b.z)) ∧
    (∀ {α : Type} [BEq α] (p : Path) (a b : Vec4 α),
      Vec4.eq p a b = (a.x == b.x && a.y == b.y && a.z == b.z && a.w == b.w)) ∧
    (∀ {α : Type} [BEq α] [LawfulBEq α] (p : Path) (a b : Vec4 α),
      Vec4.eq p a b = true ↔ a.x = b.x ∧ a.y = b.y ∧ a.z = b.z ∧ a.w = b.w) ∧
    (∀ {α : Type} [BEq α] [LawfulBEq α] (p : Path) (a b : Vec3 α),
      Vec3.eq p a b = true ↔ a.x = b.x ∧ a.y = b.y ∧ a.z = b.z) ∧
    (∀ x y : F32, (x == y) = true ↔
      x.isNaN = false ∧ y.isNaN = false ∧ (x = y ∨ (x.units = 0 ∧ y.units = 0))) := by
  refine ⟨fun a b => Vec2.eq_iff a b, fun p a b => Vec3.eq_eq_and3 p a b,
    fun p a b => Vec4.eq_eq_and4 p a b, ?_, ?_, ?_⟩
  · intro α _ _ p a b
    rw [Vec4.eq_eq_and4]
    simp only [Bool.and_eq_true, beq_iff_eq, and_assoc]
  · intro α _ _ p a b
    rw [Vec3.eq_eq_and3]
    simp only [Bool.and_eq_true, beq_iff_eq, and_assoc]
  · intro x y
    rw [F32.beq_def]
    simp [F32.eq, and_assoc]

/-- C6, a concrete instance of the amended statement: an `int` vector compares equal
to itself on the NEON path. -/
theorem eq_semantics_witness :
    Vec4.eq .neon (⟨1, 2, 3, 4⟩ : Vec4 Int) ⟨1, 2, 3, 4⟩ = true :=
  (eq_semantics.2.2.2.1 Path.neon (⟨1, 2, 3, 4⟩ : Vec4 Int) ⟨1, 2, 3, 4⟩).mpr ⟨rfl, rfl, rfl, rfl⟩

/-- C7, counterexample: two `Vec3<float>` values with identical `x, y, z` that
differ only in the padding compare unequal on every path when `x` is a NaN, and
`a != b` is true for them. -/
theorem Vec3_eq_identical_nan :
    Vec3.eq .scalar (⟨F32.qnan, 0, 0, 0⟩ : Vec3 F32) ⟨F32.qnan, 0, 0, 1⟩ = false ∧
    Vec3.eq .sse2 (⟨F32.qnan, 0, 0, 0⟩ : Vec3 F32) ⟨F32.qnan, 0, 0, 1⟩ = false ∧
    Vec3.eq .sse41 (⟨F32.qnan, 0, 0, 0⟩ : Vec3 F32) ⟨F32.qnan, 0, 0, 1⟩ = false ∧
    Vec3.eq .neon (⟨F32.qnan, 0, 0, 0⟩ : Vec3 F32) ⟨F32.qnan, 0, 0, 1⟩ = false ∧
    Vec3.ne .neon (⟨F32.qnan, 0, 0, 0⟩ : Vec3 F32) ⟨F32.qnan, 0, 0, 1⟩ = true := by
  simp only [Vec3.ne, Vec3.eq_eq_and3, F32.qnan_beq, Bool.false_and, Bool.not_false, and_self]

/-- C7 (amended): on every path `Vec3` equality is determined by `x, y, z` alone: it
does not change when the padding of either operand is replaced, and it is the
conjunction of the component comparisons.  Hence two `Vec3` values with identical
`x, y, z`, each of which compares equal to itself (for `float`: none is a NaN), and
any padding contents compare equal, and `a != b` is false for them. -/
theorem Vec3_eq_ignores_pad {α : Type} [BEq α] (p : Path) (a b : Vec3 α) (pa pb : α) :
    Vec3.eq p ⟨a.x, a.y, a.z, pa⟩ ⟨b.x, b.y, b.z, pb⟩ = Vec3.eq p a b ∧
    Vec3.eq p a b = (a.x == b.x && a.y == b.y && a.z == b.z) ∧
    Vec3.ne p ⟨a.x, a.y, a.z, pa⟩ ⟨b.x, b.y, b.z, pb⟩ = !(Vec3.eq p a b) ∧
    ((a.x == a.x) = true → (a.y == a.y) = true → (a.z == a.z) = true →
      Vec3.eq p ⟨a.x, a.y, a.z, pa⟩ ⟨a.x, a.y, a.z, pb⟩ = true ∧
      Vec3.ne p ⟨a.x, a.y, a.z, pa⟩ ⟨a.x, a.y, a.z, pb⟩ = false) := by
  simp only [Vec3.ne, Vec3.eq_eq_and3, true_and]
  intro hx hy hz
  simp only [hx, hy, hz, Bool.and_self, Bool.not_true, and_self]

/-- C7, a concrete instance of the amended statement: `(1,1,1)` with padding `0` and
`(1,1,1)` with padding `1` compare equal on the NEON path. -/
theorem Vec3_eq_ignores_pad_witness :
    Vec3.eq .neon (⟨1, 1, 1, 0⟩ : Vec3 F32) ⟨1, 1, 1, 1⟩ = true ∧
    Vec3.ne .neon (⟨1, 1, 1, 0⟩ : Vec3 F32) ⟨1, 1, 1, 1⟩ = false :=
  (Vec3_eq_ignores_pad Path.neon (⟨1, 1, 1, 0⟩ : Vec3 F32) ⟨1, 1, 1, 0⟩ 0 1).2.2.2
    F32.one_beq F32.one_beq F32.one_beq

/-- C8, counterexample: for the finite vector `a = b = (2^127, 2^127, 0)` the products
`a.x*b.y` and `a.y*b.x` overflow to `+inf`, their difference is a NaN, and
`Cross(a, b) == -Cross(b, a)` is false on every path; the same happens on the scalar
path for `a = (NaN, 0, 0)`, `b = (0, 0, 0)`. -/
theorem Cross_anticomm_fails :
    Vec3.eq .scalar (Vec3.Cross .scalar ⟨F32.big, F32.big, 0, 0⟩ ⟨F32.big, F32.big, 0, 0⟩ 0)
      (Vec3.neg (Vec3.Cross .scalar ⟨F32.big, F32.big, 0, 0⟩ ⟨F32.big, F32.big, 0, 0⟩ 0) 0)
      = false ∧
    Vec3.eq .sse2 (Vec3.Cross .sse2 ⟨F32.big, F32.big, 0, 0⟩ ⟨F32.big, F32.big, 0, 0⟩ 0)
      (Vec3.neg (Vec3.Cross .sse2 ⟨F32.big, F32.big, 0, 0⟩ ⟨F32.big, F32.big, 0, 0⟩ 0) 0)
      = false ∧
    Vec3.eq .sse41 (Vec3.Cross .sse41 ⟨F32.big, F32.big, 0, 0⟩ ⟨F32.big, F32.big, 0, 0⟩ 0)
      (Vec3.neg (Vec3.Cross .sse41 ⟨F32.big, F32.big, 0, 0⟩ ⟨F32.big, F32.big, 0, 0⟩ 0) 0)
      = false ∧
    Vec3.eq .neon (Vec3.Cross .neon ⟨F32.big, F32.big, 0, 0⟩ ⟨F32.big, F32.big, 0, 0⟩ 0)
      (Vec3.neg (Vec3.Cross .neon ⟨F32.big, F32.big, 0, 0⟩ ⟨F32.big, F32.big, 0, 0⟩ 0) 0)
      = false ∧
    Vec3.eq .scalar (Vec3.Cross .scalar ⟨F32.qnan, 0, 0, 0⟩ ⟨0, 0, 0, 0⟩ 0)
      (Vec3.neg (Vec3.Cross .scalar ⟨0, 0, 0, 0⟩ ⟨F32.qnan, 0, 0, 0⟩ 0) 0) = false := by
  simp only [Vec3.eq_eq_and3, Vec3.Cross_sse41, Vec3.Cross_scalar, Vec3.Cross_sse2,
    Vec3.Cross_neon, Vec3.neg, Vec3.ctor, F32.mul_big_big, F32.mul_big_0, F32.mul_0_big,
    F32.mul_0_0, F32.sub_0_0, F32.sub_inf_inf, F32.qnan_beq_neg, F32.neg_0,
    F32.zero_beq_negzero, F32.mul_qnan_0, F32.mul_0_qnan, F32.sub_0_qnan, F32.sub_qnan_0,
    Bool.and_false, Bool.false_and, Bool.and_true, and_self]

/-- C8 (amended): for all `Vec3<float>` `a`, `b` such that no meaningful component of
`Cross(a, b)` is a NaN, `Cross(a, b) == -Cross(b, a)`, on every path and whatever the
padding lanes and the indeterminate padding of the results hold. -/
theorem Cross_anticomm_of_not_nan (p : Path) (a b : Vec3 F32) (u v w : F32)
    (hx : (Vec3.Cross p a b u).x.isNaN = false) (hy : (Vec3.Cross p a b u).y.isNaN = false)
    (hz : (Vec3.Cross p a b u).z.isNaN = false) :
    Vec3.eq p (Vec3.Cross p a b u) (Vec3.neg (Vec3.Cross p b a v) w) = true := by
  rw [Vec3.eq_eq_and3]
  cases p
  · simp only [Vec3.Cross_scalar, Vec3.neg, Vec3.ctor, Bool.and_eq_true] at hx hy hz ⊢
    rw [F32.hmul_comm b.y a.z, F32.hmul_comm b.z a.y, F32.hmul_comm b.z a.x,
      F32.hmul_comm b.x a.z, F32.hmul_comm b.x a.y, F32.hmul_comm b.y a.x]
    exact ⟨⟨F32.hsub_antisymm _ _ hx, F32.hsub_antisymm _ _ hy⟩, F32.hsub_antisymm _ _ hz⟩
  · simp only [Vec3.Cross_sse2, Vec3.neg, Vec3.ctor, Bool.and_eq_true] at hx hy hz ⊢
    exact ⟨⟨F32.hsub_antisymm _ _ hx, F32.hsub_antisymm _ _ hy⟩, F32.hsub_antisymm _ _ hz⟩
  · simp only [Vec3.Cross_sse41, Vec3.Cross_sse2, Vec3.neg, Vec3.ctor, Bool.and_eq_true]
      at hx hy hz ⊢
    exact ⟨⟨F32.hsub_antisymm _ _ hx, F32.hsub_antisymm _ _ hy⟩, F32.hsub_antisymm _ _ hz⟩
  · simp only [Vec3.Cross_neon, Vec3.neg, Vec3.ctor, Bool.and_eq_true] at hx hy hz ⊢
    exact ⟨⟨F32.hsub_antisymm _ _ hx, F32.hsub_antisymm _ _ hy⟩, F32.hsub_antisymm _ _ hz⟩

/-- C8, a concrete instance of the amended statement: `a = (1,2,3)`, `b = (4,5,6)` on
the SSE2 path, where `Cross(a, b) = (-3, 6, -3)` has no NaN component. -/
theorem Cross_anticomm_witness :
    Vec3.eq .sse2 (Vec3.Cross .sse2 ⟨1, 2, 3, 0⟩ ⟨4, 5, 6, 0⟩ 0)
      (Vec3.neg (Vec3.Cross .sse2 ⟨4, 5, 6, 0⟩ ⟨1, 2, 3, 0⟩ 0) 0) = true :=
  Cross_anticomm_of_not_nan Path.sse2 ⟨1, 2, 3, 0⟩ ⟨4, 5, 6, 0⟩ 0 0 0
    (by simp only [Vec3.Cross_sse2, F32.mul_2_6, F32.mul_5_3, F32.sub_12_15, F32.isNaN_neg3])
    (by simp only [Vec3.Cross_sse2, F32.mul_3_4, F32.mul_6_1, F32.sub_12_6, F32.isNaN_6])
    (by simp only [Vec3.Cross_sse2, F32.mul_1_5, F32.mul_4_2, F32.sub_5_8, F32.isNaN_neg3])

/-- C9, counterexample: `Lerp(0.0f, +inf, 0.0f)` is `0*1 + inf*0`, a NaN, so it does
not compare equal to `0.0f`; and for the finite `Vec2<float>` values `a = (-0.0, 0)`,
`b = (1, 1)`, `Lerp(a, b, 0.0f)` is `(+0.0, 0)`, which the bitwise `Vec2` comparison
distinguishes from `a`. -/
theorem Lerp_endpoint_fails :
    ((Lerp (0 : F32) (F32.inf false) 0 : F32) == (0 : F32)) = false ∧
    Vec2.eq (Vec2.Lerp ⟨F32.zero true, 0⟩ ⟨1, 1⟩ 0) ⟨F32.zero true, 0⟩ = false := by
  constructor
  · simp only [Lerp_scalar, F32.sub_1_0, F32.mul_0_1, F32.mul_inf_0, F32.add_0_qnan,
      F32.qnan_beq_0]
  · simp only [Vec2.Lerp_components2, Lerp_scalar, F32.sub_1_0, F32.mul_negzero_1, F32.mul_1_0,
      F32.mul_0_1, F32.add_negzero_0, F32.add_0_0]
    decide

/-- C9 (amended): for finite endpoints (no component a NaN or an infinity)
`Lerp(a, b, 0.0f) == a` and `Lerp(a, b, 1.0f) == b` hold for `float` scalars, for `int`
scalars (the comparison converts the endpoint to `float`), and for `Vec3<float>` and
`Vec4<float>` on every path; for `Vec2<float>`, whose `==` compares bit patterns, they
hold when in addition no component of `a` (resp. `b`) is `-0.0f`. -/
theorem Lerp_endpoints_finite :
    (∀ a b : F32, a.isFinite = true → b.isFinite = true →
      ((Lerp a b 0 : F32) == a) = true ∧ ((Lerp a b 1 : F32) == b) = true) ∧
    (∀ (p : Path) (u : F32) (a b : Vec3 F32), a.isFinite = true → b.isFinite = true →
      Vec3.eq p (Vec3.Lerp p u a b 0) a = true ∧ Vec3.eq p (Vec3.Lerp p u a b 1) b = true) ∧
    (∀ (p : Path) (a b : Vec4 F32), a.isFinite = true → b.isFinite = true →
      Vec4.eq p (Vec4.Lerp p a b 0) a = true ∧ Vec4.eq p (Vec4.Lerp p a b 1) b = true) ∧
    (∀ (a b : Vec2 F32), a.isFinite = true → b.isFinite = true →
      (a.noNegZero = true → Vec2.eq (Vec2.Lerp a b 0) a = true) ∧
      (b.noNegZero = true → Vec2.eq (Vec2.Lerp a b 1) b = true)) ∧
    (∀ a b : Int, -(2 : Int) ^ 31 ≤ a → a < 2 ^ 31 → -(2 : Int) ^ 31 ≤ b → b < 2 ^ 31 →
      ((Lerp a b 0 : F32) == F32.ofInt a) = true ∧
      ((Lerp a b 1 : F32) == F32.ofInt b) = true) := by
  refine ⟨?_, ?_, ?_, ?_, ?_⟩
  · intro a b ha hb
    exact ⟨(F32.lerp_zero a b ha hb).1, (F32.lerp_one a b ha hb).1⟩
  · intro p u a b ha hb
    simp only [Vec3.isFinite, Bool.and_eq_true] at ha hb
    obtain ⟨⟨hax, hay⟩, haz⟩ := ha
    obtain ⟨⟨hbx, hby⟩, hbz⟩ := hb
    simp only [Vec3.eq_eq_and3, Vec3.Lerp_x, Vec3.Lerp_y, Vec3.Lerp_z, Bool.and_eq_true]
    exact ⟨⟨⟨(F32.lerp_zero _ _ hax hbx).1, (F32.lerp_zero _ _ hay hby).1⟩,
      (F32.lerp_zero _ _ haz hbz).1⟩,
      ⟨(F32.lerp_one _ _ hax hbx).1, (F32.lerp_one _ _ hay hby).1⟩,
      (F32.lerp_one _ _ haz hbz).1⟩
  · intro p a b ha hb
    simp only [Vec4.isFinite, Bool.and_eq_true] at ha hb
    obtain ⟨⟨⟨hax, hay⟩, haz⟩, haw⟩ := ha
    obtain ⟨⟨⟨hbx, hby⟩, hbz⟩, hbw⟩ := hb
    simp only [Vec4.eq_eq_and4, Vec4.Lerp_components4, Bool.and_eq_true]
    exact ⟨⟨⟨⟨(F32.lerp_zero _ _ hax hbx).1, (F32.lerp_zero _ _ hay hby).1⟩,
      (F32.lerp_zero _ _ haz hbz).1⟩, (F32.lerp_zero _ _ haw hbw).1⟩,
      ⟨⟨(F32.lerp_one _ _ hax hbx).1, (F32.lerp_one _ _ hay hby).1⟩,
      (F32.lerp_one _ _ haz hbz).1⟩, (F32.lerp_one _ _ haw hbw).1⟩
  · intro a b ha hb
    simp only [Vec2.isFinite, Bool.and_eq_true] at ha hb
    obtain ⟨hax, hay⟩ := ha
    obtain ⟨hbx, hby⟩ := hb
    constructor
    · intro hz
      simp only [Vec2.noNegZero, Bool.and_eq_true, decide_eq_true_eq] at hz
      rw [Vec2.eq_iff, Vec2.Lerp_components2]
      simp only [(F32.lerp_zero _ _ hax hbx).2 hz.1, (F32.lerp_zero _ _ hay hby).2 hz.2,
        and_self]
    · intro hz
      simp only [Vec2.noNegZero, Bool.and_eq_true, decide_eq_true_eq] at hz
      rw [Vec2.eq_iff, Vec2.Lerp_components2]
      simp only [(F32.lerp_one _ _ hax hbx).2 hz.1, (F32.lerp_one _ _ hay hby).2 hz.2,
        and_self]
  · intro a b ha1 ha2 hb1 hb2
    have ha : (F32.ofInt a).isFinite = true := F32.ofInt_finite a (by omega)
    have hb : (F32.ofInt b).isFinite = true := F32.ofInt_finite b (by omega)
    rw [Lerp_int, Lerp_int]
    exact ⟨(F32.lerp_zero _ _ ha hb).1, (F32.lerp_one _ _ ha hb).1⟩

/-- C9, a concrete instance of the amended statement: `Lerp(1.0f, 2.0f, t)` at
`t = 0` and `t = 1`. -/
theorem Lerp_endpoints_witness :
    ((Lerp (1 : F32) (2 : F32) 0 : F32) == (1 : F32)) = true ∧
    ((Lerp (1 : F32) (2 : F32) 1 : F32) == (2 : F32)) = true :=
  Lerp_endpoints_finite.1 1 2 F32.one_finite F32.two_finite

/-- C10 (defect in the code): for `a = (1,2,3)`, `b = (4,5,6)` and any padding lanes,
the scalar, SSE2 and SSE4.1 paths give `Dot(a,b) = 32`, `Cross(a,b) = (-3, 6, -3)` and
`a.Length2() = 14`, but on the NEON path `Cross(a,b)` has `y = -3`, not `6` (and
`Length2()` is `14 + pad*pad`). -/
theorem scenario_vec3 (pa pb u : F32) :
    (Vec3.Cross .neon ⟨1, 2, 3, pa⟩ ⟨4, 5, 6, pb⟩ u).y = -3 ∧ (-3 : F32) ≠ 6 ∧
    Vec3.Length2 .neon ⟨1, 2, 3, pa⟩ = 5 + (9 + pa * pa) ∧
    Vec3.Dot .neon ⟨1, 2, 3, pa⟩ ⟨4, 5, 6, pb⟩ = 32 ∧
    Vec3.Dot .scalar ⟨1, 2, 3, pa⟩ ⟨4, 5, 6, pb⟩ = 32 ∧
    Vec3.Dot .sse2 ⟨1, 2, 3, pa⟩ ⟨4, 5, 6, pb⟩ = 32 ∧
    Vec3.Dot .sse41 ⟨1, 2, 3, pa⟩ ⟨4, 5, 6, pb⟩ = 32 ∧
    Vec3.Length2 .scalar ⟨1, 2, 3, pa⟩ = 14 ∧
    Vec3.Length2 .sse2 ⟨1, 2, 3, pa⟩ = 14 ∧
    Vec3.Length2 .sse41 ⟨1, 2, 3, pa⟩ = 14 ∧
    (Vec3.Cross .scalar ⟨1, 2, 3, pa⟩ ⟨4, 5, 6, pb⟩ u).x = -3 ∧
    (Vec3.Cross .scalar ⟨1, 2, 3, pa⟩ ⟨4, 5, 6, pb⟩ u).y = 6 ∧
    (Vec3.Cross .scalar ⟨1, 2, 3, pa⟩ ⟨4, 5, 6, pb⟩ u).z = -3 ∧
    (Vec3.Cross .sse2 ⟨1, 2, 3, pa⟩ ⟨4, 5, 6, pb⟩ u).x = -3 ∧
    (Vec3.Cross .sse2 ⟨1, 2, 3, pa⟩ ⟨4, 5, 6, pb⟩ u).y = 6 ∧
    (Vec3.Cross .sse2 ⟨1, 2, 3, pa⟩ ⟨4, 5, 6, pb⟩ u).z = -3 ∧
    (Vec3.Cross .sse41 ⟨1, 2, 3, pa⟩ ⟨4, 5, 6, pb⟩ u).x = -3 ∧
    (Vec3.Cross .sse41 ⟨1, 2, 3, pa⟩ ⟨4, 5, 6, pb⟩ u).y = 6 ∧
    (Vec3.Cross .sse41 ⟨1, 2, 3, pa⟩ ⟨4, 5, 6, pb⟩ u).z = -3 := by
  rw [Vec3.Cross_neon, Vec3.Cross_sse41, Vec3.Cross_sse2, Vec3.Cross_scalar, Vec3.Length2_neon,
    Vec3.Length2_scalar, Vec3.Length2_sse2, Vec3.Length2_sse41, Vec3.Dot_neon, Vec3.Dot_scalar,
    Vec3.Dot_sse2, Vec3.Dot_sse41]
  simp only [F32.mul_1_1, F32.mul_2_2, F32.mul_3_3, F32.add_1_4, F32.add_5_9, F32.mul_1_4,
    F32.mul_2_5, F32.mul_3_6, F32.add_4_10, F32.add_14_18, F32.add_18_0, F32.mul_2_6,
    F32.mul_3_5, F32.mul_5_3, F32.mul_3_4, F32.mul_4_3, F32.mul_1_6, F32.mul_6_1, F32.mul_1_5,
    F32.mul_2_4, F32.mul_4_2, F32.sub_12_15, F32.sub_12_6, F32.sub_5_8, and_self, true_and, and_true]
  exact F32.neg3_ne_6

theorem Vec4.Length2q_scalar {α : Type} [Mul α] [Add α] (v : Vec4 α) :
    Vec4.Length2 .scalar v = v.x * v.x + v.y * v.y + v.z * v.z + v.w * v.w := rfl

theorem Vec4.Length2q_sse2 {α : Type} [Mul α] [Add α] (v : Vec4 α) :
    Vec4.Length2 .sse2 v = (v.x * v.x + v.y * v.y) + (v.z * v.z + v.w * v.w) := rfl

theorem Vec4.Length2q_sse41 {α : Type} [Mul α] [Add α] (v : Vec4 α) :
    Vec4.Length2 .sse41 v = (v.x * v.x + v.y * v.y) + (v.z * v.z + v.w * v.w) := rfl

theorem Vec4.Length2q_neon {α : Type} [Mul α] [Add α] (v : Vec4 α) :
    Vec4.Length2 .neon v = (v.x * v.x + v.y * v.y) + (v.z * v.z + v.w * v.w) := rfl

theorem Vec4.Dot4_scalar {α : Type} [Mul α] [Add α] [Zero α] (a b : Vec4 α) :
    Vec4.Dot .scalar a b = a.x * b.x + a.y * b.y + a.z * b.z + a.w * b.w := rfl

theorem Vec4.Dot4_sse2 {α : Type} [Mul α] [Add α] [Zero α] (a b : Vec4 α) :
    Vec4.Dot .sse2 a b = (a.x * b.x + a.y * b.y) + (a.z * b.z + a.w * b.w) := rfl

theorem Vec4.Dot4_sse41 {α : Type} [Mul α] [Add α] [Zero α] (a b : Vec4 α) :
    Vec4.Dot .sse41 a b = (a.x * b.x + a.y * b.y) + (a.z * b.z + a.w * b.w) := rfl

theorem Vec4.Dot4_neon {α : Type} [Mul α] [Add α] [Zero α] (a b : Vec4 α) :
    Vec4.Dot .neon a b = (a.x * b.x + a.y * b.y) + (a.z * b.z + a.w * b.w) := rfl

theorem Vec4.ctor_eq {α : Type} (p : Path) (x y z w : α) : Vec4.ctor p x y z w = ⟨x, y, z, w⟩ := by
  cases p <;> rfl

theorem F32.one_ne_zero : ((1 : F32) == 0) = false := by decide
theorem F32.zero_ne_one : ((0 : F32) == 1) = false := by decide
theorem F32.add_1_0 : (1 : F32) + 0 = 1 := by decide

/-- C11: with `c = (1,0,0,0)` and `d = (0,1,0,0)` as `Vec4<float>`, on every path
`Dot(c, d)` is `0`, `c != d` is true and `c.Length2()` is `1`. -/
theorem scenario_vec4 (p : Path) :
    Vec4.Dot p (Vec4.ctor p (1 : F32) 0 0 0) (Vec4.ctor p 0 1 0 0) = 0 ∧
    Vec4.ne p (Vec4.ctor p (1 : F32) 0 0 0) (Vec4.ctor p 0 1 0 0) = true ∧
    Vec4.Length2 p (Vec4.ctor p (1 : F32) 0 0 0) = 1 := by
  simp only [Vec4.ctor_eq]
  refine ⟨?_, ?_, ?_⟩
  · cases p
    · rw [Vec4.Dot4_scalar]; simp only [F32.mul_1_0, F32.mul_0_1, F32.mul_0_0, F32.add_0_0]
    · rw [Vec4.Dot4_sse2]; simp only [F32.mul_1_0, F32.mul_0_1, F32.mul_0_0, F32.add_0_0]
    · rw [Vec4.Dot4_sse41]; simp only [F32.mul_1_0, F32.mul_0_1, F32.mul_0_0, F32.add_0_0]
    · rw [Vec4.Dot4_neon]; simp only [F32.mul_1_0, F32.mul_0_1, F32.mul_0_0, F32.add_0_0]
  · rw [Vec4.ne, Vec4.eq_eq_and4]
    simp only [F32.one_ne_zero, Bool.false_and, Bool.not_false]
  · cases p
    · rw [Vec4.Length2q_scalar]; simp only [F32.mul_1_1, F32.mul_0_0, F32.add_1_0]
    · rw [Vec4.Length2q_sse2]; simp only [F32.mul_1_1, F32.mul_0_0, F32.add_1_0, F32.add_0_0]
    · rw [Vec4.Length2q_sse41]; simp only [F32.mul_1_1, F32.mul_0_0, F32.add_1_0, F32.add_0_0]
    · rw [Vec4.Length2q_neon]; simp only [F32.mul_1_1, F32.mul_0_0, F32.add_1_0, F32.add_0_0]

theorem Vec2.eq_of_eq {α : Type} [ObjRep α] (a b : Vec2 α) (h : a = b) : Vec2.eq a b = true := by
  subst h
  exact (Vec2.eq_iff a a).2 ⟨rfl, rfl⟩

theorem Vec3.eq_of_components {α : Type} [BEq α] [LawfulBEq α] (p : Path) (a b : Vec3 α)
    (hx : a.x = b.x) (hy : a.y = b.y) (hz : a.z = b.z) : Vec3.eq p a b = true := by
  rw [Vec3.eq_eq_and3, hx, hy, hz]
  simp

theorem Vec4.eq_of_eq4 {α : Type} [BEq α] [LawfulBEq α] (p : Path) (a b : Vec4 α)
    (h : a = b) : Vec4.eq p a b = true := by
  rw [Vec4.eq_eq_and4, h]
  simp

theorem F32.beq_self (a : F32) (h : a.isNaN = false) : (a == a) = true := by
  rw [F32.beq_def]
  exact F32.eq_self a h

theorem F32.hadd_comm (a b : F32) : a + b = b + a := F32.add_comm a b

theorem Vec3.add_x {α : Type} [Add α] (p : Path) (a b : Vec3 α) (u : α) :
    (Vec3.add p a b u).x = a.x + b.x := by cases p <;> rfl

theorem Vec3.add_y {α : Type} [Add α] (p : Path) (a b : Vec3 α) (u : α) :
    (Vec3.add p a b u).y = a.y + b.y := by cases p <;> rfl

theorem Vec3.add_z {α : Type} [Add α] (p : Path) (a b : Vec3 α) (u : α) :
    (Vec3.add p a b u).z = a.z + b.z := by cases p <;> rfl

theorem Vec4.add_eq {α : Type} [Add α] (p : Path) (a b : Vec4 α) :
    Vec4.add p a b = ⟨a.x + b.x, a.y + b.y, a.z + b.z, a.w + b.w⟩ := by cases p <;> rfl

theorem F32.add_inf_neginf : F32.inf false + F32.inf true = F32.qnan := by decide
theorem F32.add_neginf_inf : F32.inf true + F32.inf false = F32.qnan := by decide

/-- C12 (counterexample): with `a = (+inf, 0, 0[, 0])` and `b = (-inf, 0, 0[, 0])` the
first component of `a + b` is a NaN, and `a + b == b + a` is false for `Vec3<float>`
and `Vec4<float>` on every path. -/
theorem add_comm_fails :
    Vec3.eq .scalar (Vec3.add .scalar ⟨F32.inf false, 0, 0, 0⟩ ⟨F32.inf true, 0, 0, 0⟩ 0)
      (Vec3.add .scalar ⟨F32.inf true, 0, 0, 0⟩ ⟨F32.inf false, 0, 0, 0⟩ 0) = false ∧
    Vec3.eq .sse2 (Vec3.add .sse2 ⟨F32.inf false, 0, 0, 0⟩ ⟨F32.inf true, 0, 0, 0⟩ 0)
      (Vec3.add .sse2 ⟨F32.inf true, 0, 0, 0⟩ ⟨F32.inf false, 0, 0, 0⟩ 0) = false ∧
    Vec3.eq .sse41 (Vec3.add .sse41 ⟨F32.inf false, 0, 0, 0⟩ ⟨F32.inf true, 0, 0, 0⟩ 0)
      (Vec3.add .sse41 ⟨F32.inf true, 0, 0, 0⟩ ⟨F32.inf false, 0, 0, 0⟩ 0) = false ∧
    Vec3.eq .neon (Vec3.add .neon ⟨F32.inf false, 0, 0, 0⟩ ⟨F32.inf true, 0, 0, 0⟩ 0)
      (Vec3.add .neon ⟨F32.inf true, 0, 0, 0⟩ ⟨F32.inf false, 0, 0, 0⟩ 0) = false ∧
    Vec4.eq .scalar (Vec4.add .scalar ⟨F32.inf false, 0, 0, 0⟩ ⟨F32.inf true, 0, 0, 0⟩)
      (Vec4.add .scalar ⟨F32.inf true, 0, 0, 0⟩ ⟨F32.inf false, 0, 0, 0⟩) = false ∧
    Vec4.eq .sse2 (Vec4.add .sse2 ⟨F32.inf false, 0, 0, 0⟩ ⟨F32.inf true, 0, 0, 0⟩)
      (Vec4.add .sse2 ⟨F32.inf true, 0, 0, 0⟩ ⟨F32.inf false, 0, 0, 0⟩) = false ∧
    Vec4.eq .sse41 (Vec4.add .sse41 ⟨F32.inf false, 0, 0, 0⟩ ⟨F32.inf true, 0, 0, 0⟩)
      (Vec4.add .sse41 ⟨F32.inf true, 0, 0, 0⟩ ⟨F32.inf false, 0, 0, 0⟩) = false ∧
    Vec4.eq .neon (Vec4.add .neon ⟨F32.inf false, 0, 0, 0⟩ ⟨F32.inf true, 0, 0, 0⟩)
      (Vec4.add .neon ⟨F32.inf true, 0, 0, 0⟩ ⟨F32.inf false, 0, 0, 0⟩) = false := by
  simp only [Vec3.eq_eq_and3, Vec4.eq_eq_and4, Vec3.add_x, Vec4.add_eq, F32.add_inf_neginf,
    F32.add_neginf_inf, F32.qnan_beq, Bool.false_and, and_self]

/-- C12 (amended): for integer component types (arithmetic modulo `2^w`) addition of
`Vec2`, `Vec3` and `Vec4` is commutative and associative under `==`; for `float`
components `a + b == b + a` holds, on every path, whenever no meaningful component of
`a + b` is a NaN. -/
theorem add_comm_assoc :
    (∀ (w : Nat) (a b c : Vec2 (IntN w)),
      Vec2.eq (a.add b) (b.add a) = true ∧
      Vec2.eq ((a.add b).add c) (a.add (b.add c)) = true) ∧
    (∀ (w : Nat) (a b c : Vec3 (IntN w)) (u1 u2 u3 u4 : IntN w),
      Vec3.eq .scalar (Vec3.add .scalar a b u1) (Vec3.add .scalar b a u2) = true ∧
      Vec3.eq .scalar (Vec3.add .scalar (Vec3.add .scalar a b u1) c u2)
        (Vec3.add .scalar a (Vec3.add .scalar b c u3) u4) = true) ∧
    (∀ (w : Nat) (a b c : Vec4 (IntN w)),
      Vec4.eq .scalar (Vec4.add .scalar a b) (Vec4.add .scalar b a) = true ∧
      Vec4.eq .scalar (Vec4.add .scalar (Vec4.add .scalar a b) c)
        (Vec4.add .scalar a (Vec4.add .scalar b c)) = true) ∧
    (∀ (a b : Vec2 F32), (a.x + b.x).isNaN = false → (a.y + b.y).isNaN = false →
      Vec2.eq (a.add b) (b.add a) = true) ∧
    (∀ (p : Path) (a b : Vec3 F32) (u1 u2 : F32), (a.x + b.x).isNaN = false →
      (a.y + b.y).isNaN = false → (a.z + b.z).isNaN = false →
      Vec3.eq p (Vec3.add p a b u1) (Vec3.add p b a u2) = true) ∧
    (∀ (p : Path) (a b : Vec4 F32), (a.x + b.x).isNaN = false →
      (a.y + b.y).isNaN = false → (a.z + b.z).isNaN = false → (a.w + b.w).isNaN = false →
      Vec4.eq p (Vec4.add p a b) (Vec4.add p b a) = true) := by
  refine ⟨?_, ?_, ?_, ?_, ?_, ?_⟩
  · intro w a b c
    constructor
    · apply Vec2.eq_of_eq
      simp only [Vec2.add, add_comm]
    · apply Vec2.eq_of_eq
      simp only [Vec2.add, add_assoc]
  · intro w a b c u1 u2 u3 u4
    constructor
    · apply Vec3.eq_of_components
      · simp only [Vec3.add_x, add_comm]
      · simp only [Vec3.add_y, add_comm]
      · simp only [Vec3.add_z, add_comm]
    · apply Vec3.eq_of_components
      · simp only [Vec3.add_x, add_assoc]
      · simp only [Vec3.add_y, add_assoc]
      · simp only [Vec3.add_z, add_assoc]
  · intro w a b c
    constructor
    · apply Vec4.eq_of_eq4
      simp only [Vec4.add_eq, add_comm]
    · apply Vec4.eq_of_eq4
      simp only [Vec4.add_eq, add_assoc]
  · intro a b _ _
    apply Vec2.eq_of_eq
    simp only [Vec2.add, F32.hadd_comm a.x, F32.hadd_comm a.y]
  · intro p a b u1 u2 hx hy hz
    rw [Vec3.eq_eq_and3]
    simp only [Vec3.add_x, Vec3.add_y, Vec3.add_z, F32.hadd_comm b.x, F32.hadd_comm b.y,
      F32.hadd_comm b.z, F32.beq_self _ hx, F32.beq_self _ hy, F32.beq_self _ hz, Bool.and_self]
  · intro p a b hx hy hz hw
    rw [Vec4.eq_eq_and4]
    simp only [Vec4.add_eq, F32.hadd_comm b.x, F32.hadd_comm b.y, F32.hadd_comm b.z,
      F32.hadd_comm b.w, F32.beq_self _ hx, F32.beq_self _ hy, F32.beq_self _ hz,
      F32.beq_self _ hw, Bool.and_self]

/-- C12 (witness): the `float` parts at `a = (1, 2[, 3[, 4]])`, `b = (4, 3[, 2[, 1]])`,
none of whose sums is a NaN. -/
theorem add_comm_assoc_witness :
    Vec2.eq (Vec2.add (⟨1, 2⟩ : Vec2 F32) ⟨1, 1⟩) (Vec2.add ⟨1, 1⟩ ⟨1, 2⟩) = true ∧
    Vec3.eq .neon (Vec3.add .neon (⟨1, 2, 2, 0⟩ : Vec3 F32) ⟨1, 1, 2, 0⟩ 0)
      (Vec3.add .neon ⟨1, 1, 2, 0⟩ ⟨1, 2, 2, 0⟩ 0) = true ∧
    Vec4.eq .sse2 (Vec4.add .sse2 (⟨1, 2, 2, 0⟩ : Vec4 F32) ⟨1, 1, 2, 0⟩)
      (Vec4.add .sse2 ⟨1, 1, 2, 0⟩ ⟨1, 2, 2, 0⟩) = true :=
  ⟨add_comm_assoc.2.2.2.1 ⟨1, 2⟩ ⟨1, 1⟩ (by decide) (by decide),
   add_comm_assoc.2.2.2.2.1 .neon ⟨1, 2, 2, 0⟩ ⟨1, 1, 2, 0⟩ 0 0 (by decide) (by decide) (by decide),
   add_comm_assoc.2.2.2.2.2 .sse2 ⟨1, 2, 2, 0⟩ ⟨1, 1, 2, 0⟩ (by decide) (by decide) (by decide)
     (by decide)⟩

theorem F32.sub_self (x : F32) (h : x.isFinite = true) : x - x = 0 := by
  show F32.sub x x = 0
  unfold F32.sub F32.add
  rw [F32.view_neg, F32.view_of_finite x h, F32.zero_eq]
  cases hs : x.sign <;> simp [F32.View.neg, F32.View.add]

theorem Vec3.sub_x {α : Type} [Sub α] (p : Path) (a b : Vec3 α) (u : α) :
    (Vec3.sub p a b u).x = a.x - b.x := by cases p <;> rfl

theorem Vec3.sub_y {α : Type} [Sub α] (p : Path) (a b : Vec3 α) (u : α) :
    (Vec3.sub p a b u).y = a.y - b.y := by cases p <;> rfl

theorem Vec3.sub_z {α : Type} [Sub α] (p : Path) (a b : Vec3 α) (u : α) :
    (Vec3.sub p a b u).z = a.z - b.z := by cases p <;> rfl

theorem Vec4.sub_eq {α : Type} [Sub α] (p : Path) (a b : Vec4 α) :
    Vec4.sub p a b = ⟨a.x - b.x, a.y - b.y, a.z - b.z, a.w - b.w⟩ := by cases p <;> rfl

theorem F32.sub_inf_inf_pos : F32.inf false - F32.inf false = F32.qnan := by decide
theorem F32.qnan_ne_zero : F32.qnan ≠ 0 := by decide

/-- C13 (counterexample): for `a = (+inf, 0[, 0[, 0]])` the first component of `a - a`
is a NaN, and `a - a` does not compare equal to the zero vector, for `Vec2<float>` and
for `Vec3<float>` and `Vec4<float>` on every path. -/
theorem sub_self_fails :
    Vec2.eq (Vec2.sub ⟨F32.inf false, 0⟩ ⟨F32.inf false, 0⟩)
      (Vec2.SetZero ⟨F32.inf false, 0⟩) = false ∧
    Vec3.eq .scalar (Vec3.sub .scalar ⟨F32.inf false, 0, 0, 0⟩ ⟨F32.inf false, 0, 0, 0⟩ 0)
      (Vec3.SetZero ⟨F32.inf false, 0, 0, 0⟩) = false ∧
    Vec3.eq .sse2 (Vec3.sub .sse2 ⟨F32.inf false, 0, 0, 0⟩ ⟨F32.inf false, 0, 0, 0⟩ 0)
      (Vec3.SetZero ⟨F32.inf false, 0, 0, 0⟩) = false ∧
    Vec3.eq .sse41 (Vec3.sub .sse41 ⟨F32.inf false, 0, 0, 0⟩ ⟨F32.inf false, 0, 0, 0⟩ 0)
      (Vec3.SetZero ⟨F32.inf false, 0, 0, 0⟩) = false ∧
    Vec3.eq .neon (Vec3.sub .neon ⟨F32.inf false, 0, 0, 0⟩ ⟨F32.inf false, 0, 0, 0⟩ 0)
      (Vec3.SetZero ⟨F32.inf false, 0, 0, 0⟩) = false ∧
    Vec4.eq .scalar (Vec4.sub .scalar ⟨F32.inf false, 0, 0, 0⟩ ⟨F32.inf false, 0, 0, 0⟩)
      (Vec4.SetZero ⟨F32.inf false, 0, 0, 0⟩) = false ∧
    Vec4.eq .sse2 (Vec4.sub .sse2 ⟨F32.inf false, 0, 0, 0⟩ ⟨F32.inf false, 0, 0, 0⟩)
      (Vec4.SetZero ⟨F32.inf false, 0, 0, 0⟩) = false ∧
    Vec4.eq .sse41 (Vec4.sub .sse41 ⟨F32.inf false, 0, 0, 0⟩ ⟨F32.inf false, 0, 0, 0⟩)
      (Vec4.SetZero ⟨F32.inf false, 0, 0, 0⟩) = false ∧
    Vec4.eq .neon (Vec4.sub .neon ⟨F32.inf false, 0, 0, 0⟩ ⟨F32.inf false, 0, 0, 0⟩)
      (Vec4.SetZero ⟨F32.inf false, 0, 0, 0⟩) = false := by
  constructor
  · rw [Bool.eq_false_iff]
    intro h
    have h1 := ((Vec2.eq_iff _ _).1 h).1
    simp only [Vec2.sub, Vec2.SetZero, F32.sub_inf_inf_pos] at h1
    revert h1
    decide
  · simp only [Vec3.eq_eq_and3, Vec4.eq_eq_and4, Vec3.sub_x, Vec4.sub_eq, Vec3.SetZero,
      Vec4.SetZero, F32.sub_inf_inf_pos, F32.qnan_beq_0, Bool.false_and, and_self]

/-- C13 (amended): for integer component types (arithmetic modulo `2^w`) `a - a`
compares equal to the vector left by `SetZero()`, for `Vec2`, `Vec3` and `Vec4`; for
`float` components it does so, on every path, whenever every meaningful component of
`a` is finite. -/
theorem sub_self_zero :
    (∀ (w : Nat) (a b : Vec2 (IntN w)), Vec2.eq (a.sub a) b.SetZero = true) ∧
    (∀ (w : Nat) (a b : Vec3 (IntN w)) (u : IntN w),
      Vec3.eq .scalar (Vec3.sub .scalar a a u) b.SetZero = true) ∧
    (∀ (w : Nat) (a b : Vec4 (IntN w)),
      Vec4.eq .scalar (Vec4.sub .scalar a a) b.SetZero = true) ∧
    (∀ (a b : Vec2 F32), a.isFinite = true → Vec2.eq (a.sub a) b.SetZero = true) ∧
    (∀ (p : Path) (a b : Vec3 F32) (u : F32), a.isFinite = true →
      Vec3.eq p (Vec3.sub p a a u) b.SetZero = true) ∧
    (∀ (p : Path) (a b : Vec4 F32), a.isFinite = true →
      Vec4.eq p (Vec4.sub p a a) b.SetZero = true) := by
  refine ⟨?_, ?_, ?_, ?_, ?_, ?_⟩
  · intro w a b
    apply Vec2.eq_of_eq
    simp only [Vec2.sub, Vec2.SetZero, sub_self]
  · intro w a b u
    apply Vec3.eq_of_components
    · simp only [Vec3.sub_x, Vec3.SetZero, sub_self]
    · simp only [Vec3.sub_y, Vec3.SetZero, sub_self]
    · simp only [Vec3.sub_z, Vec3.SetZero, sub_self]
  · intro w a b
    apply Vec4.eq_of_eq4
    simp only [Vec4.sub_eq, Vec4.SetZero, sub_self]
  · intro a b h
    simp only [Vec2.isFinite, Bool.and_eq_true] at h
    apply Vec2.eq_of_eq
    simp only [Vec2.sub, Vec2.SetZero, F32.sub_self _ h.1, F32.sub_self _ h.2]
  · intro p a b u h
    simp only [Vec3.isFinite, Bool.and_eq_true] at h
    rw [Vec3.eq_eq_and3]
    simp only [Vec3.sub_x, Vec3.sub_y, Vec3.sub_z, Vec3.SetZero, F32.sub_self _ h.1.1,
      F32.sub_self _ h.1.2, F32.sub_self _ h.2, F32.zero_beq, Bool.and_self]
  · intro p a b h
    simp only [Vec4.isFinite, Bool.and_eq_true] at h
    rw [Vec4.eq_eq_and4]
    simp only [Vec4.sub_eq, Vec4.SetZero, F32.sub_self _ h.1.1.1, F32.sub_self _ h.1.1.2,
      F32.sub_self _ h.1.2, F32.sub_self _ h.2, F32.zero_beq, Bool.and_self]

/-- C13 (witness): the `float` parts at `a = (1, 2[, 3[, 4]])`. -/
theorem sub_self_zero_witness :
    Vec2.eq (Vec2.sub (⟨1, 2⟩ : Vec2 F32) ⟨1, 2⟩) (Vec2.SetZero ⟨1, 2⟩) = true ∧
    Vec3.eq .neon (Vec3.sub .neon (⟨1, 2, 3, 0⟩ : Vec3 F32) ⟨1, 2, 3, 0⟩ 0)
      (Vec3.SetZero ⟨1, 2, 3, 0⟩) = true ∧
    Vec4.eq .sse2 (Vec4.sub .sse2 (⟨1, 2, 3, 4⟩ : Vec4 F32) ⟨1, 2, 3, 4⟩)
      (Vec4.SetZero ⟨1, 2, 3, 4⟩) = true :=
  ⟨sub_self_zero.2.2.2.1 ⟨1, 2⟩ ⟨1, 2⟩ (by decide),
   sub_self_zero.2.2.2.2.1 .neon ⟨1, 2, 3, 0⟩ ⟨1, 2, 3, 0⟩ 0 (by decide),
   sub_self_zero.2.2.2.2.2 .sse2 ⟨1, 2, 3, 4⟩ ⟨1, 2, 3, 4⟩ (by decide)⟩

/-- C14: ten of the eleven overloads of `MakeVec` keep the order of their arguments: the
components of the result, read as `x, y[, z[, w]]`, are the concatenation of the
components of the arguments in the order written (on every path, whatever the
padding), and the call in the body of each resolves to the scalar overload declared
above it.  The overload `MakeVec(x, y, zw)` does not: the call `MakeVec(x, y, zw[0],
zw[1])` in its body (line 1191) stands above the four-scalar overload (line 1205), so
for an arithmetic element type it has no viable overload and `MakeVec(x, y, zw)` gives
no result, where the expression of its body, once the four-scalar overload is in
scope, would give `x, y` followed by the components of `zw`. -/
theorem MakeVec_order_except_TTV2 {α : Type} (p : Path) (x y z w u : α) (a b : Vec2 α)
    (c : Vec3 α) :
    ((MakeVec.TT x y).components = [x, y] ∧
    (MakeVec.TTT x y z u).components = [x, y, z] ∧
    (MakeVec.V2T a z u).components = a.components ++ [z] ∧
    (MakeVec.TV2 x a u).components = [x] ++ a.components ∧
    (MakeVec.TTTT p x y z w).components = [x, y, z, w] ∧
    (MakeVec.V2TT p a z w).components = a.components ++ [z, w] ∧
    (MakeVec.TV2T p x a w).components = [x] ++ a.components ++ [w] ∧
    (MakeVec.V2V2 p a b).components = a.components ++ b.components ∧
    (MakeVec.V3T p c w).components = c.components ++ [w] ∧
    (MakeVec.TV3 p x c).components = [x] ++ c.components) ∧
    (MakeVec.resolve 1196 [.T, .T, .T] = some 1185 ∧
    MakeVec.resolve 1201 [.T, .T, .T] = some 1185 ∧
    MakeVec.resolve 1211 [.T, .T, .T, .T] = some 1205 ∧
    MakeVec.resolve 1216 [.T, .T, .T, .T] = some 1205 ∧
    MakeVec.resolve 1224 [.T, .T, .T, .T] = some 1205 ∧
    MakeVec.resolve 1229 [.T, .T, .T, .T] = some 1205 ∧
    MakeVec.resolve 1234 [.T, .T, .T, .T] = some 1205) ∧
    (MakeVec.resolve 1191 [.T, .T, .T, .T] = none ∧
    MakeVec.TTV2 p x y a = none ∧
    (MakeVec.TTTT p x y (a.index 0) (a.index 1)).components = [x, y] ++ a.components) := by
  refine ⟨⟨rfl, rfl, rfl, rfl, ?_, ?_, ?_, ?_, ?_, ?_⟩,
    ⟨by decide, by decide, by decide, by decide, by decide, by decide, by decide⟩,
    ⟨by decide, ?_, ?_⟩⟩ <;> cases p <;> rfl

/-- C15 (counterexample): with `x` a NaN, `MakeVec(MakeVec(x, 0.f), 0.f)` does not
compare equal to `MakeVec(x, 0.f, 0.f)`, on every path. -/
theorem MakeVec_nested_nan :
    Vec3.eq .scalar (MakeVec.V2T (MakeVec.TT F32.qnan 0) 0 0) (MakeVec.TTT F32.qnan 0 0 0)
      = false ∧
    Vec3.eq .sse2 (MakeVec.V2T (MakeVec.TT F32.qnan 0) 0 0) (MakeVec.TTT F32.qnan 0 0 0)
      = false ∧
    Vec3.eq .sse41 (MakeVec.V2T (MakeVec.TT F32.qnan 0) 0 0) (MakeVec.TTT F32.qnan 0 0 0)
      = false ∧
    Vec3.eq .neon (MakeVec.V2T (MakeVec.TT F32.qnan 0) 0 0) (MakeVec.TTT F32.qnan 0 0 0)
      = false := by
  have h : ∀ p : Path,
      Vec3.eq p (MakeVec.V2T (MakeVec.TT F32.qnan 0) 0 0) (MakeVec.TTT F32.qnan 0 0 0) = false := by
    intro p
    rw [Vec3.eq_eq_and3]
    show ((F32.qnan == F32.qnan) && _ && _) = false
    rw [F32.qnan_beq]
    rfl
  exact ⟨h _, h _, h _, h _⟩

/-- C15 (amended): `MakeVec(MakeVec(x, y), z)` and `MakeVec(x, y, z)` have the same
components `x, y, z`, and they compare equal with `==`, on every path and whatever the
padding of either, when each of `x`, `y`, `z` compares equal to itself (for `float`:
is not a NaN). -/
theorem MakeVec_nested {α : Type} [BEq α] (p : Path) (x y z u1 u2 : α)
    (hx : (x == x) = true) (hy : (y == y) = true) (hz : (z == z) = true) :
    (MakeVec.V2T (MakeVec.TT x y) z u1).components = (MakeVec.TTT x y z u2).components ∧
    Vec3.eq p (MakeVec.V2T (MakeVec.TT x y) z u1) (MakeVec.TTT x y z u2) = true := by
  refine ⟨rfl, ?_⟩
  rw [Vec3.eq_eq_and3]
  show ((x == x) && (y == y) && (z == z)) = true
  rw [hx, hy, hz]
  rfl

/-- C15 (witness): `x = 1`, `y = 2`, `z = 3` as `float` on the NEON path, with
different padding. -/
theorem MakeVec_nested_witness :
    (MakeVec.V2T (MakeVec.TT (1 : F32) 2) 3 0).components = (MakeVec.TTT (1 : F32) 2 3 1).components ∧
    Vec3.eq .neon (MakeVec.V2T (MakeVec.TT (1 : F32) 2) 3 0) (MakeVec.TTT 1 2 3 1) = true :=
  MakeVec_nested .neon 1 2 3 0 1 (by decide) (by decide) (by decide)

/-- C16: for every `Vec2<T>` `p`, `p.yx().yx() == p`, and likewise for `vu` and `ts`;
each swizzle returns `(y, x)` by value. -/
theorem swizzle_involution {α : Type} [ObjRep α] (p : Vec2 α) :
    Vec2.eq p.yx.yx p = true ∧ Vec2.eq p.vu.vu p = true ∧ Vec2.eq p.ts.ts p = true ∧
    p.yx = ⟨p.y, p.x⟩ ∧ p.vu = ⟨p.y, p.x⟩ ∧ p.ts = ⟨p.y, p.x⟩ :=
  ⟨Vec2.eq_of_eq _ _ rfl, Vec2.eq_of_eq _ _ rfl, Vec2.eq_of_eq _ _ rfl, rfl, rfl, rfl⟩

namespace IntN
variable {w : Nat}

theorem ofInt_val (i : Int) : (((ofInt i : IntN w)).val : Int) = i % 2 ^ w := by
  have h : (0 : Int) < 2 ^ w := by positivity
  show (((i % 2 ^ w).toNat : Nat) : Int) = i % 2 ^ w
  exact Int.toNat_of_nonneg (Int.emod_nonneg i (ne_of_gt h))

theorem val_lt (a : IntN w) : a.val < 2 ^ w := a.isLt

theorem ext_val (a b : IntN w) (h : a.val = b.val) : a = b := Fin.ext h

theorem toInt_emod (a : IntN w) : a.toInt % 2 ^ w = (a.val : Int) := by
  have hlt : ((a.val : Nat) : Int) < 2 ^ w := by exact_mod_cast a.isLt
  have h0 : (0 : Int) ≤ (a.val : Int) := Int.ofNat_nonneg _
  unfold toInt
  split_ifs with h
  · exact Int.emod_eq_of_lt h0 hlt
  · rw [Int.sub_emod, Int.emod_self, sub_zero, Int.emod_emod, Int.emod_eq_of_lt h0 hlt]

theorem ofInt_toInt (a : IntN w) : ofInt a.toInt = a := by
  apply ext_val
  have h := ofInt_val (w := w) a.toInt
  rw [toInt_emod] at h
  exact_mod_cast h

theorem toInt_ofInt (i : Int) (h1 : -(2 ^ w : Int) ≤ 2 * i) (h2 : 2 * i < 2 ^ w) :
    (ofInt i : IntN w).toInt = i := by
  have hv := ofInt_val (w := w) i
  have hp : (0 : Int) < 2 ^ w := by positivity
  unfold toInt
  by_cases hi : 0 ≤ i
  · have e : i % 2 ^ w = i := Int.emod_eq_of_lt hi (by omega)
    rw [e] at hv
    have hlt : 2 * (ofInt i : IntN w).val < 2 ^ w := by
      zify
      rw [hv]
      exact h2
    rw [if_pos hlt, hv]
  · have e : i % 2 ^ w = i + 2 ^ w := by
      rw [← Int.add_emod_self]
      exact Int.emod_eq_of_lt (by omega) (by omega)
    rw [e] at hv
    have hlt : ¬ 2 * (ofInt i : IntN w).val < 2 ^ w := by
      zify
      rw [hv]
      omega
    rw [if_neg hlt, hv]
    ring

theorem mul_val (a b : IntN w) : (a * b).val = a.val * b.val % 2 ^ w := Fin.val_mul a b

theorem mul_eq_ofInt (a b : IntN w) : a * b = ofInt (a.toInt * b.toInt) := by
  apply ext_val
  have h := ofInt_val (w := w) (a.toInt * b.toInt)
  rw [Int.mul_emod, toInt_emod, toInt_emod] at h
  rw [mul_val]
  exact_mod_cast h.symm

theorem mul_div_cancel (a b : IntN w) (hb : b.toInt ≠ 0) (h : mulFits a b = true) :
    a * b / b = a := by
  simp only [mulFits, Bool.and_eq_true, decide_eq_true_eq] at h
  show div (a * b) b = a
  unfold div
  rw [mul_eq_ofInt, toInt_ofInt _ h.1 h.2, Int.mul_tdiv_cancel _ hb, ofInt_toInt]

theorem mul_udiv_cancel (a b : IntN w) (hb : b.val ≠ 0) (h : umulFits a b = true) :
    udiv (a * b) b = a := by
  simp only [umulFits, decide_eq_true_eq] at h
  unfold udiv
  rw [mul_val, Nat.mod_eq_of_lt h, Nat.mul_div_cancel _ (Nat.pos_of_ne_zero hb)]
  apply ext_val
  have hv := ofInt_val (w := w) ((a.val : Nat) : Int)
  rw [Int.emod_eq_of_lt (Int.ofNat_nonneg _) (by exact_mod_cast a.isLt)] at hv
  exact_mod_cast hv

end IntN
theorem IntN.toInt_ne_zero {w : Nat} (b : IntN w) (h : 0 < b.toInt) : b.toInt ≠ 0 := ne_of_gt h

theorem IntN.val_ne_zero {w : Nat} (b : IntN w) (h : 0 < b.toInt) : b.val ≠ 0 := by
  intro h0
  unfold IntN.toInt at h
  rw [h0] at h
  simp at h

theorem IntN.lerpInt_zero {w : Nat} (base b e : IntN w) (hb : 0 < base.toInt)
    (h : b.mulFits base = true) : (b * (base - 0) + e * 0) / base = b := by
  rw [sub_zero, mul_zero, add_zero]
  exact IntN.mul_div_cancel b base (ne_of_gt hb) h

theorem IntN.lerpInt_base {w : Nat} (base b e : IntN w) (hb : 0 < base.toInt)
    (h : e.mulFits base = true) : (b * (base - base) + e * base) / base = e := by
  rw [sub_self, mul_zero, zero_add]
  exact IntN.mul_div_cancel e base (ne_of_gt hb) h

theorem U32.lerpInt_zero_u (base : I32) (b e : U32) (hb : 0 < base.toInt)
    (h : IntN.umulFits (w := 32) b base = true) :
    (LerpInt base b e 0 : U32) = b := by
  show IntN.udiv (w := 32) (b * (base - 0) + e * 0) base = b
  rw [sub_zero, mul_zero, add_zero]
  exact IntN.mul_udiv_cancel (w := 32) b base (IntN.val_ne_zero base hb) h

theorem U32.lerpInt_base_u (base : I32) (b e : U32) (hb : 0 < base.toInt)
    (h : IntN.umulFits (w := 32) e base = true) :
    (LerpInt base b e base : U32) = e := by
  show IntN.udiv (w := 32) (b * (base - base) + e * base) base = e
  rw [sub_self, mul_zero, zero_add]
  exact IntN.mul_udiv_cancel (w := 32) e base (IntN.val_ne_zero base hb) h

/-- C17: `LerpInt<X, base>(begin, end, t)` is `(begin * (base - t) + end * t) / base` in
integer arithmetic; for `base > 0`, when the products `begin * base` and `end * base`
do not overflow, `LerpInt(begin, end, 0) == begin` and `LerpInt(begin, end, base) == end`,
for `int` and `unsigned int` scalars and for `Vec2<int>`, `Vec3<int>`, `Vec4<int>`. -/
theorem LerpInt_endpoints :
    (∀ (base begin_ end_ t : I32),
      (LerpInt base begin_ end_ t : I32) = (begin_ * (base - t) + end_ * t) / base) ∧
    (∀ (base begin_ end_ : I32), 0 < base.toInt → begin_.mulFits base = true →
      end_.mulFits base = true →
      (LerpInt base begin_ end_ 0 : I32) = begin_ ∧
      (LerpInt base begin_ end_ base : I32) = end_) ∧
    (∀ (base : I32) (begin_ end_ : U32), 0 < base.toInt →
      IntN.umulFits (w := 32) begin_ base = true → IntN.umulFits (w := 32) end_ base = true →
      (LerpInt base begin_ end_ 0 : U32) = begin_ ∧
      (LerpInt base begin_ end_ base : U32) = end_) ∧
    (∀ (base : I32) (begin_ end_ : Vec2 I32), 0 < base.toInt → begin_.mulFits base = true →
      end_.mulFits base = true →
      Vec2.eq (Vec2.LerpInt base begin_ end_ 0) begin_ = true ∧
      Vec2.eq (Vec2.LerpInt base begin_ end_ base) end_ = true) ∧
    (∀ (base u : I32) (begin_ end_ : Vec3 I32), 0 < base.toInt → begin_.mulFits base = true →
      end_.mulFits base = true →
      Vec3.eq .scalar (Vec3.LerpInt u base begin_ end_ 0) begin_ = true ∧
      Vec3.eq .scalar (Vec3.LerpInt u base begin_ end_ base) end_ = true) ∧
    (∀ (base : I32) (begin_ end_ : Vec4 I32), 0 < base.toInt → begin_.mulFits base = true →
      end_.mulFits base = true →
      Vec4.eq .scalar (Vec4.LerpInt base begin_ end_ 0) begin_ = true ∧
      Vec4.eq .scalar (Vec4.LerpInt base begin_ end_ base) end_ = true) := by
  refine ⟨fun _ _ _ _ => rfl, ?_, ?_, ?_, ?_, ?_⟩
  · intro base b e hb h1 h2
    exact ⟨IntN.lerpInt_zero base b e hb h1, IntN.lerpInt_base base b e hb h2⟩
  · intro base b e hb h1 h2
    exact ⟨U32.lerpInt_zero_u base b e hb h1, U32.lerpInt_base_u base b e hb h2⟩
  · intro base b e hb h1 h2
    simp only [Vec2.mulFits, Bool.and_eq_true] at h1 h2
    constructor
    · apply Vec2.eq_of_eq
      show (⟨(b.x * (base - 0) + e.x * 0) / base, (b.y * (base - 0) + e.y * 0) / base⟩ : Vec2 I32) = b
      rw [IntN.lerpInt_zero base _ _ hb h1.1, IntN.lerpInt_zero base _ _ hb h1.2]
    · apply Vec2.eq_of_eq
      show (⟨(b.x * (base - base) + e.x * base) / base,
        (b.y * (base - base) + e.y * base) / base⟩ : Vec2 I32) = e
      rw [IntN.lerpInt_base base _ _ hb h2.1, IntN.lerpInt_base base _ _ hb h2.2]
  · intro base u b e hb h1 h2
    simp only [Vec3.mulFits, Bool.and_eq_true] at h1 h2
    constructor
    · exact Vec3.eq_of_components _ _ _ (IntN.lerpInt_zero base _ _ hb h1.1.1)
        (IntN.lerpInt_zero base _ _ hb h1.1.2) (IntN.lerpInt_zero base _ _ hb h1.2)
    · exact Vec3.eq_of_components _ _ _ (IntN.lerpInt_base base _ _ hb h2.1.1)
        (IntN.lerpInt_base base _ _ hb h2.1.2) (IntN.lerpInt_base base _ _ hb h2.2)
  · intro base b e hb h1 h2
    simp only [Vec4.mulFits, Bool.and_eq_true] at h1 h2
    constructor
    · apply Vec4.eq_of_eq4
      show (⟨(b.x * (base - 0) + e.x * 0) / base, (b.y * (base - 0) + e.y * 0) / base,
        (b.z * (base - 0) + e.z * 0) / base, (b.w * (base - 0) + e.w * 0) / base⟩ : Vec4 I32) = b
      rw [IntN.lerpInt_zero base _ _ hb h1.1.1.1, IntN.lerpInt_zero base _ _ hb h1.1.1.2,
        IntN.lerpInt_zero base _ _ hb h1.1.2, IntN.lerpInt_zero base _ _ hb h1.2]
    · apply Vec4.eq_of_eq4
      show (⟨(b.x * (base - base) + e.x * base) / base, (b.y * (base - base) + e.y * base) / base,
        (b.z * (base - base) + e.z * base) / base,
        (b.w * (base - base) + e.w * base) / base⟩ : Vec4 I32) = e
      rw [IntN.lerpInt_base base _ _ hb h2.1.1.1, IntN.lerpInt_base base _ _ hb h2.1.1.2,
        IntN.lerpInt_base base _ _ hb h2.1.2, IntN.lerpInt_base base _ _ hb h2.2]

/-- C17 (witness): `base = 256`, a negative `begin` and a positive `end`, as `int`
scalars and as `Vec3<int>`. -/
theorem LerpInt_endpoints_witness :
    ((LerpInt 256 (-7 : I32) (100 : I32) 0 : I32) = -7 ∧
      (LerpInt 256 (-7 : I32) (100 : I32) 256 : I32) = 100) ∧
    (Vec3.eq .scalar (Vec3.LerpInt 0 256 ⟨-7, 0, 3, 0⟩ ⟨100, -1, 5, 0⟩ 0) ⟨-7, 0, 3, 0⟩ = true ∧
      Vec3.eq .scalar (Vec3.LerpInt 0 256 ⟨-7, 0, 3, 0⟩ ⟨100, -1, 5, 0⟩ 256)
        ⟨100, -1, 5, 0⟩ = true) :=
  ⟨LerpInt_endpoints.2.1 256 (-7) 100 (by decide) (by decide) (by decide),
   LerpInt_endpoints.2.2.2.2.1 256 0 ⟨-7, 0, 3, 0⟩ ⟨100, -1, 5, 0⟩ (by decide) (by decide)
     (by decide)⟩

theorem U8.mul_16_16 : ((16 : U8) * (16 : U8) : I32) + ((0 : U8) * (0 : U8) : I32) = 256 := by
  decide

theorem U8.length2_16_0 : Vec2.Length2H (⟨16, 0⟩ : Vec2 U8) = 0 := by decide

theorem F32.mul_4096 : (4096 : F32) * 4096 = 16777216 := by decide
theorem F32.add_2p24_0 : (16777216 : F32) + 0 = 16777216 := by decide
theorem F32.add_2p24_1 : (16777216 : F32) + 1 = 16777216 := by decide
theorem F32.add_2p24_2 : (16777216 : F32) + 2 = 16777218 := by decide
theorem F32.ne_2p24 : (16777216 : F32) ≠ 16777218 := by decide

theorem U8.toInt_val (a : U8) : (a.toInt).val = a.val := by
  have h := IntN.ofInt_val (w := 32) (a.val : Int)
  have hlt : ((a.val : Nat) : Int) < 2 ^ 32 := by
    have := a.isLt
    omega
  rw [Int.emod_eq_of_lt (Int.ofNat_nonneg _) hlt] at h
  exact_mod_cast h
theorem IntN.add_val {w : Nat} (a b : IntN w) : (a + b).val = (a.val + b.val) % 2 ^ w :=
  Fin.val_add a b

theorem U8.sq_val (a : U8) : (a * a : I32).val = a.val * a.val := by
  show (a.toInt * a.toInt).val = _
  rw [IntN.mul_val, U8.toInt_val]
  have h := a.isLt
  have h2 : a.val * a.val < 2 ^ 8 * 2 ^ 8 := Nat.mul_lt_mul'' h h
  exact Nat.mod_eq_of_lt (by omega)

theorem U8.sq_lt (a : U8) : a.val * a.val < 65536 := by
  have h := a.isLt
  have h2 : a.val * a.val < 2 ^ 8 * 2 ^ 8 := Nat.mul_lt_mul'' h h
  omega

theorem U8.conv_val (i : I32) : (Convert.conv i : U8).val = i.val % 2 ^ 8 := rfl

/-- C18 (counterexample): `Vec2<u8>{16, 0}.Length2()` is `0`, while the sum of the
squares in the multiplication result type `int` is `256`; and for
`Vec4<float>{4096, 0, 1, 1}` the SSE2, SSE4.1 and NEON paths return `16777218`, while
`x*x + y*y + z*z + w*w` evaluated in `float`, which the scalar path returns, is
`16777216`. -/
theorem Length2_not_exact :
    Vec2.Length2H (⟨16, 0⟩ : Vec2 U8) = 0 ∧
    ((16 : U8) * (16 : U8) : I32) + ((0 : U8) * (0 : U8) : I32) = 256 ∧
    Vec4.Length2 .scalar (⟨4096, 0, 1, 1⟩ : Vec4 F32) = 16777216 ∧
    Vec4.Length2 .sse2 (⟨4096, 0, 1, 1⟩ : Vec4 F32) = 16777218 ∧
    Vec4.Length2 .sse41 (⟨4096, 0, 1, 1⟩ : Vec4 F32) = 16777218 ∧
    Vec4.Length2 .neon (⟨4096, 0, 1, 1⟩ : Vec4 F32) = 16777218 ∧
    (16777216 : F32) ≠ 16777218 := by
  refine ⟨U8.length2_16_0, U8.mul_16_16, ?_, ?_, ?_, ?_, F32.ne_2p24⟩
  · rw [Vec4.Length2q_scalar]
    simp only [F32.mul_4096, F32.mul_0_0, F32.mul_1_1, F32.add_2p24_0, F32.add_2p24_1]
  · rw [Vec4.Length2q_sse2]
    simp only [F32.mul_4096, F32.mul_0_0, F32.mul_1_1, F32.add_2p24_0, F32.add_1_1,
      F32.add_2p24_2]
  · rw [Vec4.Length2q_sse41]
    simp only [F32.mul_4096, F32.mul_0_0, F32.mul_1_1, F32.add_2p24_0, F32.add_1_1,
      F32.add_2p24_2]
  · rw [Vec4.Length2q_neon]
    simp only [F32.mul_4096, F32.mul_0_0, F32.mul_1_1, F32.add_2p24_0, F32.add_1_1,
      F32.add_2p24_2]

/-- C18 (amended): `Length2()` is the sum of the squares of the meaningful components,
formed in the multiplication result type of `T` and converted to the return type `T`.
When the product type is `T` itself (`int`, `unsigned`, `float`) it is
`x*x + y*y [+ z*z [+ w*w]]` for `Vec2`, for `Vec3` on the scalar, SSE2 and SSE4.1
paths whatever the padding, and for `Vec4` on the scalar path, while the vectorized
paths of `Vec4` add the squares pairwise, `(x*x + y*y) + (z*z + w*w)`.  For the narrow
type `u8` the `int` sum is reduced modulo `2^8`. -/
theorem Length2_value :
    (∀ (α : Type) [Mul α] [Add α] (v : Vec2 α),
      Vec2.Length2 v = v.x * v.x + v.y * v.y ∧ Vec2.Length2H v = Vec2.Length2 v) ∧
    (∀ (α : Type) [Mul α] [Add α] (v : Vec3 α),
      Vec3.Length2 .scalar v = v.x * v.x + v.y * v.y + v.z * v.z ∧
      Vec3.Length2 .sse2 v = v.x * v.x + v.y * v.y + v.z * v.z ∧
      Vec3.Length2 .sse41 v = v.x * v.x + v.y * v.y + v.z * v.z ∧
      Vec3.Length2H v = Vec3.Length2 .scalar v) ∧
    (∀ (α : Type) [Mul α] [Add α] (v : Vec4 α),
      Vec4.Length2 .scalar v = v.x * v.x + v.y * v.y + v.z * v.z + v.w * v.w ∧
      Vec4.Length2 .sse2 v = (v.x * v.x + v.y * v.y) + (v.z * v.z + v.w * v.w) ∧
      Vec4.Length2 .sse41 v = (v.x * v.x + v.y * v.y) + (v.z * v.z + v.w * v.w) ∧
      Vec4.Length2 .neon v = (v.x * v.x + v.y * v.y) + (v.z * v.z + v.w * v.w) ∧
      Vec4.Length2H v = Vec4.Length2 .scalar v) ∧
    (∀ (v : Vec2 U8),
      (Vec2.Length2H v).val = (v.x.val * v.x.val + v.y.val * v.y.val) % 2 ^ 8) ∧
    (∀ (v : Vec3 U8),
      (Vec3.Length2H v).val =
        (v.x.val * v.x.val + v.y.val * v.y.val + v.z.val * v.z.val) % 2 ^ 8) ∧
    (∀ (v : Vec4 U8),
      (Vec4.Length2H v).val =
        (v.x.val * v.x.val + v.y.val * v.y.val + v.z.val * v.z.val + v.w.val * v.w.val)
          % 2 ^ 8) := by
  refine ⟨fun _ _ _ _ => ⟨rfl, rfl⟩, fun _ _ _ _ => ⟨rfl, rfl, rfl, rfl⟩,
    fun _ _ _ _ => ⟨rfl, rfl, rfl, rfl, rfl⟩, ?_, ?_, ?_⟩
  · intro v
    have hx := U8.sq_lt v.x
    have hy := U8.sq_lt v.y
    unfold Vec2.Length2H
    rw [U8.conv_val, IntN.add_val, U8.sq_val, U8.sq_val]
    have e : (v.x.val * v.x.val + v.y.val * v.y.val) % 2 ^ 32 =
        v.x.val * v.x.val + v.y.val * v.y.val := Nat.mod_eq_of_lt (by omega)
    rw [e]
  · intro v
    have hx := U8.sq_lt v.x
    have hy := U8.sq_lt v.y
    have hz := U8.sq_lt v.z
    unfold Vec3.Length2H
    have e1 : (v.x.val * v.x.val + v.y.val * v.y.val) % 2 ^ 32 =
        v.x.val * v.x.val + v.y.val * v.y.val := Nat.mod_eq_of_lt (by omega)
    have e2 : (v.x.val * v.x.val + v.y.val * v.y.val + v.z.val * v.z.val) % 2 ^ 32 =
        v.x.val * v.x.val + v.y.val * v.y.val + v.z.val * v.z.val := Nat.mod_eq_of_lt (by omega)
    rw [U8.conv_val, IntN.add_val, IntN.add_val, U8.sq_val, U8.sq_val, U8.sq_val, e1, e2]
  · intro v
    have hx := U8.sq_lt v.x
    have hy := U8.sq_lt v.y
    have hz := U8.sq_lt v.z
    have hw := U8.sq_lt v.w
    unfold Vec4.Length2H
    have e1 : (v.x.val * v.x.val + v.y.val * v.y.val) % 2 ^ 32 =
        v.x.val * v.x.val + v.y.val * v.y.val := Nat.mod_eq_of_lt (by omega)
    have e2 : (v.x.val * v.x.val + v.y.val * v.y.val + v.z.val * v.z.val) % 2 ^ 32 =
        v.x.val * v.x.val + v.y.val * v.y.val + v.z.val * v.z.val := Nat.mod_eq_of_lt (by omega)
    have e3 : (v.x.val * v.x.val + v.y.val * v.y.val + v.z.val * v.z.val + v.w.val * v.w.val)
        % 2 ^ 32 =
        v.x.val * v.x.val + v.y.val * v.y.val + v.z.val * v.z.val + v.w.val * v.w.val :=
      Nat.mod_eq_of_lt (by omega)
    rw [U8.conv_val, IntN.add_val, IntN.add_val, IntN.add_val, U8.sq_val, U8.sq_val, U8.sq_val,
      U8.sq_val, e1, e2, e3]

theorem Vec3.divAssign_neon (v : Vec3 F32) (f : F32) :
    Vec3.divAssign .neon v f =
      ⟨v.x * Vec3.neonRecip f, v.y * Vec3.neonRecip f, v.z * Vec3.neonRecip f,
       v.pad * Vec3.neonRecip f⟩ := rfl

theorem F32.div_3_3 : (3 : F32) / 3 = 1 := by decide
theorem F32.recpe_3 : F32.FPRecipEstimate 3 = F32.ofBits 0x3EAA8000 := by decide
theorem F32.recps_3 : F32.FPRecipStepFused 3 (F32.ofBits 0x3EAA8000) = F32.ofBits 0x3F802000 := by
  decide
theorem F32.neonRecip_3 : Vec3.neonRecip 3 = F32.ofBits 0x3EAAAAA0 := by
  unfold Vec3.neonRecip
  rw [F32.recpe_3, F32.recps_3]
  decide
theorem F32.mul_3_recip : (3 : F32) * F32.ofBits 0x3EAAAAA0 = F32.ofBits 0x3F7FFFF0 := by decide
theorem F32.bits_ne_one : F32.ofBits 0x3F7FFFF0 ≠ 1 := by decide
namespace F32

end F32
namespace F32

end F32
theorem rho_pos : (0 : ℝ) < 1 - 1 / 2 ^ 24 := by norm_num

theorem rho_le_one : (1 - 1 / 2 ^ 24 : ℝ) ≤ 1 := by norm_num

theorem rho_pow_pos (k : Nat) : (0 : ℝ) < (1 - 1 / 2 ^ 24) ^ k := pow_pos rho_pos k

theorem rho_pow_le_one (k : Nat) : (1 - 1 / 2 ^ 24 : ℝ) ^ k ≤ 1 :=
  pow_le_one₀ (le_of_lt rho_pos) rho_le_one

namespace Near

theorem flip {k : Nat} {a b : ℝ} (h : Near k a b) : Near k b a := ⟨h.2, h.1⟩

theorem sum {k : Nat} {a b c d : ℝ} (h1 : Near k a b) (h2 : Near k c d) :
    Near k (a + c) (b + d) := by
  constructor
  · rw [add_mul]; exact add_le_add h1.1 h2.1
  · rw [add_mul]; exact add_le_add h1.2 h2.2

theorem recip {k : Nat} {c d : ℝ} (h : Near k c d) (hc : 0 < c) (hd : 0 < d) :
    Near k (1 / c) (1 / d) := by
  have pk := rho_pow_pos k
  constructor
  · rw [div_mul_eq_mul_div, one_mul, div_le_div_iff₀ hd hc]
    linarith [h.2]
  · rw [div_mul_eq_mul_div, one_mul, div_le_div_iff₀ hc hd]
    linarith [h.1]

end Near
namespace Err

theorem zero_sign (s : Bool) : (F32.zero s).sign = s := rfl

end Err
namespace Err

end Err
namespace Err

end Err
namespace Err

end Err
namespace Err

end Err
namespace Err

end Err
namespace Err

end Err
namespace Err

end Err
namespace Err

end Err
namespace Err

end Err

theorem F32.mul_2_1 : (2 : F32) * 1 = 2 := by decide
theorem F32.mul_3_0 : (3 : F32) * 0 = 0 := by decide
theorem F32.mul_2_0 : (2 : F32) * 0 = 0 := by decide
theorem F32.mul_3_1 : (3 : F32) * 1 = 3 := by decide
theorem F32.add_2_0 : (2 : F32) + 0 = 2 := by decide
theorem F32.add_0_2 : (0 : F32) + 2 = 2 := by decide
theorem F32.add_0_1 : (0 : F32) + 1 = 1 := by decide
theorem F32.add_0_3 : (0 : F32) + 3 = 3 := by decide
theorem F32.sub_1_1 : (1 : F32) - 1 = 0 := by decide

theorem BilinearInterp_scalar (x00 x01 x10 x11 s t : F32) :
    (BilinearInterp x00 x01 x10 x11 s t : F32) =
      (x00 * (1 - s) + x01 * s) * (1 - t) + (x10 * (1 - s) + x11 * s) * t := rfl

/-- C21: `BilinearInterp(x00, x01, x10, x11, s, t)` is
`Lerp(Lerp(x00, x01, s), Lerp(x10, x11, s), t)`, for every operand type with the
operators `Lerp` needs (the inner results have the result type of `Lerp<X>`, on which
the outer `Lerp` is instantiated), so it is
`(x00*(1-s) + x01*s)*(1-t) + (x10*(1-s) + x11*s)*t`; likewise for the instances on
`Vec2<float>`, and on `Vec3<float>` and `Vec4<float>` on every path.  With corners
`0, 1, 2, 3` the weights `(s, t) = (0, 1)` select `x10 = 2` and `(1, 0)` select
`x01 = 1`: `s` runs inside the pairs `(x00, x01)`, `(x10, x11)` and `t` between them. -/
theorem BilinearInterp_is_Lerp_of_Lerps :
    (∀ (χ ρ σ : Type) [HMul χ F32 ρ] [Add ρ] [HMul ρ F32 σ] [Add σ] (x00 x01 x10 x11 : χ)
        (s t : F32),
      (BilinearInterp x00 x01 x10 x11 s t : σ) =
        Lerp (Lerp x00 x01 s : ρ) (Lerp x10 x11 s : ρ) t ∧
      (BilinearInterp x00 x01 x10 x11 s t : σ) =
        (x00 * ((1 : F32) - s) + x01 * s : ρ) * ((1 : F32) - t) +
          (x10 * ((1 : F32) - s) + x11 * s : ρ) * t) ∧
    (∀ (x00 x01 x10 x11 : Vec2 F32) (s t : F32),
      Vec2.BilinearInterp x00 x01 x10 x11 s t =
        Vec2.Lerp (Vec2.Lerp x00 x01 s) (Vec2.Lerp x10 x11 s) t) ∧
    (∀ (p : Path) (u : F32) (x00 x01 x10 x11 : Vec3 F32) (s t : F32),
      Vec3.BilinearInterp p u x00 x01 x10 x11 s t =
        Vec3.Lerp p u (Vec3.Lerp p u x00 x01 s) (Vec3.Lerp p u x10 x11 s) t) ∧
    (∀ (p : Path) (x00 x01 x10 x11 : Vec4 F32) (s t : F32),
      Vec4.BilinearInterp p x00 x01 x10 x11 s t =
        Vec4.Lerp p (Vec4.Lerp p x00 x01 s) (Vec4.Lerp p x10 x11 s) t) ∧
    (BilinearInterp (0 : F32) 1 2 3 0 1 : F32) = 2 ∧
    (BilinearInterp (0 : F32) 1 2 3 1 0 : F32) = 1 := by
  refine ⟨fun _ _ _ _ _ _ _ _ _ _ _ _ _ => ⟨rfl, rfl⟩, fun _ _ _ _ _ _ => rfl,
    fun _ _ _ _ _ _ _ _ => rfl, fun _ _ _ _ _ _ _ => rfl, ?_, ?_⟩
  · rw [BilinearInterp_scalar]
    simp only [F32.sub_1_0, F32.sub_1_1, F32.mul_0_1, F32.mul_1_0, F32.add_0_0, F32.mul_2_1,
      F32.mul_3_0, F32.add_2_0, F32.mul_0_0, F32.add_0_2]
  · rw [BilinearInterp_scalar]
    simp only [F32.sub_1_0, F32.sub_1_1, F32.mul_0_0, F32.mul_1_1, F32.add_0_1, F32.mul_2_0,
      F32.mul_3_1, F32.add_0_3, F32.mul_3_0, F32.add_1_0]

/-- C22: for `Vec2`, `Vec3` and `Vec4` of every scalar type, on every path and for all
`a`, `b`, the result of `a != b` is the negation of the result of `a == b`: `Vec2`
tests the same `memcmp` result against zero both ways, `Vec3` and `Vec4` return
`!(*this == other)`. -/
theorem ne_is_not_eq :
    (∀ (α : Type) [ObjRep α] (a b : Vec2 α), Vec2.ne a b = !Vec2.eq a b) ∧
    (∀ (α : Type) [BEq α] (p : Path) (a b : Vec3 α), Vec3.ne p a b = !Vec3.eq p a b) ∧
    (∀ (α : Type) [BEq α] (p : Path) (a b : Vec4 α), Vec4.ne p a b = !Vec4.eq p a b) :=
  ⟨fun _ _ _ _ => rfl, fun _ _ _ _ _ => rfl, fun _ _ _ _ _ => rfl⟩

/-- C23: a vector constructed from the scalars `c0, c1 [, c2 [, c3]]` returns `c_i`
under `operator[](i)` for every `i` below its arity, for `Vec2`, for `Vec3` whatever
the padding, and for `Vec4` on the scalar constructor path and on the vectorized ones
(`_mm_set_ps(w_, z_, y_, x_)`, `{x_, y_, z_, w_}`); and for any vector `operator[](i)`
is the `i`-th declared field, `x, y, z, w` in that order. -/
theorem index_is_field_and_ctor_order :
    (∀ (α : Type) (c0 c1 : α),
      (Vec2.mk c0 c1).index 0 = c0 ∧ (Vec2.mk c0 c1).index 1 = c1) ∧
    (∀ (α : Type) (c0 c1 c2 u : α),
      (Vec3.ctor c0 c1 c2 u).index 0 = c0 ∧ (Vec3.ctor c0 c1 c2 u).index 1 = c1 ∧
      (Vec3.ctor c0 c1 c2 u).index 2 = c2) ∧
    (∀ (α : Type) (p : Path) (c0 c1 c2 c3 : α),
      (Vec4.ctor p c0 c1 c2 c3).index 0 = c0 ∧ (Vec4.ctor p c0 c1 c2 c3).index 1 = c1 ∧
      (Vec4.ctor p c0 c1 c2 c3).index 2 = c2 ∧ (Vec4.ctor p c0 c1 c2 c3).index 3 = c3) ∧
    (∀ (α : Type) (v : Vec2 α), v.index 0 = v.x ∧ v.index 1 = v.y) ∧
    (∀ (α : Type) (v : Vec3 α), v.index 0 = v.x ∧ v.index 1 = v.y ∧ v.index 2 = v.z) ∧
    (∀ (α : Type) (v : Vec4 α),
      v.index 0 = v.x ∧ v.index 1 = v.y ∧ v.index 2 = v.z ∧ v.index 3 = v.w) := by
  refine ⟨fun _ _ _ => ⟨rfl, rfl⟩, fun _ _ _ _ _ => ⟨rfl, rfl, rfl⟩, ?_,
    fun _ _ => ⟨rfl, rfl⟩, fun _ _ => ⟨rfl, rfl, rfl⟩, fun _ _ => ⟨rfl, rfl, rfl, rfl⟩⟩
  intro α p c0 c1 c2 c3
  rw [Vec4.ctor_eq]
  exact ⟨rfl, rfl, rfl, rfl⟩

/-! ## compound assignment -/

theorem Vec3.addAssign_components {α : Type} [Add α] (p : Path) (a : Vec3 α)
    (r : VecRef (Vec3 α)) (u : α) :
    (Vec3.addAssign p a r).components = (Vec3.add p a (r.deref a) u).components := by
  cases p <;> cases r <;> rfl

theorem Vec3.subAssign_components {α : Type} [Sub α] (p : Path) (a : Vec3 α)
    (r : VecRef (Vec3 α)) (u : α) :
    (Vec3.subAssign p a r).components = (Vec3.sub p a (r.deref a) u).components := by
  cases p <;> cases r <;> rfl

theorem Vec3.mulAssign_object {α : Type} [Mul α] (p : Path) (a : Vec3 α) (f u : α) :
    (Vec3.mulAssign p a (.object f)).components = (Vec3.mulScalar p a f u).components := by
  cases p <;> rfl

theorem Vec3.divAssignRef_object (p : Path) (a : Vec3 F32) (f u : F32) :
    (Vec3.divAssignRef p a (.object f)).components = (Vec3.divScalar p a f u).components ∧
    Vec3.divAssignRef p a (.object f) = Vec3.divAssign p a f := by
  cases p <;> exact ⟨rfl, rfl⟩

theorem Vec4.addAssign_eq {α : Type} [Add α] (p : Path) (a : Vec4 α) (r : VecRef (Vec4 α)) :
    Vec4.addAssign a r = Vec4.add p a (r.deref a) := by
  cases p <;> cases r <;> rfl

theorem Vec4.subAssign_eq {α : Type} [Sub α] (p : Path) (a : Vec4 α) (r : VecRef (Vec4 α)) :
    Vec4.subAssign p a r = Vec4.sub p a (r.deref a) := by
  cases p <;> cases r <;> rfl

theorem Vec4.mulAssign_object4 {α : Type} [Mul α] (p : Path) (a : Vec4 α) (f : α) :
    Vec4.mulAssign p a (.object f) = Vec4.mulScalar p a f := by
  cases p <;> rfl

theorem Vec4.divAssignRef_object4 (p : Path) (a : Vec4 F32) (f : F32) :
    Vec4.divAssignRef p a (.object f) = Vec4.divScalar p a f := by
  cases p <;> rfl

theorem F32.mul_4_4 : (4 : F32) * 4 = 16 := by decide
theorem F32.mul_0_2 : (0 : F32) * 2 = 0 := by decide
theorem F32.mul_3_2 : (3 : F32) * 2 = 6 := by decide

theorem Vec3.mulAssign_scalar_x {α : Type} [Mul α] (x y z w : α) :
    Vec3.mulAssign .scalar ⟨x, y, z, w⟩ (.component 0) = ⟨x * x, y * (x * x), z * (x * x), w⟩ :=
  rfl

theorem Vec3.mulAssign_sse2_x {α : Type} [Mul α] (x y z w : α) :
    Vec3.mulAssign .sse2 ⟨x, y, z, w⟩ (.component 0) = ⟨x * x, y * x, z * x, w * x⟩ := rfl

/-- C24 (defect in the code): a compound assignment gives the receiver the value of the
non-assignment operator whenever the right operand is an object apart from the receiver,
and for `+=`, `-=` also when it is the receiver itself: for `Vec2`; for the meaningful
components of `Vec3` on every path, whatever the padding; for `Vec4` on every path, where
`+=` adds per component and `+` may add the registers.  But `operator*=` and `operator/=`
take their operand by reference (`const V& f`), and the scalar branches of `Vec3` and
`Vec4` are `x *= f; y *= f; ...`: when `f` is a component of the receiver, the later
statements read the component already overwritten.  `Vec3<int>{2, 3, 4} *= v.x` leaves
`(4, 12, 16)` while `v * v.x` is `(4, 6, 8)`, and `Vec4<int>{2, 4, 6, 8} /= v.x` leaves
`(1, 4, 6, 8)` while `v / v.x` is `(1, 2, 3, 4)`.  `Vec2` (`*this = *this * f`) and the
vectorized branches (which broadcast `f` before they store) give `(4, 6)` and
`(4, 6, 8)` on the same operands. -/
theorem compound_assign_rereads_operand :
    (∀ (α : Type) [Add α] [Sub α] [Mul α] [Div α] (a : Vec2 α) (r : VecRef (Vec2 α))
        (f : ScalarRef α 2),
      Vec2.addAssign a r = Vec2.add a (r.deref a) ∧
      Vec2.subAssign a r = Vec2.sub a (r.deref a) ∧
      Vec2.mulAssign a f = Vec2.mulScalar a (a.deref f) ∧
      Vec2.divAssignRef a f = Vec2.divScalar a (a.deref f)) ∧
    (∀ (α : Type) [Add α] [Sub α] [Mul α] [Div α] (p : Path) (a : Vec3 α)
        (r : VecRef (Vec3 α)) (f u : α),
      (Vec3.addAssign p a r).components = (Vec3.add p a (r.deref a) u).components ∧
      (Vec3.subAssign p a r).components = (Vec3.sub p a (r.deref a) u).components ∧
      (Vec3.mulAssign p a (.object f)).components = (Vec3.mulScalar p a f u).components ∧
      (Vec3.divAssignH a (.object f)).components = (Vec3.divScalarH a f u).components) ∧
    (∀ (p : Path) (a : Vec3 F32) (f u : F32),
      (Vec3.divAssignRef p a (.object f)).components = (Vec3.divScalar p a f u).components) ∧
    (∀ (α : Type) [Add α] [Sub α] [Mul α] [Div α] (p : Path) (a : Vec4 α)
        (r : VecRef (Vec4 α)) (f : α),
      Vec4.addAssign a r = Vec4.add p a (r.deref a) ∧
      Vec4.subAssign p a r = Vec4.sub p a (r.deref a) ∧
      Vec4.mulAssign p a (.object f) = Vec4.mulScalar p a f ∧
      Vec4.divAssignH a (.object f) = Vec4.divScalarH p a f) ∧
    (∀ (p : Path) (a : Vec4 F32) (f : F32),
      Vec4.divAssignRef p a (.object f) = Vec4.divScalar p a f) ∧
    Vec3.mulAssign .scalar (⟨2, 3, 4, 0⟩ : Vec3 I32) (.component 0) = ⟨4, 12, 16, 0⟩ ∧
    Vec3.mulScalar .scalar (⟨2, 3, 4, 0⟩ : Vec3 I32) 2 0 = ⟨4, 6, 8, 0⟩ ∧
    Vec4.divAssignH (⟨2, 4, 6, 8⟩ : Vec4 I32) (.component 0) = ⟨1, 4, 6, 8⟩ ∧
    Vec4.divScalarH .scalar (⟨2, 4, 6, 8⟩ : Vec4 I32) (2 : I32) = ⟨1, 2, 3, 4⟩ ∧
    Vec3.mulAssign .scalar (⟨2, 3, 4, 0⟩ : Vec3 F32) (.component 0) = ⟨4, 12, 16, 0⟩ ∧
    Vec3.mulAssign .sse2 (⟨2, 3, 4, 0⟩ : Vec3 F32) (.component 0) = ⟨4, 6, 8, 0⟩ ∧
    Vec3.mulAssign .neon (⟨2, 3, 4, 0⟩ : Vec3 F32) (.component 0) = ⟨4, 6, 8, 0⟩ ∧
    Vec2.mulAssign (⟨2, 3⟩ : Vec2 I32) (.component 0) = ⟨4, 6⟩ := by
  refine ⟨?_, ?_, fun p a f u => (Vec3.divAssignRef_object p a f u).1, ?_,
    fun p a f => Vec4.divAssignRef_object4 p a f, ?_, ?_, ?_, ?_, ?_, ?_, ?_, ?_⟩
  · intro α _ _ _ _ a r f
    refine ⟨?_, ?_, rfl, rfl⟩ <;> cases r <;> rfl
  · intro α _ _ _ _ p a r f u
    exact ⟨Vec3.addAssign_components p a r u, Vec3.subAssign_components p a r u,
      Vec3.mulAssign_object p a f u, rfl⟩
  · intro α _ _ _ _ p a r f
    refine ⟨Vec4.addAssign_eq p a r, Vec4.subAssign_eq p a r, Vec4.mulAssign_object4 p a f, ?_⟩
    unfold Vec4.divScalarH
    rw [Vec4.ctor_eq]
    rfl
  · decide
  · decide
  · decide
  · decide
  · rw [Vec3.mulAssign_scalar_x]
    simp only [F32.mul_2_2, F32.mul_3_4, F32.mul_4_4]
  · rw [Vec3.mulAssign_sse2_x]
    simp only [F32.mul_2_2, F32.mul_3_2, F32.mul_4_2, F32.mul_0_2]
  · show Vec3.mulAssign .sse2 (⟨2, 3, 4, 0⟩ : Vec3 F32) (.component 0) = ⟨4, 6, 8, 0⟩
    rw [Vec3.mulAssign_sse2_x]
    simp only [F32.mul_2_2, F32.mul_3_2, F32.mul_4_2, F32.mul_0_2]
  · decide

/-! ## SetZero and the generated swizzles -/

/-- C25: `SetZero()` makes `x, y [, z [, w]]` zero; the `pad` of a `Vec3` keeps its
value; and the result compares equal, under the `operator==` of the type, to
`AssignToAll(0)`: for `Vec2` of every scalar type (the two have the same bytes), and for
`Vec3` and `Vec4` of `float` on every path and of the integer types, whatever the
padding of either side. -/
theorem SetZero_zeroes_components :
    (∀ (α : Type) [Zero α] (v : Vec2 α), v.SetZero.x = 0 ∧ v.SetZero.y = 0) ∧
    (∀ (α : Type) [Zero α] (v : Vec3 α),
      v.SetZero.x = 0 ∧ v.SetZero.y = 0 ∧ v.SetZero.z = 0 ∧ v.SetZero.pad = v.pad) ∧
    (∀ (α : Type) [Zero α] (v : Vec4 α),
      v.SetZero.x = 0 ∧ v.SetZero.y = 0 ∧ v.SetZero.z = 0 ∧ v.SetZero.w = 0) ∧
    (∀ (α : Type) [Zero α] [ObjRep α] (v : Vec2 α),
      Vec2.eq v.SetZero (Vec2.AssignToAll 0) = true) ∧
    (∀ (p : Path) (v : Vec3 F32) (u : F32),
      Vec3.eq p v.SetZero (Vec3.AssignToAll p 0 u) = true) ∧
    (∀ (p : Path) (v : Vec4 F32), Vec4.eq p v.SetZero (Vec4.AssignToAll p 0) = true) ∧
    (∀ (w : Nat) (v : Vec3 (IntN w)) (u : IntN w),
      Vec3.eq .scalar v.SetZero (Vec3.AssignToAll .scalar 0 u) = true) ∧
    (∀ (w : Nat) (v : Vec4 (IntN w)),
      Vec4.eq .scalar v.SetZero (Vec4.AssignToAll .scalar 0) = true) := by
  refine ⟨fun _ _ _ => ⟨rfl, rfl⟩, fun _ _ _ => ⟨rfl, rfl, rfl, rfl⟩,
    fun _ _ _ => ⟨rfl, rfl, rfl, rfl⟩, fun _ _ _ _ => Vec2.eq_of_eq _ _ rfl, ?_, ?_, ?_, ?_⟩
  · intro p v u
    rw [Vec3.eq_eq_and3]
    have hx : (Vec3.AssignToAll p (0 : F32) u).x = 0 := by cases p <;> rfl
    have hy : (Vec3.AssignToAll p (0 : F32) u).y = 0 := by cases p <;> rfl
    have hz : (Vec3.AssignToAll p (0 : F32) u).z = 0 := by cases p <;> rfl
    rw [hx, hy, hz]
    show ((0 : F32) == 0 && (0 : F32) == 0 && (0 : F32) == 0) = true
    rw [F32.zero_beq]
    rfl
  · intro p v
    rw [Vec4.eq_eq_and4]
    unfold Vec4.AssignToAll
    rw [Vec4.ctor_eq]
    show ((0 : F32) == 0 && (0 : F32) == 0 && (0 : F32) == 0 && (0 : F32) == 0) = true
    rw [F32.zero_beq]
    rfl
  · intro w v u
    show ((0 : IntN w) == 0 && (0 : IntN w) == 0 && (0 : IntN w) == 0) = true
    simp
  · intro w v
    show ((0 : IntN w) == 0 && (0 : IntN w) == 0 && (0 : IntN w) == 0 && (0 : IntN w) == 0) = true
    simp

theorem Vec3.swizzle2_named {α : Type} (v : Vec3 α) : ∀ sw ∈ Vec3.swizzlers, ∃ c0 c1,
    sw.name.data.map (fun c => v.accessor (String.singleton c)) = [some c0, some c1] ∧
    v.swizzle2 sw.name = some ⟨c0, c1⟩ ∧ v.swizzle2 (String.join sw.args) = some ⟨c0, c1⟩ := by
  intro sw h
  simp only [Vec3.swizzlers, Vec3.DEFINE_SWIZZLER2, _DEFINE_SWIZZLER2, List.cons_append,
    List.nil_append] at h
  fin_cases h <;> exact ⟨_, _, rfl, rfl, rfl⟩

theorem Vec4.swizzle2_named4 {α : Type} (v : Vec4 α) : ∀ sw ∈ Vec4.swizzlers2, ∃ c0 c1,
    sw.name.data.map (fun c => v.accessor (String.singleton c)) = [some c0, some c1] ∧
    v.swizzle2 sw.name = some ⟨c0, c1⟩ ∧ v.swizzle2 (String.join sw.args) = some ⟨c0, c1⟩ := by
  intro sw h
  simp only [Vec4.swizzlers2, Vec4.DEFINE_SWIZZLER2_COMP2, Vec4.DEFINE_SWIZZLER2_COMP1,
    _DEFINE_SWIZZLER2, List.cons_append, List.nil_append] at h
  fin_cases h <;> exact ⟨_, _, rfl, rfl, rfl⟩

theorem Vec4.swizzle3_named {α : Type} (v : Vec4 α) (u : α) : ∀ sw ∈ Vec4.swizzlers3,
    ∃ c0 c1 c2,
      sw.name.data.map (fun c => v.accessor (String.singleton c)) =
        [some c0, some c1, some c2] ∧
      v.swizzle3 sw.name u = some ⟨c0, c1, c2, u⟩ ∧
      v.swizzle3 (String.join sw.args) u = some ⟨c0, c1, c2, u⟩ := by
  intro sw h
  simp only [Vec4.swizzlers3, Vec4.DEFINE_SWIZZLER3_COMP3, Vec4.DEFINE_SWIZZLER3_COMP1,
    _DEFINE_SWIZZLER3, List.cons_append, List.nil_append] at h
  fin_cases h <;> exact ⟨_, _, _, rfl, rfl, rfl⟩

theorem Vec3.swizzlers_complete :
    Vec3.swizzlers.length = 24 ∧ (Vec3.swizzlers.map Swizzler.name).Nodup ∧
    ∀ voc ∈ [["x", "y", "z"], ["r", "g", "b"], ["u", "v", "w"], ["s", "t", "q"]],
      ∀ a ∈ voc, ∀ b ∈ voc, a ≠ b → a ++ b ∈ Vec3.swizzlers.map Swizzler.name := by
  decide

theorem Vec4.swizzlers2_complete :
    Vec4.swizzlers2.length = 32 ∧ (Vec4.swizzlers2.map Swizzler.name).Nodup ∧
    ∀ voc ∈ [["x", "y", "z", "w"], ["r", "g", "b", "a"]],
      ∀ a ∈ voc, ∀ b ∈ voc, a ++ b ∈ Vec4.swizzlers2.map Swizzler.name := by
  decide

theorem Vec4.swizzlers3_complete :
    Vec4.swizzlers3.length = 56 ∧ (Vec4.swizzlers3.map Swizzler.name).Nodup ∧
    ∀ voc ∈ [["x", "y", "z", "w"], ["r", "g", "b", "a"]],
      ∀ a ∈ voc, ∀ b ∈ voc, ∀ c ∈ voc,
        (a ≠ b ∧ a ≠ c ∧ b ≠ c) ∨ (a = b ∧ b = c) →
          a ++ b ++ c ∈ Vec4.swizzlers3.map Swizzler.name := by
  decide

/-- C26: every member generated by the swizzle macros returns the components its name
spells, in that order.  For each generated member, reading its name letter by letter
through the one-letter accessors of the class gives components `c0, c1 [, c2]`, the call
returns the `Vec2` (for a three-letter name the `Vec3`, whatever its padding) of just
these, and so does the member named by the data members at the same positions (`bgr`
and `zyx`, `gr` and `yx`, `vu` and `yx`).  The generated members are, without
repetition: for `Vec3` the 24 two-letter names over two distinct letters of `xyz`,
`rgb`, `uvw` or `stq`; for `Vec4` the 32 two-letter names over `xyzw` or `rgba`, the
repeated forms included, and the 56 three-letter names over `xyzw` or `rgba` whose
letters are pairwise distinct or all the same. -/
theorem swizzle_returns_named_components :
    (∀ (α : Type) (v : Vec3 α), ∀ sw ∈ Vec3.swizzlers, ∃ c0 c1,
      sw.name.data.map (fun c => v.accessor (String.singleton c)) = [some c0, some c1] ∧
      v.swizzle2 sw.name = some ⟨c0, c1⟩ ∧
      v.swizzle2 (String.join sw.args) = some ⟨c0, c1⟩) ∧
    (∀ (α : Type) (v : Vec4 α), ∀ sw ∈ Vec4.swizzlers2, ∃ c0 c1,
      sw.name.data.map (fun c => v.accessor (String.singleton c)) = [some c0, some c1] ∧
      v.swizzle2 sw.name = some ⟨c0, c1⟩ ∧
      v.swizzle2 (String.join sw.args) = some ⟨c0, c1⟩) ∧
    (∀ (α : Type) (v : Vec4 α) (u : α), ∀ sw ∈ Vec4.swizzlers3, ∃ c0 c1 c2,
      sw.name.data.map (fun c => v.accessor (String.singleton c)) =
        [some c0, some c1, some c2] ∧
      v.swizzle3 sw.name u = some ⟨c0, c1, c2, u⟩ ∧
      v.swizzle3 (String.join sw.args) u = some ⟨c0, c1, c2, u⟩) ∧
    (Vec3.swizzlers.length = 24 ∧ (Vec3.swizzlers.map Swizzler.name).Nodup ∧
      ∀ voc ∈ [["x", "y", "z"], ["r", "g", "b"], ["u", "v", "w"], ["s", "t", "q"]],
        ∀ a ∈ voc, ∀ b ∈ voc, a ≠ b → a ++ b ∈ Vec3.swizzlers.map Swizzler.name) ∧
    (Vec4.swizzlers2.length = 32 ∧ (Vec4.swizzlers2.map Swizzler.name).Nodup ∧
      ∀ voc ∈ [["x", "y", "z", "w"], ["r", "g", "b", "a"]],
        ∀ a ∈ voc, ∀ b ∈ voc, a ++ b ∈ Vec4.swizzlers2.map Swizzler.name) ∧
    (Vec4.swizzlers3.length = 56 ∧ (Vec4.swizzlers3.map Swizzler.name).Nodup ∧
      ∀ voc ∈ [["x", "y", "z", "w"], ["r", "g", "b", "a"]],
        ∀ a ∈ voc, ∀ b ∈ voc, ∀ c ∈ voc,
          (a ≠ b ∧ a ≠ c ∧ b ≠ c) ∨ (a = b ∧ b = c) →
            a ++ b ++ c ∈ Vec4.swizzlers3.map Swizzler.name) ∧
    (∀ (α : Type) (v : Vec4 α) (u : α),
      v.swizzle3 "bgr" u = some ⟨v.z, v.y, v.x, u⟩ ∧
      v.swizzle3 "zyx" u = some ⟨v.z, v.y, v.x, u⟩ ∧
      v.swizzle3 "www" u = some ⟨v.w, v.w, v.w, u⟩ ∧
      v.swizzle2 "gr" = some ⟨v.y, v.x⟩ ∧ v.swizzle2 "yx" = some ⟨v.y, v.x⟩) ∧
    (∀ (α : Type) (v : Vec3 α),
      v.swizzle2 "vu" = some ⟨v.y, v.x⟩ ∧ v.swizzle2 "gr" = some ⟨v.y, v.x⟩ ∧
      v.swizzle2 "yx" = some ⟨v.y, v.x⟩ ∧ v.swizzle2 "uw" = some ⟨v.x, v.z⟩) :=
  ⟨fun _ v => Vec3.swizzle2_named v, fun _ v => Vec4.swizzle2_named4 v,
    fun _ v u => Vec4.swizzle3_named v u, Vec3.swizzlers_complete, Vec4.swizzlers2_complete,
    Vec4.swizzlers3_complete, fun _ _ _ => ⟨rfl, rfl, rfl, rfl, rfl⟩,
    fun _ _ => ⟨rfl, rfl, rfl, rfl⟩⟩

end Common

/-! ## the blend tables -/

namespace PicaToVK

theorem blend_equation_fallback (n : Nat) (h : 5 ≤ n) : BlendEquation n = vk.BlendOp.eAdd := by
  unfold BlendEquation
  have h5 : blend_equation_table.length = 5 := rfl
  simp only [h5, ge_iff_le, h, dite_true]

theorem blend_func_fallback (n : Nat) (h : 15 ≤ n) : BlendFunc n = vk.BlendFactor.eOne := by
  unfold BlendFunc
  have h15 : blend_func_table.length = 15 := rfl
  simp only [h15, ge_iff_le, h, dite_true]

/-- C27: `BlendEquation` returns a value for every input: for the numeric values
`0, 1, 2, 3, 4` the entries `Add, Subtract, ReverseSubtract, Min, Max` of its table of
five, and `Add` for every numeric value from `5` on, where the table is not indexed; so
it is the table lookup with default `Add`. -/
theorem BlendEquation_total :
    BlendEquation 0 = vk.BlendOp.eAdd ∧
    BlendEquation 1 = vk.BlendOp.eSubtract ∧
    BlendEquation 2 = vk.BlendOp.eReverseSubtract ∧
    BlendEquation 3 = vk.BlendOp.eMin ∧
    BlendEquation 4 = vk.BlendOp.eMax ∧
    (∀ n : Nat, 5 ≤ n → BlendEquation n = vk.BlendOp.eAdd) ∧
    blend_equation_table.length = 5 ∧
    (∀ n : Nat, BlendEquation n = (blend_equation_table.get? n).getD vk.BlendOp.eAdd) := by
  refine ⟨rfl, rfl, rfl, rfl, rfl, blend_equation_fallback, rfl, ?_⟩
  intro n
  by_cases h : 5 ≤ n
  · rw [blend_equation_fallback n h, List.get?_eq_none.mpr h]
    rfl
  · have hn : n < 5 := by omega
    interval_cases n <;> rfl

/-- C28: `BlendFunc` returns a value for every input: for a numeric value `i` below
`15` the `i`-th entry of its table (`Zero, One, SrcColor, OneMinusSrcColor, DstColor,
OneMinusDstColor, SrcAlpha, OneMinusSrcAlpha, DstAlpha, OneMinusDstAlpha, ConstantColor,
OneMinusConstantColor, ConstantAlpha, OneMinusConstantAlpha, SrcAlphaSaturate`), and
`One` for every numeric value from `15` on. -/
theorem BlendFunc_total :
    BlendFunc 0 = vk.BlendFactor.eZero ∧
    BlendFunc 1 = vk.BlendFactor.eOne ∧
    BlendFunc 2 = vk.BlendFactor.eSrcColor ∧
    BlendFunc 3 = vk.BlendFactor.eOneMinusSrcColor ∧
    BlendFunc 4 = vk.BlendFactor.eDstColor ∧
    BlendFunc 5 = vk.BlendFactor.eOneMinusDstColor ∧
    BlendFunc 6 = vk.BlendFactor.eSrcAlpha ∧
    BlendFunc 7 = vk.BlendFactor.eOneMinusSrcAlpha ∧
    BlendFunc 8 = vk.BlendFactor.eDstAlpha ∧
    BlendFunc 9 = vk.BlendFactor.eOneMinusDstAlpha ∧
    BlendFunc 10 = vk.BlendFactor.eConstantColor ∧
    BlendFunc 11 = vk.BlendFactor.eOneMinusConstantColor ∧
    BlendFunc 12 = vk.BlendFactor.eConstantAlpha ∧
    BlendFunc 13 = vk.BlendFactor.eOneMinusConstantAlpha ∧
    BlendFunc 14 = vk.BlendFactor.eSrcAlphaSaturate ∧
    (∀ n : Nat, 15 ≤ n → BlendFunc n = vk.BlendFactor.eOne) ∧
    blend_func_table.length = 15 ∧
    (∀ n : Nat, BlendFunc n = (blend_func_table.get? n).getD vk.BlendFactor.eOne) := by
  refine ⟨rfl, rfl, rfl, rfl, rfl, rfl, rfl, rfl, rfl, rfl, rfl, rfl, rfl, rfl, rfl,
    blend_func_fallback, rfl, ?_⟩
  intro n
  by_cases h : 15 ≤ n
  · rw [blend_func_fallback n h, List.get?_eq_none.mpr h]
    rfl
  · have hn : n < 15 := by omega
    interval_cases n <;> rfl

end PicaToVK

namespace Common

/-! ## horizontal reductions of Dot and Length2 -/

theorem F32.view_inf (s : Bool) : (F32.inf s).view = .inf s := by cases s <;> decide

theorem F32.view_qnan : F32.qnan.view = .nan := by decide

/-- Adding `+0.0` leaves the value class of every datum but `-0.0` unchanged. -/
theorem F32.add_zero_view (z : F32) (h : z ≠ F32.zero true) : (z + 0).view = z.view := by
  by_cases hf : z.isFinite = true
  · have e := (F32.add_zero_eq z false hf).2 (fun hz => absurd hz h)
    have e2 : z + 0 = z := by rw [F32.zero_eq]; exact e
    rw [e2]
  · have he : z.expo = 255 := by simpa [F32.isFinite] using hf
    show (F32.add z 0).view = z.view
    unfold F32.add
    rw [F32.zero_eq, F32.view_zero]
    unfold F32.view
    simp only [he, if_true]
    by_cases hm : z.mant = 0
    · simp only [hm, if_true, F32.View.add]
      exact F32.view_inf _
    · simp only [hm, if_false, F32.View.add]
      exact F32.view_qnan

/-- A sum depends on its operands through their value classes only. -/
theorem F32.add_congr_view (p z w : F32) (h : z.view = w.view) : p + z = p + w := by
  show F32.add p z = F32.add p w
  unfold F32.add
  rw [h]

theorem F32.view_fin_true_zero (p : F32) (h : p.view = .fin true 0) : p = F32.zero true := by
  unfold F32.view at h
  by_cases he : p.expo = 255
  · simp only [he, if_true] at h
    by_cases hm : p.mant = 0
    · simp [hm] at h
    · simp [hm] at h
  · simp only [he, if_false, F32.View.fin.injEq] at h
    have := F32.eq_zero_of_units p h.2
    rw [h.1] at this
    exact this

/-- Adding `+0.0` and adding `-0.0` agree on every datum but `-0.0`. -/
theorem F32.add_zero_sign (p : F32) (h : p ≠ F32.zero true) : p + 0 = p + F32.zero true := by
  show F32.add p 0 = F32.add p (F32.zero true)
  unfold F32.add
  rw [F32.zero_eq, F32.view_zero, F32.view_zero]
  cases hv : p.view with
  | nan => rfl
  | inf s => rfl
  | fin s n =>
    cases s with
    | false =>
      by_cases hn : n = 0
      · subst hn
        simp only [F32.View.add, if_true, Nat.add_zero, F32.round_zero]
        simp
      · have hpos : 0 < n := Nat.pos_of_ne_zero hn
        simp [F32.View.add, hn, hpos]
    | true =>
      have hn : n ≠ 0 := by
        intro h0
        subst h0
        exact h (F32.view_fin_true_zero p hv)
      have hpos : 0 < n := Nat.pos_of_ne_zero hn
      simp [F32.View.add, hn, hpos]

theorem F32.add_negzero_negzero : F32.zero true + F32.zero true = F32.zero true := by decide
theorem F32.zero_ne_negzero : (0 : F32) ≠ F32.zero true := by decide
theorem F32.mul_0_neg1 : (0 : F32) * (-1) = F32.zero true := by decide

/-- The sum formed by `_mm_dp_ps` with mask `0x71`, `(p + q) + (z + 0)`, against the
sum `(p + q) + z` of the scalar branch. -/
theorem F32.dp3_sum (s z : F32) :
    (s ≠ F32.zero true ∨ z ≠ F32.zero true → s + (z + 0) = s + z) ∧
    (s = F32.zero true → z = F32.zero true → s + z = F32.zero true ∧ s + (z + 0) = 0) := by
  constructor
  · intro h
    by_cases hz : z = F32.zero true
    · subst hz
      have hs : s ≠ F32.zero true := by
        rcases h with h | h
        · exact h
        · exact absurd rfl h
      rw [F32.add_negzero_0]
      exact F32.add_zero_sign s hs
    · exact F32.add_congr_view s _ _ (F32.add_zero_view z hz)
  · intro hs hz
    subst hs
    subst hz
    rw [F32.add_negzero_0, F32.add_negzero_0, F32.add_negzero_negzero]
    exact ⟨rfl, rfl⟩

theorem Vec3.Dot_pad {α : Type} [Mul α] [Add α] [Zero α] (p : Path) (a b : Vec3 α) (pa pb : α) :
    Vec3.Dot p ⟨a.x, a.y, a.z, pa⟩ ⟨b.x, b.y, b.z, pb⟩ = Vec3.Dot p a b := by
  cases p <;> rfl

theorem Vec3.Dot_sse41_cases (a b : Vec3 F32) :
    ((a.x * b.x + a.y * b.y ≠ F32.zero true ∨ a.z * b.z ≠ F32.zero true) →
      Vec3.Dot .sse41 a b = a.x * b.x + a.y * b.y + a.z * b.z) ∧
    (a.x * b.x + a.y * b.y = F32.zero true → a.z * b.z = F32.zero true →
      a.x * b.x + a.y * b.y + a.z * b.z = F32.zero true ∧ Vec3.Dot .sse41 a b = 0) := by
  rw [Vec3.Dot_sse41]
  exact F32.dp3_sum _ _

/-- C29 (counterexample): on the SSE4.1 path `Dot` is not always the value of the
scalar path.  For `a = (0, 0, 0)` and `b = (-1, -1, -1)` every product is `-0.0`; the
scalar path, like the SSE2 and NEON paths, returns `-0.0 + -0.0 + -0.0 = -0.0`, while
`_mm_dp_ps` with mask `0x71` replaces the fourth product by `+0.0` and returns
`(-0.0 + -0.0) + (-0.0 + 0.0) = +0.0`. -/
theorem Dot_sse41_sign_of_zero :
    Vec3.Dot .scalar (⟨0, 0, 0, 0⟩ : Vec3 F32) ⟨-1, -1, -1, 0⟩ = F32.zero true ∧
    Vec3.Dot .sse2 (⟨0, 0, 0, 0⟩ : Vec3 F32) ⟨-1, -1, -1, 0⟩ = F32.zero true ∧
    Vec3.Dot .neon (⟨0, 0, 0, 0⟩ : Vec3 F32) ⟨-1, -1, -1, 0⟩ = F32.zero true ∧
    Vec3.Dot .sse41 (⟨0, 0, 0, 0⟩ : Vec3 F32) ⟨-1, -1, -1, 0⟩ = F32.zero false ∧
    Vec3.Dot .sse41 (⟨0, 0, 0, 0⟩ : Vec3 F32) ⟨-1, -1, -1, 0⟩ ≠
      Vec3.Dot .scalar (⟨0, 0, 0, 0⟩ : Vec3 F32) ⟨-1, -1, -1, 0⟩ := by
  rw [Vec3.Dot_scalar, Vec3.Dot_sse2, Vec3.Dot_neon, Vec3.Dot_sse41]
  simp only [F32.mul_0_neg1, F32.add_negzero_negzero, F32.add_negzero_0, F32.zero_eq,
    true_and]
  decide

/-- C29 (amended): for all `Vec3` `a`, `b` and arbitrary padding lanes `pa`, `pb`,
`Dot(a, b)` does not depend on the padding lanes on any path; on the SSE2 and NEON
paths it is `a.x*b.x + a.y*b.y + a.z*b.z`, the value of the scalar path; on the SSE4.1
path it is `(a.x*b.x + a.y*b.y) + (a.z*b.z + 0)`, which over exact arithmetic is the same
sum and in `float` is the value of the scalar path unless `a.x*b.x + a.y*b.y` and
`a.z*b.z` are both `-0.0`, where the scalar path gives `-0.0` and SSE4.1 gives `+0.0`;
the two results always compare equal under `==` unless they are NaN, and one is a NaN
exactly when the other is. -/
theorem Dot_vec3_paths :
    (∀ (α : Type) [Mul α] [Add α] [Zero α] (p : Path) (a b : Vec3 α) (pa pb : α),
      Vec3.Dot p ⟨a.x, a.y, a.z, pa⟩ ⟨b.x, b.y, b.z, pb⟩ = Vec3.Dot p a b) ∧
    (∀ (α : Type) [Mul α] [Add α] [Zero α] (a b : Vec3 α),
      Vec3.Dot .scalar a b = a.x * b.x + a.y * b.y + a.z * b.z ∧
      Vec3.Dot .sse2 a b = a.x * b.x + a.y * b.y + a.z * b.z ∧
      Vec3.Dot .neon a b = a.x * b.x + a.y * b.y + a.z * b.z ∧
      Vec3.Dot .sse41 a b = (a.x * b.x + a.y * b.y) + (a.z * b.z + 0)) ∧
    (∀ (α : Type) [Semiring α] (a b : Vec3 α),
      Vec3.Dot .sse41 a b = a.x * b.x + a.y * b.y + a.z * b.z) ∧
    (∀ (a b : Vec3 F32),
      ((a.x * b.x + a.y * b.y ≠ F32.zero true ∨ a.z * b.z ≠ F32.zero true) →
        Vec3.Dot .sse41 a b = Vec3.Dot .scalar a b) ∧
      (a.x * b.x + a.y * b.y = F32.zero true → a.z * b.z = F32.zero true →
        Vec3.Dot .scalar a b = F32.zero true ∧ Vec3.Dot .sse41 a b = 0) ∧
      (Vec3.Dot .sse41 a b).isNaN = (Vec3.Dot .scalar a b).isNaN ∧
      ((Vec3.Dot .scalar a b).isNaN = false →
        (Vec3.Dot .sse41 a b == Vec3.Dot .scalar a b) = true)) := by
  refine ⟨fun _ _ _ _ p a b pa pb => Vec3.Dot_pad p a b pa pb,
    fun _ _ _ _ _ _ => ⟨rfl, rfl, rfl, rfl⟩, ?_, ?_⟩
  · intro α _ a b
    rw [Vec3.Dot_sse41, add_zero]
  · intro a b
    have h := Vec3.Dot_sse41_cases a b
    rw [Vec3.Dot_scalar]
    refine ⟨h.1, h.2, ?_, ?_⟩
    · by_cases hs : a.x * b.x + a.y * b.y = F32.zero true
      · by_cases hz : a.z * b.z = F32.zero true
        · obtain ⟨e1, e2⟩ := h.2 hs hz
          rw [e1, e2]
          decide
        · rw [h.1 (Or.inr hz)]
      · rw [h.1 (Or.inl hs)]
    · intro hn
      by_cases hs : a.x * b.x + a.y * b.y = F32.zero true
      · by_cases hz : a.z * b.z = F32.zero true
        · obtain ⟨e1, e2⟩ := h.2 hs hz
          rw [e1, e2]
          decide
        · rw [h.1 (Or.inr hz)]
          exact F32.beq_self _ hn
      · rw [h.1 (Or.inl hs)]
        exact F32.beq_self _ hn

/-- C30: for all `Vec4` `a`, `b` the SSE2 two-shuffle sequence and the NEON
double-`vpadd` sequence of `Dot(a, b)` and of `Length2()` leave in lane 0 the value
`(p0 + p1) + (p2 + p3)` with `p_i = a_i * b_i` (for `Length2`, `b = a`), whatever the
arithmetic of the lanes; each product occurs once.  (The `_mm_dp_ps` of the SSE4.1 build
of `Dot` forms the same sum.)  Over exact arithmetic (a commutative
ring) that is the sum `a.x*b.x + a.y*b.y + a.z*b.z + a.w*b.w` of the scalar path. -/
theorem Vec4_reduction_sums_lanes :
    (∀ (α : Type) [Mul α] [Add α] [Zero α] (a b : Vec4 α),
      Vec4.Dot .sse2 a b = (a.x * b.x + a.y * b.y) + (a.z * b.z + a.w * b.w) ∧
      Vec4.Dot .neon a b = (a.x * b.x + a.y * b.y) + (a.z * b.z + a.w * b.w) ∧
      Vec4.Dot .sse41 a b = (a.x * b.x + a.y * b.y) + (a.z * b.z + a.w * b.w) ∧
      Vec4.Length2 .sse2 a = (a.x * a.x + a.y * a.y) + (a.z * a.z + a.w * a.w) ∧
      Vec4.Length2 .sse41 a = (a.x * a.x + a.y * a.y) + (a.z * a.z + a.w * a.w) ∧
      Vec4.Length2 .neon a = (a.x * a.x + a.y * a.y) + (a.z * a.z + a.w * a.w)) ∧
    (∀ (α : Type) [CommRing α] (a b : Vec4 α),
      Vec4.Dot .sse2 a b = Vec4.Dot .scalar a b ∧
      Vec4.Dot .neon a b = Vec4.Dot .scalar a b ∧
      Vec4.Dot .scalar a b = a.x * b.x + a.y * b.y + a.z * b.z + a.w * b.w ∧
      Vec4.Length2 .sse2 a = Vec4.Length2 .scalar a ∧
      Vec4.Length2 .sse41 a = Vec4.Length2 .scalar a ∧
      Vec4.Length2 .neon a = Vec4.Length2 .scalar a ∧
      Vec4.Length2 .scalar a = a.x * a.x + a.y * a.y + a.z * a.z + a.w * a.w) := by
  refine ⟨fun _ _ _ _ _ _ => ⟨rfl, rfl, rfl, rfl, rfl, rfl⟩, ?_⟩
  intro α _ a b
  rw [Vec4.Dot4_sse2, Vec4.Dot4_neon, Vec4.Dot4_scalar, Vec4.Length2q_sse2, Vec4.Length2q_sse41,
    Vec4.Length2q_neon, Vec4.Length2q_scalar]
  refine ⟨?_, ?_, rfl, ?_, ?_, ?_, rfl⟩ <;> ring

/-! ## division by a scalar -/

theorem Vec4.divScalar4_scalar (v : Vec4 F32) (f : F32) :
    Vec4.divScalar .scalar v f = ⟨v.x / f, v.y / f, v.z / f, v.w / f⟩ := rfl

theorem Vec4.divScalar4_sse2 (v : Vec4 F32) (f : F32) :
    Vec4.divScalar .sse2 v f = ⟨v.x / f, v.y / f, v.z / f, v.w / f⟩ := rfl

theorem Vec4.divScalar4_sse41 (v : Vec4 F32) (f : F32) :
    Vec4.divScalar .sse41 v f = ⟨v.x / f, v.y / f, v.z / f, v.w / f⟩ := rfl

theorem Vec4.divScalar4_neon (v : Vec4 F32) (f : F32) :
    Vec4.divScalar .neon v f =
      ⟨v.x * Vec3.neonRecip f, v.y * Vec3.neonRecip f, v.z * Vec3.neonRecip f,
       v.w * Vec3.neonRecip f⟩ := rfl

theorem Vec3.divScalar_neon (v : Vec3 F32) (f u : F32) :
    Vec3.divScalar .neon v f u =
      ⟨v.x * Vec3.neonRecip f, v.y * Vec3.neonRecip f, v.z * Vec3.neonRecip f,
       v.pad * Vec3.neonRecip f⟩ := rfl

/-- C31 (counterexample): on the NEON path the quotient of `(3, 0, 0[, 0])` by `3.0f` has
`x = 0x3F7FFFF0` (`1 - 2^-20`) for `Vec3` and for `Vec4`, for `operator/` and for
`operator/=`, while `3.0f / 3.0f` is `1`, which the scalar path returns. -/
theorem div_neon_not_quotient :
    (Vec3.divScalar .neon ⟨3, 0, 0, 0⟩ 3 0).x = F32.ofBits 0x3F7FFFF0 ∧
    (Vec3.divAssign .neon ⟨3, 0, 0, 0⟩ 3).x = F32.ofBits 0x3F7FFFF0 ∧
    (Vec4.divScalar .neon ⟨3, 0, 0, 0⟩ 3).x = F32.ofBits 0x3F7FFFF0 ∧
    (Vec4.divAssignRef .neon ⟨3, 0, 0, 0⟩ (.object 3)).x = F32.ofBits 0x3F7FFFF0 ∧
    (Vec3.divScalar .scalar ⟨3, 0, 0, 0⟩ 3 0).x = 1 ∧
    (3 : F32) / 3 = 1 ∧
    F32.ofBits 0x3F7FFFF0 ≠ 1 := by
  have h : (3 : F32) * Vec3.neonRecip 3 = F32.ofBits 0x3F7FFFF0 := by
    rw [F32.neonRecip_3, F32.mul_3_recip]
  refine ⟨?_, ?_, ?_, ?_, F32.div_3_3, F32.div_3_3, F32.bits_ne_one⟩
  · rw [Vec3.divScalar_neon]
    exact h
  · rw [Vec3.divAssign_neon]
    exact h
  · rw [Vec4.divScalar4_neon]
    exact h
  · rw [Vec4.divAssignRef_object4, Vec4.divScalar4_neon]
    exact h

/-- C31 (amended): division of a `Vec3` or `Vec4` by a scalar `f` that is not part of the
receiver.  On the scalar path (every component type) and, for `float`, on the SSE2 and
SSE4.1 paths (`_mm_div_ps`), the meaningful components of `v / f` and of `v` after
`v /= f` are exactly `x/f, y/f, z/f [, w/f]`.  On the NEON path each is the component
times `r`, where `r` is the reciprocal estimate of `f` (`vrecpeq_f32`) refined by one
Newton-Raphson step (`vrecpsq_f32`); that product need not be the quotient. -/
theorem div_scalar_paths :
    (∀ (v : Vec3 F32) (f u : F32),
      (Vec3.divScalar .scalar v f u).components = [v.x / f, v.y / f, v.z / f] ∧
      (Vec3.divScalar .sse2 v f u).components = [v.x / f, v.y / f, v.z / f] ∧
      (Vec3.divScalar .sse41 v f u).components = [v.x / f, v.y / f, v.z / f] ∧
      (Vec3.divScalar .neon v f u).components =
        [v.x * Vec3.neonRecip f, v.y * Vec3.neonRecip f, v.z * Vec3.neonRecip f]) ∧
    (∀ (v : Vec3 F32) (f : F32),
      (Vec3.divAssign .scalar v f).components = [v.x / f, v.y / f, v.z / f] ∧
      (Vec3.divAssign .sse2 v f).components = [v.x / f, v.y / f, v.z / f] ∧
      (Vec3.divAssign .sse41 v f).components = [v.x / f, v.y / f, v.z / f] ∧
      (Vec3.divAssign .neon v f).components =
        [v.x * Vec3.neonRecip f, v.y * Vec3.neonRecip f, v.z * Vec3.neonRecip f]) ∧
    (∀ (v : Vec4 F32) (f : F32),
      (Vec4.divScalar .scalar v f).components = [v.x / f, v.y / f, v.z / f, v.w / f] ∧
      (Vec4.divScalar .sse2 v f).components = [v.x / f, v.y / f, v.z / f, v.w / f] ∧
      (Vec4.divScalar .sse41 v f).components = [v.x / f, v.y / f, v.z / f, v.w / f] ∧
      (Vec4.divScalar .neon v f).components =
        [v.x * Vec3.neonRecip f, v.y * Vec3.neonRecip f, v.z * Vec3.neonRecip f,
          v.w * Vec3.neonRecip f]) ∧
    (∀ (p : Path) (v : Vec4 F32) (f : F32),
      Vec4.divAssignRef p v (.object f) = Vec4.divScalar p v f) ∧
    (∀ (α : Type) [Div α] (p : Path) (v3 : Vec3 α) (v4 : Vec4 α) (f u : α),
      (Vec3.divScalarH v3 f u).components = [v3.x / f, v3.y / f, v3.z / f] ∧
      (Vec3.divAssignH v3 (.object f)).components = [v3.x / f, v3.y / f, v3.z / f] ∧
      (Vec4.divScalarH p v4 f).components = [v4.x / f, v4.y / f, v4.z / f, v4.w / f] ∧
      (Vec4.divAssignH v4 (.object f)).components =
        [v4.x / f, v4.y / f, v4.z / f, v4.w / f]) := by
  refine ⟨fun _ _ _ => ⟨rfl, rfl, rfl, rfl⟩, fun _ _ => ⟨rfl, rfl, rfl, rfl⟩,
    fun _ _ => ⟨rfl, rfl, rfl, rfl⟩, fun p v f => Vec4.divAssignRef_object4 p v f, ?_⟩
  intro α _ p v3 v4 f u
  refine ⟨rfl, rfl, ?_, rfl⟩
  unfold Vec4.divScalarH
  rw [Vec4.ctor_eq]
  rfl

/-! ## LerpInt between its endpoints -/

theorem IntN.tdiv_between (S K m M : Int) (hK : 0 < K) (h1 : m * K ≤ S) (h2 : S ≤ M * K) :
    m ≤ Int.tdiv S K ∧ Int.tdiv S K ≤ M := by
  by_cases hS : 0 ≤ S
  · rw [Int.tdiv_eq_ediv hS (le_of_lt hK)]
    exact ⟨Int.le_ediv_of_mul_le hK h1, Int.ediv_le_of_le_mul hK h2⟩
  · have hS2 : 0 ≤ -S := by omega
    have e : Int.tdiv S K = -((-S) / K) := by
      have := Int.neg_tdiv (-S) K
      rw [neg_neg] at this
      rw [this, Int.tdiv_eq_ediv hS2 (le_of_lt hK)]
    rw [e]
    have a1 : (-M) * K ≤ -S := by
      have : (-M) * K = -(M * K) := by ring
      omega
    have a2 : -S ≤ (-m) * K := by
      have : (-m) * K = -(m * K) := by ring
      omega
    have b1 := Int.le_ediv_of_mul_le hK a1
    have b2 := Int.ediv_le_of_le_mul hK a2
    constructor <;> omega

namespace IntN
variable {w : Nat}

theorem toInt_range (a : IntN w) : -(2 ^ w : Int) ≤ 2 * a.toInt ∧ 2 * a.toInt < 2 ^ w := by
  have hlt : ((a.val : Nat) : Int) < 2 ^ w := by exact_mod_cast a.isLt
  have h0 : (0 : Int) ≤ (a.val : Int) := Int.ofNat_nonneg _
  unfold toInt
  split_ifs with h
  · constructor
    · have : (0 : Int) ≤ 2 ^ w := by positivity
      omega
    · exact_mod_cast h
  · have h' : (2 ^ w : Int) ≤ 2 * (a.val : Int) := by
      have := Nat.le_of_not_lt h
      exact_mod_cast this
    constructor <;> omega

theorem add_eq_ofInt (a b : IntN w) : a + b = ofInt (a.toInt + b.toInt) := by
  apply ext_val
  have h := ofInt_val (w := w) (a.toInt + b.toInt)
  rw [Int.add_emod, toInt_emod, toInt_emod] at h
  rw [add_val]
  exact_mod_cast h.symm

theorem sub_eq_ofInt (a b : IntN w) : a - b = ofInt (a.toInt - b.toInt) := by
  have e : a = (a - b) + b := by ring
  have h := add_eq_ofInt (a - b) b
  have h2 : ofInt (w := w) (a.toInt - b.toInt) = ofInt ((a - b).toInt) := by
    apply ext_val
    have h3 := ofInt_val (w := w) (a.toInt - b.toInt)
    have h4 := ofInt_val (w := w) ((a - b).toInt)
    have h5 : a.toInt % 2 ^ w = ((a - b).toInt + b.toInt) % 2 ^ w := by
      rw [toInt_emod]
      have h6 := ofInt_val (w := w) ((a - b).toInt + b.toInt)
      rw [← h, ← e] at h6
      exact h6
    have h7 : (a.toInt - b.toInt) % 2 ^ w = (a - b).toInt % 2 ^ w := by
      rw [Int.sub_emod, h5, ← Int.sub_emod]
      congr 1
      ring
    rw [h7] at h3
    have : (((ofInt (a.toInt - b.toInt) : IntN w)).val : Int) =
        (((ofInt ((a - b).toInt) : IntN w)).val : Int) := by rw [h3, h4]
    exact_mod_cast this
  rw [h2, ofInt_toInt]

theorem toInt_div (a b : IntN w) (h1 : -(2 ^ w : Int) ≤ 2 * Int.tdiv a.toInt b.toInt)
    (h2 : 2 * Int.tdiv a.toInt b.toInt < 2 ^ w) :
    (a / b).toInt = Int.tdiv a.toInt b.toInt := by
  show (div a b).toInt = _
  unfold div
  exact toInt_ofInt _ h1 h2

/-- The scalar `LerpInt` stays between its endpoints. -/
theorem lerpInt_between (base b e t : IntN w) (hb : 0 < base.toInt) (h0 : 0 ≤ t.toInt)
    (h1 : t.toInt ≤ base.toInt) (hf : lerpFits base b e t = true) :
    between b e ((b * (base - t) + e * t) / base) := by
  simp only [lerpFits, mulFits, addFits, Bool.and_eq_true, decide_eq_true_eq] at hf
  obtain ⟨⟨⟨f1, f2⟩, f3, f4⟩, f5, f6⟩ := hf
  have rK := toInt_range base
  have rB := toInt_range b
  have rE := toInt_range e
  have hsub : (base - t).toInt = base.toInt - t.toInt := by
    rw [sub_eq_ofInt]
    exact toInt_ofInt _ (by omega) (by omega)
  rw [hsub] at f1 f2
  have hm1 : (b * (base - t)).toInt = b.toInt * (base.toInt - t.toInt) := by
    rw [mul_eq_ofInt, hsub]
    exact toInt_ofInt _ f1 f2
  have hm2 : (e * t).toInt = e.toInt * t.toInt := by
    rw [mul_eq_ofInt]
    exact toInt_ofInt _ f3 f4
  rw [hm1, hm2] at f5 f6
  have hs : (b * (base - t) + e * t).toInt =
      b.toInt * (base.toInt - t.toInt) + e.toInt * t.toInt := by
    rw [add_eq_ofInt, hm1, hm2]
    exact toInt_ofInt _ f5 f6
  have hu : 0 ≤ base.toInt - t.toInt := by omega
  have hlo : min b.toInt e.toInt * base.toInt ≤
      b.toInt * (base.toInt - t.toInt) + e.toInt * t.toInt := by
    have a1 : min b.toInt e.toInt * (base.toInt - t.toInt) ≤
        b.toInt * (base.toInt - t.toInt) :=
      Int.mul_le_mul_of_nonneg_right (min_le_left _ _) hu
    have a2 : min b.toInt e.toInt * t.toInt ≤ e.toInt * t.toInt :=
      Int.mul_le_mul_of_nonneg_right (min_le_right _ _) h0
    have a3 : min b.toInt e.toInt * base.toInt =
        min b.toInt e.toInt * (base.toInt - t.toInt) + min b.toInt e.toInt * t.toInt := by
      ring
    omega
  have hhi : b.toInt * (base.toInt - t.toInt) + e.toInt * t.toInt ≤
      max b.toInt e.toInt * base.toInt := by
    have a1 : b.toInt * (base.toInt - t.toInt) ≤
        max b.toInt e.toInt * (base.toInt - t.toInt) :=
      Int.mul_le_mul_of_nonneg_right (le_max_left _ _) hu
    have a2 : e.toInt * t.toInt ≤ max b.toInt e.toInt * t.toInt :=
      Int.mul_le_mul_of_nonneg_right (le_max_right _ _) h0
    have a3 : max b.toInt e.toInt * base.toInt =
        max b.toInt e.toInt * (base.toInt - t.toInt) + max b.toInt e.toInt * t.toInt := by
      ring
    omega
  have hq := tdiv_between _ _ _ _ hb hlo hhi
  have hmin : -(2 ^ w : Int) ≤ 2 * min b.toInt e.toInt := by
    rcases min_choice b.toInt e.toInt with h | h <;> rw [h] <;> omega
  have hmax : 2 * max b.toInt e.toInt < 2 ^ w := by
    rcases max_choice b.toInt e.toInt with h | h <;> rw [h] <;> omega
  have hd : ((b * (base - t) + e * t) / base).toInt =
      Int.tdiv (b.toInt * (base.toInt - t.toInt) + e.toInt * t.toInt) base.toInt := by
    rw [toInt_div, hs]
    · rw [hs]; omega
    · rw [hs]; omega
  unfold between
  rw [hd]
  exact hq

end IntN

/-- C32: `LerpInt` stays between its endpoints.  For `int` operands with `base > 0` and
`0 <= t <= base`, when neither product nor their sum overflows, the result of
`(begin * (base - t) + end * t) / base`, whose division truncates toward zero, is at
least `min(begin, end)` and at most `max(begin, end)` as signed values, whatever the
signs of `begin` and `end`; for `Vec2<int>`, `Vec3<int>` and `Vec4<int>` this holds in
each component. -/
theorem LerpInt_between_endpoints :
    (∀ (base begin_ end_ t : I32), 0 < base.toInt → 0 ≤ t.toInt → t.toInt ≤ base.toInt →
      IntN.lerpFits base begin_ end_ t = true →
      min begin_.toInt end_.toInt ≤ (LerpInt base begin_ end_ t : I32).toInt ∧
      (LerpInt base begin_ end_ t : I32).toInt ≤ max begin_.toInt end_.toInt) ∧
    (∀ (base : I32) (begin_ end_ : Vec2 I32) (t : I32), 0 < base.toInt → 0 ≤ t.toInt →
      t.toInt ≤ base.toInt → Vec2.lerpFits base begin_ end_ t = true →
      IntN.between begin_.x end_.x (Vec2.LerpInt base begin_ end_ t).x ∧
      IntN.between begin_.y end_.y (Vec2.LerpInt base begin_ end_ t).y) ∧
    (∀ (base u : I32) (begin_ end_ : Vec3 I32) (t : I32), 0 < base.toInt → 0 ≤ t.toInt →
      t.toInt ≤ base.toInt → Vec3.lerpFits base begin_ end_ t = true →
      IntN.between begin_.x end_.x (Vec3.LerpInt u base begin_ end_ t).x ∧
      IntN.between begin_.y end_.y (Vec3.LerpInt u base begin_ end_ t).y ∧
      IntN.between begin_.z end_.z (Vec3.LerpInt u base begin_ end_ t).z) ∧
    (∀ (base : I32) (begin_ end_ : Vec4 I32) (t : I32), 0 < base.toInt → 0 ≤ t.toInt →
      t.toInt ≤ base.toInt → Vec4.lerpFits base begin_ end_ t = true →
      IntN.between begin_.x end_.x (Vec4.LerpInt base begin_ end_ t).x ∧
      IntN.between begin_.y end_.y (Vec4.LerpInt base begin_ end_ t).y ∧
      IntN.between begin_.z end_.z (Vec4.LerpInt base begin_ end_ t).z ∧
      IntN.between begin_.w end_.w (Vec4.LerpInt base begin_ end_ t).w) := by
  refine ⟨?_, ?_, ?_, ?_⟩
  · intro base b e t hb h0 h1 hf
    exact IntN.lerpInt_between base b e t hb h0 h1 hf
  · intro base b e t hb h0 h1 hf
    simp only [Vec2.lerpFits, Bool.and_eq_true] at hf
    exact ⟨IntN.lerpInt_between base b.x e.x t hb h0 h1 hf.1,
      IntN.lerpInt_between base b.y e.y t hb h0 h1 hf.2⟩
  · intro base u b e t hb h0 h1 hf
    simp only [Vec3.lerpFits, Bool.and_eq_true] at hf
    exact ⟨IntN.lerpInt_between base b.x e.x t hb h0 h1 hf.1.1,
      IntN.lerpInt_between base b.y e.y t hb h0 h1 hf.1.2,
      IntN.lerpInt_between base b.z e.z t hb h0 h1 hf.2⟩
  · intro base b e t hb h0 h1 hf
    simp only [Vec4.lerpFits, Bool.and_eq_true] at hf
    exact ⟨IntN.lerpInt_between base b.x e.x t hb h0 h1 hf.1.1.1,
      IntN.lerpInt_between base b.y e.y t hb h0 h1 hf.1.1.2,
      IntN.lerpInt_between base b.z e.z t hb h0 h1 hf.1.2,
      IntN.lerpInt_between base b.w e.w t hb h0 h1 hf.2⟩

theorem I32.lerp_sample :
    (LerpInt 256 (-100 : I32) (7 : I32) 100 : I32) = -58 ∧
    (-100 : I32).toInt = -100 ∧ (7 : I32).toInt = 7 ∧ (-58 : I32).toInt = -58 := by
  decide

/-- C32 (witness): `base = 256`, `begin = -100`, `end = 7`, `t = 100`: the exact value
`-14900 / 256` is about `-58.2`, the truncating division gives `-58`, and
`-100 <= -58 <= 7`; and a `Vec3<int>` with these in `x`. -/
theorem LerpInt_between_witness :
    (min (-100 : I32).toInt (7 : I32).toInt ≤ (LerpInt 256 (-100 : I32) (7 : I32) 100 : I32).toInt ∧
      (LerpInt 256 (-100 : I32) (7 : I32) 100 : I32).toInt ≤
        max (-100 : I32).toInt (7 : I32).toInt) ∧
    (LerpInt 256 (-100 : I32) (7 : I32) 100 : I32) = -58 ∧
    (IntN.between (-100 : I32) 7 (Vec3.LerpInt 0 256 ⟨-100, 5, 9, 0⟩ ⟨7, 5, -9, 0⟩ 100).x ∧
      IntN.between (5 : I32) 5 (Vec3.LerpInt 0 256 ⟨-100, 5, 9, 0⟩ ⟨7, 5, -9, 0⟩ 100).y ∧
      IntN.between (9 : I32) (-9) (Vec3.LerpInt 0 256 ⟨-100, 5, 9, 0⟩ ⟨7, 5, -9, 0⟩ 100).z) :=
  ⟨LerpInt_between_endpoints.1 256 (-100) 7 100 (by decide) (by decide) (by decide) (by decide),
   I32.lerp_sample.1,
   LerpInt_between_endpoints.2.2.1 256 0 ⟨-100, 5, 9, 0⟩ ⟨7, 5, -9, 0⟩ 100 (by decide)
     (by decide) (by decide) (by decide)⟩

/-! ## the cross product on integers -/

/-- C33: on the scalar path, over integer components with arithmetic modulo `2^w` (and
over any commutative ring), the cross product is orthogonal to both operands and vanishes
on equal operands: `Dot(a, Cross(a, b)) == 0`, `Dot(b, Cross(a, b)) == 0`, and
`Cross(a, a)` has `x = y = z = 0`, so it compares equal to the zero vector; the padding
of the operands and of the results plays no part. -/
theorem Cross_orthogonal_on_integers :
    (∀ (α : Type) [CommRing α] (a b : Vec3 α) (u : α),
      Vec3.Dot .scalar a (Vec3.Cross .scalar a b u) = 0 ∧
      Vec3.Dot .scalar b (Vec3.Cross .scalar a b u) = 0 ∧
      (Vec3.Cross .scalar a a u).components = [0, 0, 0]) ∧
    (∀ (w : Nat) (a b : Vec3 (IntN w)) (u z : IntN w),
      (Vec3.Dot .scalar a (Vec3.Cross .scalar a b u) == 0) = true ∧
      (Vec3.Dot .scalar b (Vec3.Cross .scalar a b u) == 0) = true ∧
      Vec3.eq .scalar (Vec3.Cross .scalar a a u) (Vec3.AssignToAll .scalar 0 z) = true ∧
      Vec3.eq .scalar (Vec3.Cross .scalar a a u) (Vec3.SetZero a) = true) := by
  have key : ∀ (α : Type) [CommRing α] (a b : Vec3 α) (u : α),
      Vec3.Dot .scalar a (Vec3.Cross .scalar a b u) = 0 ∧
      Vec3.Dot .scalar b (Vec3.Cross .scalar a b u) = 0 ∧
      (Vec3.Cross .scalar a a u).components = [0, 0, 0] := by
    intro α _ a b u
    rw [Vec3.Dot_scalar, Vec3.Dot_scalar, Vec3.Cross_scalar, Vec3.Cross_scalar]
    refine ⟨?_, ?_, ?_⟩
    · show a.x * (a.y * b.z - a.z * b.y) + a.y * (a.z * b.x - a.x * b.z) +
        a.z * (a.x * b.y - a.y * b.x) = 0
      ring
    · show b.x * (a.y * b.z - a.z * b.y) + b.y * (a.z * b.x - a.x * b.z) +
        b.z * (a.x * b.y - a.y * b.x) = 0
      ring
    · show [a.y * a.z - a.z * a.y, a.z * a.x - a.x * a.z, a.x * a.y - a.y * a.x] = [0, 0, 0]
      rw [mul_comm a.y a.z, mul_comm a.z a.x, mul_comm a.x a.y, sub_self, sub_self, sub_self]
  refine ⟨key, ?_⟩
  intro w a b u z
  obtain ⟨h1, h2, h3⟩ := key (IntN w) a b u
  have hc : (Vec3.Cross .scalar a a u).x = 0 ∧ (Vec3.Cross .scalar a a u).y = 0 ∧
      (Vec3.Cross .scalar a a u).z = 0 := by
    simp only [Vec3.components, List.cons.injEq, and_true] at h3
    exact h3
  refine ⟨?_, ?_, ?_, ?_⟩
  · rw [h1]; simp
  · rw [h2]; simp
  · exact Vec3.eq_of_components _ _ _ hc.1 hc.2.1 hc.2.2
  · exact Vec3.eq_of_components _ _ _ hc.1 hc.2.1 hc.2.2

/-! ## swizzles and MakeVec -/

theorem Vec4.eq_nan_x4 (p : Path) (a b : Vec4 F32) (h : a.x = F32.qnan) :
    Vec4.eq p a b = false := by
  rw [Vec4.eq_eq_and4, h]
  have e : (F32.qnan == b.x) = false := by
    rw [F32.beq_def]
    unfold F32.eq
    rfl
  rw [e]
  rfl

theorem Vec3.eq_nan_x (p : Path) (a b : Vec3 F32) (h : a.x = F32.qnan) :
    Vec3.eq p a b = false := by
  rw [Vec3.eq_eq_and3, h]
  have e : (F32.qnan == b.x) = false := by
    rw [F32.beq_def]
    unfold F32.eq
    rfl
  rw [e]
  rfl

/-- C34 (counterexample): for the `Vec3<float>` and the `Vec4<float>` with `x` a NaN and
the other components `0`, `v.xy()` is `(NaN, 0)` and `v.xyz()` is `(NaN, 0, 0)`, and
neither `MakeVec(v.xy(), v.z) == v` nor `MakeVec(v.xyz(), v.w) == v` holds, on any
path. -/
theorem swizzle_MakeVec_nan :
    Vec3.swizzle2 (⟨F32.qnan, 0, 0, 0⟩ : Vec3 F32) "xy" = some ⟨F32.qnan, 0⟩ ∧
    Vec3.eq .scalar (MakeVec.V2T (⟨F32.qnan, 0⟩ : Vec2 F32) 0 0) ⟨F32.qnan, 0, 0, 0⟩ = false ∧
    Vec3.eq .sse2 (MakeVec.V2T (⟨F32.qnan, 0⟩ : Vec2 F32) 0 0) ⟨F32.qnan, 0, 0, 0⟩ = false ∧
    Vec3.eq .sse41 (MakeVec.V2T (⟨F32.qnan, 0⟩ : Vec2 F32) 0 0) ⟨F32.qnan, 0, 0, 0⟩ = false ∧
    Vec3.eq .neon (MakeVec.V2T (⟨F32.qnan, 0⟩ : Vec2 F32) 0 0) ⟨F32.qnan, 0, 0, 0⟩ = false ∧
    Vec4.swizzle3 (⟨F32.qnan, 0, 0, 0⟩ : Vec4 F32) "xyz" 0 = some ⟨F32.qnan, 0, 0, 0⟩ ∧
    Vec4.eq .scalar (MakeVec.V3T .scalar (⟨F32.qnan, 0, 0, 0⟩ : Vec3 F32) 0)
      ⟨F32.qnan, 0, 0, 0⟩ = false ∧
    Vec4.eq .sse2 (MakeVec.V3T .sse2 (⟨F32.qnan, 0, 0, 0⟩ : Vec3 F32) 0)
      ⟨F32.qnan, 0, 0, 0⟩ = false ∧
    Vec4.eq .sse41 (MakeVec.V3T .sse41 (⟨F32.qnan, 0, 0, 0⟩ : Vec3 F32) 0)
      ⟨F32.qnan, 0, 0, 0⟩ = false ∧
    Vec4.eq .neon (MakeVec.V3T .neon (⟨F32.qnan, 0, 0, 0⟩ : Vec3 F32) 0)
      ⟨F32.qnan, 0, 0, 0⟩ = false := by
  have h4 : ∀ p : Path, (MakeVec.V3T p (⟨F32.qnan, 0, 0, 0⟩ : Vec3 F32) 0).x = F32.qnan := by
    intro p
    cases p <;> rfl
  exact ⟨rfl, Vec3.eq_nan_x _ _ _ rfl, Vec3.eq_nan_x _ _ _ rfl, Vec3.eq_nan_x _ _ _ rfl,
    Vec3.eq_nan_x _ _ _ rfl, rfl, Vec4.eq_nan_x4 _ _ _ (h4 _), Vec4.eq_nan_x4 _ _ _ (h4 _),
    Vec4.eq_nan_x4 _ _ _ (h4 _), Vec4.eq_nan_x4 _ _ _ (h4 _)⟩

/-- C34 (amended): swizzles and `MakeVec` round-trip by components, and under `==` when
the components compare equal to themselves.  For every `Vec3<T>` `v`,
`MakeVec(v.xy(), v.z)` and `MakeVec(v.x, v.yz())` have the components of `v`; for every
`Vec4<T>` `w`, `MakeVec(w.xyz(), w.w)`, `MakeVec(w.x, w.yzw())` and
`MakeVec(w.xy(), w.zw())` are `w`, on every path and whatever the padding of the
intermediate `Vec3`; and each compares equal to the vector it was taken from when every
component of that vector compares equal to itself (always for the integer types; for
`float`: when none is a NaN). -/
theorem swizzle_MakeVec_roundtrip {α : Type} [BEq α] (p : Path) (v : Vec3 α) (w : Vec4 α)
    (u u2 : α) (hv : (v.x == v.x && v.y == v.y && v.z == v.z) = true)
    (hw : (w.x == w.x && w.y == w.y && w.z == w.z && w.w == w.w) = true) :
    (∃ xy yz, v.swizzle2 "xy" = some xy ∧ v.swizzle2 "yz" = some yz ∧
      (MakeVec.V2T xy v.z u).components = v.components ∧
      (MakeVec.TV2 v.x yz u).components = v.components ∧
      Vec3.eq p (MakeVec.V2T xy v.z u) v = true ∧
      Vec3.eq p (MakeVec.TV2 v.x yz u) v = true) ∧
    (∃ xyz yzw xy zw, w.swizzle3 "xyz" u2 = some xyz ∧ w.swizzle3 "yzw" u2 = some yzw ∧
      w.swizzle2 "xy" = some xy ∧ w.swizzle2 "zw" = some zw ∧
      MakeVec.V3T p xyz w.w = w ∧ MakeVec.TV3 p w.x yzw = w ∧ MakeVec.V2V2 p xy zw = w ∧
      Vec4.eq p (MakeVec.V3T p xyz w.w) w = true ∧
      Vec4.eq p (MakeVec.TV3 p w.x yzw) w = true ∧
      Vec4.eq p (MakeVec.V2V2 p xy zw) w = true) := by
  have e1 : MakeVec.V3T p (⟨w.x, w.y, w.z, u2⟩ : Vec3 α) w.w = w := by cases p <;> rfl
  have e2 : MakeVec.TV3 p w.x (⟨w.y, w.z, w.w, u2⟩ : Vec3 α) = w := by cases p <;> rfl
  have e3 : MakeVec.V2V2 p (⟨w.x, w.y⟩ : Vec2 α) ⟨w.z, w.w⟩ = w := by cases p <;> rfl
  have hww : Vec4.eq p w w = true := by
    rw [Vec4.eq_eq_and4]
    exact hw
  refine ⟨⟨⟨v.x, v.y⟩, ⟨v.y, v.z⟩, rfl, rfl, rfl, rfl, ?_, ?_⟩,
    ⟨⟨w.x, w.y, w.z, u2⟩, ⟨w.y, w.z, w.w, u2⟩, ⟨w.x, w.y⟩, ⟨w.z, w.w⟩, rfl, rfl, rfl, rfl,
      e1, e2, e3, ?_, ?_, ?_⟩⟩
  · rw [Vec3.eq_eq_and3]
    exact hv
  · rw [Vec3.eq_eq_and3]
    exact hv
  · rw [e1]
    exact hww
  · rw [e2]
    exact hww
  · rw [e3]
    exact hww

/-- C34 (witness): the `float` vectors `(1, 2, 3)` and `(1, 2, 3, 4)` on the NEON
path. -/
theorem swizzle_MakeVec_roundtrip_witness :
    (∃ xy yz, Vec3.swizzle2 (⟨1, 2, 3, 0⟩ : Vec3 F32) "xy" = some xy ∧
      Vec3.swizzle2 (⟨1, 2, 3, 0⟩ : Vec3 F32) "yz" = some yz ∧
      (MakeVec.V2T xy (3 : F32) 1).components = (⟨1, 2, 3, 0⟩ : Vec3 F32).components ∧
      (MakeVec.TV2 (1 : F32) yz 1).components = (⟨1, 2, 3, 0⟩ : Vec3 F32).components ∧
      Vec3.eq .neon (MakeVec.V2T xy (3 : F32) 1) ⟨1, 2, 3, 0⟩ = true ∧
      Vec3.eq .neon (MakeVec.TV2 (1 : F32) yz 1) ⟨1, 2, 3, 0⟩ = true) ∧
    (∃ xyz yzw xy zw, Vec4.swizzle3 (⟨1, 2, 3, 4⟩ : Vec4 F32) "xyz" 0 = some xyz ∧
      Vec4.swizzle3 (⟨1, 2, 3, 4⟩ : Vec4 F32) "yzw" 0 = some yzw ∧
      Vec4.swizzle2 (⟨1, 2, 3, 4⟩ : Vec4 F32) "xy" = some xy ∧
      Vec4.swizzle2 (⟨1, 2, 3, 4⟩ : Vec4 F32) "zw" = some zw ∧
      MakeVec.V3T .neon xyz (4 : F32) = ⟨1, 2, 3, 4⟩ ∧
      MakeVec.TV3 .neon (1 : F32) yzw = ⟨1, 2, 3, 4⟩ ∧
      MakeVec.V2V2 .neon xy zw = ⟨1, 2, 3, 4⟩ ∧
      Vec4.eq .neon (MakeVec.V3T .neon xyz (4 : F32)) ⟨1, 2, 3, 4⟩ = true ∧
      Vec4.eq .neon (MakeVec.TV3 .neon (1 : F32) yzw) ⟨1, 2, 3, 4⟩ = true ∧
      Vec4.eq .neon (MakeVec.V2V2 .neon xy zw) ⟨1, 2, 3, 4⟩ = true) :=
  swizzle_MakeVec_roundtrip .neon ⟨1, 2, 3, 0⟩ ⟨1, 2, 3, 4⟩ 1 0 (by decide) (by decide)

/-! ## bytes of a 32-bit colour -/

theorem U32.val_and_ff (a : U32) : Fin.val (a &&& 0xFF) = Fin.val a % 256 := by
  show Fin.val a &&& 255 = Fin.val a % 256
  exact Nat.and_pow_two_sub_one_eq_mod _ 8

theorem U32.val_shr (a : U32) (n : Nat) : Fin.val (a >>> n) = Fin.val a / 2 ^ n := by
  show Fin.val a >>> n = Fin.val a / 2 ^ n
  exact Nat.shiftRight_eq_div_pow _ _

theorem I32.toInt_land_ff (a : I32) : (a.land 0xFF).toInt = ((Fin.val a % 256 : Nat) : Int) := by
  have e : Fin.val (a.land 0xFF) = Fin.val a % 256 := by
    show Fin.val a &&& 255 = Fin.val a % 256
    exact Nat.and_pow_two_sub_one_eq_mod _ 8
  have hlt : Fin.val a % 256 < 256 := Nat.mod_lt _ (by decide)
  unfold IntN.toInt
  rw [e, if_pos (by omega)]

theorem F32.color_facts :
    F32.ofInt ((18 : Nat) : Int) / 255 = F32.ofBits 0x3D909091 ∧
    F32.ofInt ((52 : Nat) : Int) / 255 = F32.ofBits 0x3E50D0D1 ∧
    F32.ofInt ((86 : Nat) : Int) / 255 = F32.ofBits 0x3EACACAD ∧
    F32.ofInt ((120 : Nat) : Int) / 255 = F32.ofBits 0x3EF0F0F1 ∧
    F32.ofInt ((0 : Nat) : Int) / 255 = 0 ∧
    F32.ofInt ((255 : Nat) : Int) / 255 = 1 := by
  refine ⟨?_, ?_, ?_, ?_, ?_, ?_⟩ <;> decide

end Common

/-! ## the asserting tables, the cull mode, the colour conversion and the overrides -/

namespace PicaToVK

open Common

/-- C35: the asserting table lookups return the table entry on every in-range input:
for a numeric value below the table size (`8` for `WrapMode`, `CompareFunc` and
`StencilOp`, `16` for `LogicOp`) the assertion holds and the result is the entry at that
index; `WrapMode` gives for `4` and `5` what it gives for `0` and `1` (`ClampToEdge`,
`ClampToBorder`), and `Repeat` for `6` and `7`. -/
theorem asserting_lookups_in_range :
    wrap_mode_table.length = 8 ∧ logic_op_table.length = 16 ∧
    compare_func_table.length = 8 ∧ stencil_op_table.length = 8 ∧
    (∀ n : Nat, n < 8 → ∃ e, WrapMode n = some e ∧ wrap_mode_table.get? n = some e) ∧
    (∀ n : Nat, n < 16 → ∃ e, LogicOp n = some e ∧ logic_op_table.get? n = some e) ∧
    (∀ n : Nat, n < 8 → ∃ e, CompareFunc n = some e ∧ compare_func_table.get? n = some e) ∧
    (∀ n : Nat, n < 8 → ∃ e, StencilOp n = some e ∧ stencil_op_table.get? n = some e) ∧
    WrapMode 0 = some vk.SamplerAddressMode.eClampToEdge ∧
    WrapMode 1 = some vk.SamplerAddressMode.eClampToBorder ∧
    WrapMode 2 = some vk.SamplerAddressMode.eRepeat ∧
    WrapMode 3 = some vk.SamplerAddressMode.eMirroredRepeat ∧
    WrapMode 4 = WrapMode 0 ∧ WrapMode 5 = WrapMode 1 ∧
    WrapMode 6 = some vk.SamplerAddressMode.eRepeat ∧
    WrapMode 7 = some vk.SamplerAddressMode.eRepeat := by
  refine ⟨rfl, rfl, rfl, rfl, ?_, ?_, ?_, ?_, rfl, rfl, rfl, rfl, rfl, rfl, rfl, rfl⟩
  · intro n h
    interval_cases n <;> exact ⟨_, rfl, rfl⟩
  · intro n h
    interval_cases n <;> exact ⟨_, rfl, rfl⟩
  · intro n h
    interval_cases n <;> exact ⟨_, rfl, rfl⟩
  · intro n h
    interval_cases n <;> exact ⟨_, rfl, rfl⟩

/-- C36: over the three defined cull modes `CullMode` returns `None` exactly for
`KeepAll` and `Back` for both `KeepClockWise` and `KeepCounterClockWise`, and
`FrontFace` returns `Clockwise` exactly for `KeepCounterClockWise` and
`CounterClockwise` for `KeepAll` and `KeepClockWise`: the two culling modes get the same
`CullMode` and different `FrontFace`. -/
theorem culling_through_front_face :
    CullMode .KeepAll = some vk.CullModeFlagBits.eNone ∧
    CullMode .KeepClockWise = some vk.CullModeFlagBits.eBack ∧
    CullMode .KeepCounterClockWise = some vk.CullModeFlagBits.eBack ∧
    FrontFace .KeepAll = some vk.FrontFace.eCounterClockwise ∧
    FrontFace .KeepClockWise = some vk.FrontFace.eCounterClockwise ∧
    FrontFace .KeepCounterClockWise = some vk.FrontFace.eClockwise ∧
    (∀ m : Pica.RasterizerRegs.CullMode,
      CullMode m = some vk.CullModeFlagBits.eNone ↔ m = .KeepAll) ∧
    (∀ m : Pica.RasterizerRegs.CullMode,
      CullMode m = some vk.CullModeFlagBits.eBack ↔
        (m = .KeepClockWise ∨ m = .KeepCounterClockWise)) ∧
    (∀ m : Pica.RasterizerRegs.CullMode,
      FrontFace m = some vk.FrontFace.eClockwise ↔ m = .KeepCounterClockWise) ∧
    (∀ m : Pica.RasterizerRegs.CullMode,
      FrontFace m = some vk.FrontFace.eCounterClockwise ↔
        (m = .KeepAll ∨ m = .KeepClockWise)) ∧
    CullMode .KeepClockWise = CullMode .KeepCounterClockWise ∧
    FrontFace .KeepClockWise ≠ FrontFace .KeepCounterClockWise := by
  refine ⟨rfl, rfl, rfl, rfl, rfl, rfl, ?_, ?_, ?_, ?_, rfl, by decide⟩ <;>
    intro m <;> cases m <;> decide

/-- The four bytes of a colour as integers. -/
theorem ColorRGBA8.lanes_eq (b : ColorBranch) (color : U32) :
    ColorRGBA8.lanes b color =
      ⟨((Fin.val color % 256 : Nat) : Int), ((Fin.val color / 2 ^ 8 % 256 : Nat) : Int),
       ((Fin.val color / 2 ^ 16 % 256 : Nat) : Int),
       ((Fin.val color / 2 ^ 24 % 256 : Nat) : Int)⟩ := by
  cases b
  · show (⟨(Fin.val (color &&& 0xFF) : Int), (Fin.val ((color >>> 8) &&& 0xFF) : Int),
      (Fin.val ((color >>> 16) &&& 0xFF) : Int), (Fin.val ((color >>> 24) &&& 0xFF) : Int)⟩ :
        M128 Int) = _
    rw [U32.val_and_ff, U32.val_and_ff, U32.val_and_ff, U32.val_and_ff, U32.val_shr,
      U32.val_shr, U32.val_shr]
  · show (⟨(IntN.land (w := 32) color 0xFF).toInt,
      (IntN.land (w := 32) (color >>> 8) 0xFF).toInt,
      (IntN.land (w := 32) (color >>> 16) 0xFF).toInt,
      (IntN.land (w := 32) (color >>> 24) 0xFF).toInt⟩ : M128 Int) = _
    rw [I32.toInt_land_ff, I32.toInt_land_ff, I32.toInt_land_ff, I32.toInt_land_ff,
      U32.val_shr, U32.val_shr, U32.val_shr]
  · show (⟨(Fin.val (color &&& 0xFF) : Int), (Fin.val ((color >>> 8) &&& 0xFF) : Int),
      (Fin.val ((color >>> 16) &&& 0xFF) : Int), (Fin.val ((color >>> 24) &&& 0xFF) : Int)⟩ :
        M128 Int) = _
    rw [U32.val_and_ff, U32.val_and_ff, U32.val_and_ff, U32.val_and_ff, U32.val_shr,
      U32.val_shr, U32.val_shr]

/-- The result of `ColorRGBA8` in terms of the integers it converts. -/
theorem ColorRGBA8.of_lanes (b : ColorBranch) (p : Path) (color : U32) :
    ColorRGBA8 b p color =
      ⟨F32.ofInt (ColorRGBA8.lanes b color).l0 / 255,
       F32.ofInt (ColorRGBA8.lanes b color).l1 / 255,
       F32.ofInt (ColorRGBA8.lanes b color).l2 / 255,
       F32.ofInt (ColorRGBA8.lanes b color).l3 / 255⟩ := by
  cases b <;> unfold ColorRGBA8 <;> simp only [] <;> rw [Vec4.ctor_eq] <;> rfl

/-- C37: `ColorRGBA8` unpacks the same four bytes on its three branches.  For every
32-bit colour and on every branch the integer converted for lane `i`, `i = 0..3`, is
`(color >> 8*i) & 0xFF`, a value in `0..255`; each lane of the result is that integer
converted to `float` and divided by `255.0f`, whatever the constructor path of the
returned vector, so the three branches return the same vector.  `ColorRGBA8(0x78563412)`
is `(18/255, 52/255, 86/255, 120/255)`, and `0xFF` maps to `1`, `0` to `0`. -/
theorem ColorRGBA8_same_bytes :
    (∀ (b : ColorBranch) (color : U32),
      ColorRGBA8.lanes b color =
        ⟨(((Fin.val color >>> 0) &&& 0xFF : Nat) : Int), (((Fin.val color >>> 8) &&& 0xFF : Nat) : Int),
         (((Fin.val color >>> 16) &&& 0xFF : Nat) : Int),
         (((Fin.val color >>> 24) &&& 0xFF : Nat) : Int)⟩) ∧
    (∀ (n k : Nat), (n >>> k) &&& 0xFF ≤ 255 ∧ (n >>> k) &&& 0xFF = n / 2 ^ k % 256) ∧
    (∀ (b : ColorBranch) (p : Path) (color : U32),
      ColorRGBA8 b p color =
        ⟨F32.ofInt (ColorRGBA8.lanes b color).l0 / 255,
         F32.ofInt (ColorRGBA8.lanes b color).l1 / 255,
         F32.ofInt (ColorRGBA8.lanes b color).l2 / 255,
         F32.ofInt (ColorRGBA8.lanes b color).l3 / 255⟩) ∧
    (∀ (b b2 : ColorBranch) (p p2 : Path) (color : U32),
      ColorRGBA8 b p color = ColorRGBA8 b2 p2 color) ∧
    (∀ (b : ColorBranch) (p : Path), ColorRGBA8 b p (0x78563412 : U32) =
      ⟨F32.ofBits 0x3D909091, F32.ofBits 0x3E50D0D1, F32.ofBits 0x3EACACAD,
       F32.ofBits 0x3EF0F0F1⟩) ∧
    (∀ (b : ColorBranch) (p : Path), ColorRGBA8 b p (0xFF0000FF : U32) = ⟨1, 0, 0, 1⟩) := by
  have hbyte : ∀ (n k : Nat), (n >>> k) &&& 0xFF = n / 2 ^ k % 256 := by
    intro n k
    rw [Nat.shiftRight_eq_div_pow]
    exact Nat.and_pow_two_sub_one_eq_mod _ 8
  have hsame : ∀ (b b2 : ColorBranch) (p p2 : Path) (color : U32),
      ColorRGBA8 b p color = ColorRGBA8 b2 p2 color := by
    intro b b2 p p2 color
    rw [ColorRGBA8.of_lanes b, ColorRGBA8.of_lanes b2, ColorRGBA8.lanes_eq b,
      ColorRGBA8.lanes_eq b2]
  refine ⟨?_, ?_, ColorRGBA8.of_lanes, hsame, ?_, ?_⟩
  · intro b color
    rw [ColorRGBA8.lanes_eq, hbyte, hbyte, hbyte, hbyte, Nat.pow_zero, Nat.div_one]
  · intro n k
    refine ⟨?_, hbyte n k⟩
    rw [hbyte]
    have := Nat.mod_lt (n / 2 ^ k) (show 0 < 256 by decide)
    omega
  · intro b p
    rw [ColorRGBA8.of_lanes, ColorRGBA8.lanes_eq]
    have e0 : Fin.val (0x78563412 : U32) % 256 = 18 := by decide
    have e1 : Fin.val (0x78563412 : U32) / 2 ^ 8 % 256 = 52 := by decide
    have e2 : Fin.val (0x78563412 : U32) / 2 ^ 16 % 256 = 86 := by decide
    have e3 : Fin.val (0x78563412 : U32) / 2 ^ 24 % 256 = 120 := by decide
    simp only [e0, e1, e2, e3]
    rw [F32.color_facts.1, F32.color_facts.2.1, F32.color_facts.2.2.1, F32.color_facts.2.2.2.1]
  · intro b p
    rw [ColorRGBA8.of_lanes, ColorRGBA8.lanes_eq]
    have e0 : Fin.val (0xFF0000FF : U32) % 256 = 255 := by decide
    have e1 : Fin.val (0xFF0000FF : U32) / 2 ^ 8 % 256 = 0 := by decide
    have e2 : Fin.val (0xFF0000FF : U32) / 2 ^ 16 % 256 = 0 := by decide
    have e3 : Fin.val (0xFF0000FF : U32) / 2 ^ 24 % 256 = 255 := by decide
    simp only [e0, e1, e2, e3]
    rw [F32.color_facts.2.2.2.2.1, F32.color_facts.2.2.2.2.2]

end PicaToVK

namespace GameSettings

theorem firstMatch_eq {S : Type} (ids : List Nat) (title_id : Nat) (body : S → S) (s : S) :
    firstMatch ids title_id body s = if title_id ∈ ids then body s else s := by
  induction ids with
  | nil => simp [firstMatch]
  | cons id rest ih =>
    unfold firstMatch
    by_cases h : title_id = id
    · simp [h]
    · simp [h, ih]

theorem ids_disjoint :
    (∀ x ∈ core_ticks_hack_ids, x ∉ accurate_mul_ids ∧ x ∉ cpu_limit_ids) ∧
    (∀ x ∈ accurate_mul_ids, x ∉ cpu_limit_ids) := by
  decide

theorem LoadOverrides_eq {σ : Type} (title_id : Nat) (s : Settings.Values σ) :
    LoadOverrides title_id s =
      ⟨s.fmv_hack || decide (title_id ∈ core_ticks_hack_ids),
       s.shaders_accurate_mul || decide (title_id ∈ accurate_mul_ids),
       s.core_downcount_hack || decide (title_id ∈ cpu_limit_ids), s.rest⟩ := by
  unfold LoadOverrides
  simp only [firstMatch_eq, Settings.SetFMVHack]
  obtain ⟨f, a, c, r⟩ := s
  by_cases h1 : title_id ∈ core_ticks_hack_ids <;>
    by_cases h2 : title_id ∈ accurate_mul_ids <;>
    by_cases h3 : title_id ∈ cpu_limit_ids <;> simp [h1, h2, h3]

/-- C38: `LoadOverrides` only turns flags on, and only for listed titles.  For every
`title_id` and every prior state of the settings, afterwards the FMV hack is on iff it
was on before or `title_id` is in `core_ticks_hack_ids`, `shaders_accurate_mul` iff it
was on before or `title_id` is in `accurate_mul_ids`, `core_downcount_hack` iff it was
on before or `title_id` is in `cpu_limit_ids`, and every other setting is as before; a
`title_id` in none of the lists leaves the settings unchanged; the three lists (of `10`,
`10` and `12` identifiers below `2^64`) are pairwise disjoint, so the new state is the
old one with at most one of the three flags set. -/
theorem LoadOverrides_only_sets_listed :
    (∀ (σ : Type) (title_id : Nat) (s : Settings.Values σ),
      ((LoadOverrides title_id s).fmv_hack = true ↔
        (s.fmv_hack = true ∨ title_id ∈ core_ticks_hack_ids)) ∧
      ((LoadOverrides title_id s).shaders_accurate_mul = true ↔
        (s.shaders_accurate_mul = true ∨ title_id ∈ accurate_mul_ids)) ∧
      ((LoadOverrides title_id s).core_downcount_hack = true ↔
        (s.core_downcount_hack = true ∨ title_id ∈ cpu_limit_ids)) ∧
      (LoadOverrides title_id s).rest = s.rest) ∧
    (∀ (σ : Type) (title_id : Nat) (s : Settings.Values σ),
      title_id ∉ core_ticks_hack_ids → title_id ∉ accurate_mul_ids →
      title_id ∉ cpu_limit_ids → LoadOverrides title_id s = s) ∧
    ((∀ x ∈ core_ticks_hack_ids, x ∉ accurate_mul_ids ∧ x ∉ cpu_limit_ids) ∧
      (∀ x ∈ accurate_mul_ids, x ∉ cpu_limit_ids)) ∧
    (core_ticks_hack_ids.length = 10 ∧ accurate_mul_ids.length = 10 ∧
      cpu_limit_ids.length = 12 ∧
      ∀ x ∈ core_ticks_hack_ids ++ accurate_mul_ids ++ cpu_limit_ids, x < 2 ^ 64) ∧
    (∀ (σ : Type) (title_id : Nat) (s : Settings.Values σ),
      LoadOverrides title_id s = s ∨
      LoadOverrides title_id s = { s with fmv_hack := true } ∨
      LoadOverrides title_id s = { s with shaders_accurate_mul := true } ∨
      LoadOverrides title_id s = { s with core_downcount_hack := true }) := by
  refine ⟨?_, ?_, ids_disjoint, by decide, ?_⟩
  · intro σ title_id s
    rw [LoadOverrides_eq]
    simp
  · intro σ title_id s h1 h2 h3
    rw [LoadOverrides_eq]
    simp [h1, h2, h3]
  · intro σ title_id s
    rw [LoadOverrides_eq]
    obtain ⟨f, a, c, r⟩ := s
    by_cases h1 : title_id ∈ core_ticks_hack_ids
    · have hd := ids_disjoint.1 title_id h1
      simp [h1, hd.1, hd.2]
    · by_cases h2 : title_id ∈ accurate_mul_ids
      · have hd := ids_disjoint.2 title_id h2
        simp [h1, h2, hd]
      · by_cases h3 : title_id ∈ cpu_limit_ids
        · simp [h1, h2, h3]
        · simp [h1, h2, h3]

end GameSettings
